import Mathlib

/-!
# Key/value attention cache (`src/models/kv_cache.cpp`, `kv_cache.h`)

A shallow embedding of `KV_Cache_Combined` (fused layout) and `KV_Cache` (split layout),
and of the functions `OgaGeneratorParamsSetInputIDs`, `OgaTokenizerDecode` and
`OgaProcessorDecode` of the C API (`src/ort_genai_c.cpp`).

Conventions of the embedding.

* A run of C++ code ends in one of three ways, recorded as a `Status`: normal return,
  a propagated exception (thrown by tensor allocation during `Update`), or undefined behaviour
  (null `unique_ptr` dereference, `std::span::subspan` outside the span, `operator[]`
  outside a vector).  The cache state at that point is returned next to the status.
* `int64_t` arithmetic on shape entries is done in `Int`.  Signed overflow is undefined
  in C++ and cannot arise for a buffer that has been allocated.  A negative value passed
  where `std::span` expects a `size_t` converts to a value above every buffer size, so
  it is out of range; `subspan` below rejects it for that reason.
* A tensor is its element type tag, its shape and the flat list of its elements.
* The device allocator is an oracle: the k-th allocation request either fails or succeeds,
  and on success it also fixes the unspecified initial content of the fresh buffer.
* The 32-bit `int` and the 64-bit `size_t` of the C API are `Int` and `Nat` with the
  conversions between them written out modulo `2^32` and `2^64`.
* The `int` product `batch_size * num_beams` of the constructors is undefined when it
  overflows (`int_mul`); the constructors then end with `Status.ub` and no cache.
* Name templates are covered where `snprintf` is simple: one-byte characters and a single
  conversion `%d` (`plainTemplate`).
* The copies a reorder issues are also recorded as a list of byte ranges, next to the
  buffers they leave.
-/

namespace Generators

/-- How a piece of code ended. -/
inductive Status where
  | ok
  | threw
  | ub
  deriving DecidableEq, Repr

/-- The device kinds `model_.device_type_` is compared against. -/
inductive DeviceType where
  | CPU
  | CUDA
  deriving DecidableEq, Repr

/-- Modelled from the spec: the tensor element types a score can have ("exactly two
supported element widths, single-precision and half-precision float"); the ONNX
enumeration itself is declared outside the sources at hand. -/
inductive ScoreType where
  | float
  | float16
  deriving DecidableEq, Repr

/-- The entries of `*model.config_` the cache reads (each a C++ `int`). -/
structure Config where
  num_hidden_layers : Int
  num_attention_heads : Int
  hidden_size : Int
  deriving DecidableEq, Repr

/-- The parts of `Model` the cache reads, and the `USE_CUDA` build flag. -/
structure Model where
  USE_CUDA : Bool
  device_type_ : DeviceType
  score_type_ : ScoreType
  config_ : Config
  deriving DecidableEq, Repr

/-- The entries of `SearchParams` the cache reads (each a C++ `int`). -/
structure SearchParams where
  batch_size : Int
  num_beams : Int
  sequence_length : Int
  deriving DecidableEq, Repr

/-- An `OrtValue` holding a tensor. -/
structure Tensor (α : Type) where
  type : ScoreType
  shape : List Int
  data : List α
  deriving DecidableEq, Repr

/-- The allocator oracle `*model_.allocator_device_`: `outcome k` is the fate of the
k-th request, `none` for failure and `some g` for success with initial content `g`;
`count` is the number of requests made so far. -/
structure Allocator (α : Type) where
  outcome : Nat → Option (Nat → α)
  count : Nat

/-- Modelled from the spec: `OrtValue::CreateTensor(allocator, shape, type)`, declared
outside the sources at hand.  It allocates a tensor of the given shape whose content is
unspecified, or throws. -/
def CreateTensor {α : Type} (a : Allocator α) (shape : List Int) (type : ScoreType) :
    Option (Tensor α) × Allocator α :=
  match a.outcome a.count with
  | none => (none, { a with count := a.count + 1 })
  | some g =>
    (some { type := type, shape := shape, data := (List.range shape.prod.toNat).map g },
      { a with count := a.count + 1 })

/-- A `std::span` viewed as a window of a flat buffer. -/
structure Span where
  off : Nat
  size : Nat
  deriving DecidableEq, Repr

/-- `std::span(ptr, element_count)` over a buffer of `len` elements; the range must be
a valid one. -/
def Span.whole (len : Nat) (element_count : Int) : Option Span :=
  if 0 ≤ element_count ∧ element_count ≤ len then some { off := 0, size := element_count.toNat }
  else none

/-- `span.subspan(offset, count)`: defined only when `offset <= size()` and
`count <= size() - offset`. -/
def Span.subspan (s : Span) (offset count : Int) : Option Span :=
  if 0 ≤ offset ∧ 0 ≤ count ∧ offset + count ≤ s.size then
    some { off := s.off + offset.toNat, size := count.toNat }
  else none

/-- Modelled from the spec: the `copy(source, dest)` helper ("synchronous bulk copy"),
declared outside the sources at hand: the elements of `source` overwrite the start of
`dest`. -/
def copy {α : Type} (src : List α) (source : Span) (dst : List α) (dest : Span) : List α :=
  dst.take dest.off ++ ((src.drop source.off).take source.size ++ dst.drop (dest.off + source.size))

/-- The call `cudaMemcpyAsync(dest.data(), source.data(), source.size_bytes(),
cudaMemcpyDeviceToDevice, model_.cuda_stream_)`, as observed by work queued later on
the same stream. -/
def cudaMemcpyAsync {α : Type} (src : List α) (source : Span) (dst : List α) (dest : Span) :
    List α :=
  dst.take dest.off ++ ((src.drop source.off).take source.size ++ dst.drop (dest.off + source.size))

/-- The loop `for (int i = 0; i < n; i++) body`, at index `i` with `remaining`
iterations to go; it stops at the first iteration that does not return normally. -/
def forLoop {σ : Type} (body : Nat → σ → Status × σ) : Nat → Nat → σ → Status × σ
  | _, 0, s => (Status.ok, s)
  | i, remaining + 1, s =>
    match body i s with
    | (Status.ok, s1) => forLoop body (i + 1) remaining s1
    | r => r

/-- The shape `std::array<int64_t, 5> shape_` of the fused cache. -/
structure Shape5 where
  d0 : Int
  d1 : Int
  d2 : Int
  d3 : Int
  d4 : Int
  deriving DecidableEq, Repr

/-- The array as the span handed to `CreateTensor`. -/
def Shape5.toList (s : Shape5) : List Int := [s.d0, s.d1, s.d2, s.d3, s.d4]

/-- The fields of `struct KV_Cache_Combined`. -/
structure KV_Cache_Combined (α : Type) where
  model_ : Model
  layer_count_ : Int
  shape_ : Shape5
  empty_past_ : Option (Tensor α)
  pasts_ : List (Option (Tensor α))
  presents_ : List (Option (Tensor α))
  input_name_strings_ : List String
  output_name_strings_ : List String
  deriving DecidableEq

/-- The host branch of `KV_Cache_Combined::PickPastState<ScoreType>`: the loop over
`j`, here at index `j` with the rest of `beam_indices` still to visit. -/
def KV_Cache_Combined.hostLoop {α : Type} (block_size_per_beam past_key_size : Int)
    (present : List α) (present_span past_span : Span) : Nat → List Int → List α → Status × List α
  | _, [], past => (Status.ok, past)
  | j, beam_index :: rest, past =>
    match present_span.subspan (beam_index * block_size_per_beam) block_size_per_beam,
      present_span.subspan (past_key_size + beam_index * block_size_per_beam) block_size_per_beam,
      past_span.subspan (j * block_size_per_beam) block_size_per_beam,
      past_span.subspan (past_key_size + j * block_size_per_beam) block_size_per_beam with
    | some present_key, some present_value, some past_key, some past_value =>
      KV_Cache_Combined.hostLoop block_size_per_beam past_key_size present present_span past_span
        (j + 1) rest (copy present present_value (copy present present_key past past_key) past_value)
    | _, _, _, _ => (Status.ub, past)

/-- The CUDA branch of `KV_Cache_Combined::PickPastState<ScoreType>`. -/
def KV_Cache_Combined.cudaLoop {α : Type} (block_size_per_beam past_key_size : Int)
    (present : List α) (present_span past_span : Span) : Nat → List Int → List α → Status × List α
  | _, [], past => (Status.ok, past)
  | j, beam_index :: rest, past =>
    match present_span.subspan (beam_index * block_size_per_beam) block_size_per_beam,
      present_span.subspan (past_key_size + beam_index * block_size_per_beam) block_size_per_beam,
      past_span.subspan (j * block_size_per_beam) block_size_per_beam,
      past_span.subspan (past_key_size + j * block_size_per_beam) block_size_per_beam with
    | some present_key, some present_value, some past_key, some past_value =>
      KV_Cache_Combined.cudaLoop block_size_per_beam past_key_size present present_span past_span
        (j + 1) rest
        (cudaMemcpyAsync present present_value (cudaMemcpyAsync present present_key past past_key)
          past_value)
    | _, _, _, _ => (Status.ub, past)

/-- The template `KV_Cache_Combined::PickPastState<ScoreType>(beam_indices, index)`. -/
def KV_Cache_Combined.PickPastStateT {α : Type} (T : ScoreType) (beam_indices : List Int)
    (index : Nat) (self : KV_Cache_Combined α) (a : Allocator α) :
    Status × KV_Cache_Combined α × Allocator α :=
  let block_size_per_beam := self.shape_.d2 * self.shape_.d3 * self.shape_.d4
  let past_key_size := self.shape_.d1 * block_size_per_beam
  let element_count := self.shape_.d0 * past_key_size
  match self.presents_[index]? with
  | some (some present) =>
    match CreateTensor a self.shape_.toList T with
    | (none, a1) => (Status.threw, self, a1)
    | (some past, a1) =>
      match Span.whole past.data.length element_count,
        Span.whole present.data.length element_count with
      | some past_span, some present_span =>
        let r :=
          if self.model_.USE_CUDA && self.model_.device_type_ == DeviceType.CUDA then
            KV_Cache_Combined.cudaLoop block_size_per_beam past_key_size present.data
              present_span past_span 0 beam_indices past.data
          else
            KV_Cache_Combined.hostLoop block_size_per_beam past_key_size present.data
              present_span past_span 0 beam_indices past.data
        match r with
        | (Status.ok, data) =>
          if index < self.pasts_.length then
            (Status.ok,
              { self with pasts_ := self.pasts_.set index (some { past with data := data }) }, a1)
          else (Status.ub, self, a1)
        | (st, _) => (st, self, a1)
      | _, _ => (Status.ub, self, a1)
  | _ => (Status.ub, self, a)

/-- The dispatcher `KV_Cache_Combined::PickPastState(beam_indices, index)`. -/
def KV_Cache_Combined.PickPastState {α : Type} (beam_indices : List Int) (index : Nat)
    (self : KV_Cache_Combined α) (a : Allocator α) : Status × KV_Cache_Combined α × Allocator α :=
  if self.model_.score_type_ = ScoreType.float then
    KV_Cache_Combined.PickPastStateT ScoreType.float beam_indices index self a
  else
    KV_Cache_Combined.PickPastStateT ScoreType.float16 beam_indices index self a

/-- The statement `pasts_[i] = std::move(presents_[i])`. -/
def KV_Cache_Combined.movePresent {α : Type} (i : Nat) (self : KV_Cache_Combined α) :
    Status × KV_Cache_Combined α :=
  match self.presents_[i]? with
  | some p =>
    if i < self.pasts_.length then
      (Status.ok, { self with pasts_ := self.pasts_.set i p, presents_ := self.presents_.set i none })
    else (Status.ub, self)
  | none => (Status.ub, self)

/-- The body of the first loop of `KV_Cache_Combined::Update`. -/
def KV_Cache_Combined.updateBody1 {α : Type} (beam_indices : List Int) (i : Nat)
    (s : KV_Cache_Combined α × Allocator α) : Status × KV_Cache_Combined α × Allocator α :=
  if beam_indices.isEmpty then
    ((KV_Cache_Combined.movePresent i s.1).1, (KV_Cache_Combined.movePresent i s.1).2, s.2)
  else KV_Cache_Combined.PickPastState beam_indices i s.1 s.2

/-- The body of the second loop of `KV_Cache_Combined::Update`:
`presents_[i] = OrtValue::CreateTensor(allocator, shape_, score_type_)`. -/
def KV_Cache_Combined.updateBody2 {α : Type} (i : Nat)
    (s : KV_Cache_Combined α × Allocator α) : Status × KV_Cache_Combined α × Allocator α :=
  match CreateTensor s.2 s.1.shape_.toList s.1.model_.score_type_ with
  | (none, a1) => (Status.threw, s.1, a1)
  | (some t, a1) =>
    if i < s.1.presents_.length then
      (Status.ok, { s.1 with presents_ := s.1.presents_.set i (some t) }, a1)
    else (Status.ub, s.1, a1)

/-- The method `KV_Cache_Combined::Update(beam_indices, current_length)`. -/
def KV_Cache_Combined.Update {α : Type} (beam_indices : List Int) (current_length : Int)
    (self : KV_Cache_Combined α) (a : Allocator α) : Status × KV_Cache_Combined α × Allocator α :=
  match forLoop (KV_Cache_Combined.updateBody1 beam_indices) 0 self.layer_count_.toNat (self, a) with
  | (Status.ok, s1) =>
    forLoop KV_Cache_Combined.updateBody2 0 self.layer_count_.toNat
      ({ s1.1 with shape_ := { s1.1.shape_ with d3 := current_length } }, s1.2)
  | r => r

/-! ### Binding names -/

/-- Decimal digits of `n`, most significant first, with `fuel` digits at most. -/
def decimalAux : Nat → Nat → List Char
  | 0, _ => []
  | fuel + 1, n =>
    if n < 10 then [Nat.digitChar n] else decimalAux fuel (n / 10) ++ [Nat.digitChar (n % 10)]

/-- Decimal digits of `n` without leading zeros; `0` is the single digit zero. -/
def decimal (n : Nat) : List Char := decimalAux (n + 1) n

/-- What the conversion `%d` prints for the `int` argument `i`. -/
def formatInt (i : Int) : List Char :=
  if i < 0 then '-' :: decimal (-i).toNat else decimal i.toNat

/-- The output of `printf`-style formatting of a template whose only conversion is one
`%d` (a `plainTemplate`): the characters of the template with that `%d` replaced by the
digits of `i`.  Other uses of `%` (`%%`, flags, widths, further conversions) are outside
this embedding. -/
def format : List Char → Int → List Char
  | [], _ => []
  | c :: rest, i =>
    match c, rest with
    | '%', 'd' :: tail => formatInt i ++ tail
    | _, _ => c :: format rest i

/-- The call `snprintf(string, size, fmt, i)` followed by reading `string` back: at most
`size - 1` characters of the formatted text are kept.  The limit of the C function counts
bytes; characters and bytes agree on the one-byte characters of a `plainTemplate`, which
is where this embedding is used. -/
def snprintf (size : Nat) (fmt : String) (i : Int) : String :=
  String.mk ((format fmt.toList i).take (size - 1))

/-- The member `const char* past_name_`. -/
def KV_Cache_Combined.past_name_ : String := "past_%d"

/-- The member `const char* present_name_`. -/
def KV_Cache_Combined.present_name_ : String := "present_%d"

/-- The product `a * b` of two C++ `int`s: undefined when it is outside the range of
`int`. -/
def int_mul (a b : Int) : Option Int :=
  if -(2 ^ 31) ≤ a * b ∧ a * b < 2 ^ 31 then some (a * b) else none

/-- The body of the loop of the constructor of `KV_Cache_Combined`. -/
def KV_Cache_Combined.ctorBody {α : Type} (i : Nat) (s : KV_Cache_Combined α × Allocator α) :
    Status × KV_Cache_Combined α × Allocator α :=
  match CreateTensor s.2 s.1.shape_.toList s.1.model_.score_type_ with
  | (none, a1) => (Status.threw, s.1, a1)
  | (some t, a1) =>
    (Status.ok,
      { s.1 with
        presents_ := s.1.presents_ ++ [some t]
        input_name_strings_ :=
          s.1.input_name_strings_ ++ [snprintf 32 KV_Cache_Combined.past_name_ i]
        output_name_strings_ :=
          s.1.output_name_strings_ ++ [snprintf 32 KV_Cache_Combined.present_name_ i] },
      a1)

/-- The constructor `KV_Cache_Combined::KV_Cache_Combined(model, search_params)`.  It
is undefined when the `int` product `batch_size * num_beams` overflows, and it throws,
leaving no cache, from an allocation or from `pasts_.resize` with a negative count (which
converts to a size above `max_size()`). -/
def KV_Cache_Combined.construct {α : Type} (model : Model) (search_params : SearchParams)
    (a : Allocator α) : Status × Option (KV_Cache_Combined α) × Allocator α :=
  let layer_count_ := model.config_.num_hidden_layers
  match int_mul search_params.batch_size search_params.num_beams with
  | none => (Status.ub, none, a)
  | some beams =>
    let shape_ : Shape5 :=
      { d0 := 2, d1 := beams,
        d2 := model.config_.num_attention_heads, d3 := 0, d4 := model.config_.hidden_size }
    match CreateTensor a shape_.toList model.score_type_ with
    | (none, a1) => (Status.threw, none, a1)
    | (some empty_past, a1) =>
      if layer_count_ < 0 then (Status.threw, none, a1)
      else
        match forLoop KV_Cache_Combined.ctorBody 0 layer_count_.toNat
          ({ model_ := model, layer_count_ := layer_count_,
             shape_ := { shape_ with d3 := search_params.sequence_length },
             empty_past_ := some empty_past,
             pasts_ := List.replicate layer_count_.toNat none, presents_ := [],
             input_name_strings_ := [], output_name_strings_ := [] }, a1) with
        | (Status.ok, s) => (Status.ok, some s.1, s.2)
        | (st, s) => (st, none, s.2)

/-! ### The split cache -/

/-- The shape `std::array<int64_t, 4>` of the split cache. -/
structure Shape4 where
  d0 : Int
  d1 : Int
  d2 : Int
  d3 : Int
  deriving DecidableEq, Repr

/-- The array as the span handed to `CreateTensor`. -/
def Shape4.toList (s : Shape4) : List Int := [s.d0, s.d1, s.d2, s.d3]

/-- The fields of `struct KV_Cache`. -/
structure KV_Cache (α : Type) where
  model_ : Model
  layer_count_ : Int
  past_names_ : List String
  present_names_ : List String
  past_cross_names_ : List String
  present_cross_names_ : List String
  shape_ : Shape4
  cross_shape_ : Shape4
  empty_past_ : Option (Tensor α)
  pasts_ : List (Option (Tensor α))
  presents_ : List (Option (Tensor α))
  crosses_ : List (Option (Tensor α))
  input_name_strings_ : List String
  output_name_strings_ : List String
  input_cross_name_strings_ : List String
  output_cross_name_strings_ : List String
  deriving DecidableEq

/-- The host branch of `KV_Cache::PickPastState<ScoreType>`: the loop over `j`. -/
def KV_Cache.hostLoop {α : Type} (block_size_per_beam : Int)
    (present : List α) (present_span past_span : Span) : Nat → List Int → List α → Status × List α
  | _, [], past => (Status.ok, past)
  | j, beam_index :: rest, past =>
    match present_span.subspan (beam_index * block_size_per_beam) block_size_per_beam,
      past_span.subspan (j * block_size_per_beam) block_size_per_beam with
    | some present1, some past1 =>
      KV_Cache.hostLoop block_size_per_beam present present_span past_span
        (j + 1) rest (copy present present1 past past1)
    | _, _ => (Status.ub, past)

/-- The CUDA branch of `KV_Cache::PickPastState<ScoreType>`. -/
def KV_Cache.cudaLoop {α : Type} (block_size_per_beam : Int)
    (present : List α) (present_span past_span : Span) : Nat → List Int → List α → Status × List α
  | _, [], past => (Status.ok, past)
  | j, beam_index :: rest, past =>
    match present_span.subspan (beam_index * block_size_per_beam) block_size_per_beam,
      past_span.subspan (j * block_size_per_beam) block_size_per_beam with
    | some present1, some past1 =>
      KV_Cache.cudaLoop block_size_per_beam present present_span past_span
        (j + 1) rest (cudaMemcpyAsync present present1 past past1)
    | _, _ => (Status.ub, past)

/-- The template `KV_Cache::PickPastState<ScoreType>(beam_indices, index)`. -/
def KV_Cache.PickPastStateT {α : Type} (T : ScoreType) (beam_indices : List Int)
    (index : Nat) (self : KV_Cache α) (a : Allocator α) : Status × KV_Cache α × Allocator α :=
  let block_size_per_beam := self.shape_.d1 * self.shape_.d2 * self.shape_.d3
  let element_count := self.shape_.d0 * block_size_per_beam
  match self.presents_[index]? with
  | some (some present) =>
    match CreateTensor a self.shape_.toList T with
    | (none, a1) => (Status.threw, self, a1)
    | (some past, a1) =>
      match Span.whole past.data.length element_count,
        Span.whole present.data.length element_count with
      | some past_span, some present_span =>
        let r :=
          if self.model_.USE_CUDA && self.model_.device_type_ == DeviceType.CUDA then
            KV_Cache.cudaLoop block_size_per_beam present.data present_span past_span 0
              beam_indices past.data
          else
            KV_Cache.hostLoop block_size_per_beam present.data present_span past_span 0
              beam_indices past.data
        match r with
        | (Status.ok, data) =>
          if index < self.pasts_.length then
            (Status.ok,
              { self with pasts_ := self.pasts_.set index (some { past with data := data }) }, a1)
          else (Status.ub, self, a1)
        | (st, _) => (st, self, a1)
      | _, _ => (Status.ub, self, a1)
  | _ => (Status.ub, self, a)

/-- The dispatcher `KV_Cache::PickPastState(beam_indices, index)`. -/
def KV_Cache.PickPastState {α : Type} (beam_indices : List Int) (index : Nat)
    (self : KV_Cache α) (a : Allocator α) : Status × KV_Cache α × Allocator α :=
  if self.model_.score_type_ = ScoreType.float then
    KV_Cache.PickPastStateT ScoreType.float beam_indices index self a
  else
    KV_Cache.PickPastStateT ScoreType.float16 beam_indices index self a

/-- The statement `pasts_[i] = std::move(presents_[i])`. -/
def KV_Cache.movePresent {α : Type} (i : Nat) (self : KV_Cache α) : Status × KV_Cache α :=
  match self.presents_[i]? with
  | some p =>
    if i < self.pasts_.length then
      (Status.ok, { self with pasts_ := self.pasts_.set i p, presents_ := self.presents_.set i none })
    else (Status.ub, self)
  | none => (Status.ub, self)

/-- The body of the first loop of `KV_Cache::Update`. -/
def KV_Cache.updateBody1 {α : Type} (beam_indices : List Int) (i : Nat)
    (s : KV_Cache α × Allocator α) : Status × KV_Cache α × Allocator α :=
  if beam_indices.isEmpty then
    ((KV_Cache.movePresent i s.1).1, (KV_Cache.movePresent i s.1).2, s.2)
  else KV_Cache.PickPastState beam_indices i s.1 s.2

/-- The body of the second loop of `KV_Cache::Update`:
`presents_[i] = OrtValue::CreateTensor(allocator, shape_, score_type_)`. -/
def KV_Cache.updateBody2 {α : Type} (i : Nat) (s : KV_Cache α × Allocator α) :
    Status × KV_Cache α × Allocator α :=
  match CreateTensor s.2 s.1.shape_.toList s.1.model_.score_type_ with
  | (none, a1) => (Status.threw, s.1, a1)
  | (some t, a1) =>
    if i < s.1.presents_.length then
      (Status.ok, { s.1 with presents_ := s.1.presents_.set i (some t) }, a1)
    else (Status.ub, s.1, a1)

/-- The method `KV_Cache::Update(beam_indices, current_length)`. -/
def KV_Cache.Update {α : Type} (beam_indices : List Int) (current_length : Int)
    (self : KV_Cache α) (a : Allocator α) : Status × KV_Cache α × Allocator α :=
  match forLoop (KV_Cache.updateBody1 beam_indices) 0 (self.layer_count_ * 2).toNat (self, a) with
  | (Status.ok, s1) =>
    forLoop KV_Cache.updateBody2 0 (self.layer_count_ * 2).toNat
      ({ s1.1 with shape_ := { s1.1.shape_ with d2 := current_length } }, s1.2)
  | r => r

/-- The body of the loop of the constructor of `KV_Cache`. -/
def KV_Cache.ctorBody {α : Type} (i : Nat) (s : KV_Cache α × Allocator α) :
    Status × KV_Cache α × Allocator α :=
  match CreateTensor s.2 s.1.shape_.toList s.1.model_.score_type_ with
  | (none, a1) => (Status.threw, s.1, a1)
  | (some t1, a1) =>
    match CreateTensor a1 s.1.shape_.toList s.1.model_.score_type_ with
    | (none, a2) => (Status.threw, { s.1 with presents_ := s.1.presents_ ++ [some t1] }, a2)
    | (some t2, a2) =>
      let self1 : KV_Cache α :=
        { s.1 with
          presents_ := s.1.presents_ ++ [some t1, some t2]
          input_name_strings_ :=
            s.1.input_name_strings_ ++ s.1.past_names_.map (fun name => snprintf 32 name i)
          output_name_strings_ :=
            s.1.output_name_strings_ ++ s.1.present_names_.map (fun name => snprintf 32 name i) }
      if !self1.past_cross_names_.isEmpty then
        match CreateTensor a2 self1.cross_shape_.toList self1.model_.score_type_ with
        | (none, a3) => (Status.threw, self1, a3)
        | (some c1, a3) =>
          match CreateTensor a3 self1.cross_shape_.toList self1.model_.score_type_ with
          | (none, a4) => (Status.threw, { self1 with crosses_ := self1.crosses_ ++ [some c1] }, a4)
          | (some c2, a4) =>
            (Status.ok,
              { self1 with
                crosses_ := self1.crosses_ ++ [some c1, some c2]
                input_cross_name_strings_ :=
                  self1.input_cross_name_strings_ ++
                    self1.past_cross_names_.map (fun name => snprintf 32 name i)
                output_cross_name_strings_ :=
                  self1.output_cross_name_strings_ ++
                    self1.present_cross_names_.map (fun name => snprintf 32 name i) },
              a4)
      else (Status.ok, self1, a2)

/-- The constructor `KV_Cache::KV_Cache(model, search_params, past_names, present_names,
past_cross_names, present_cross_names)`.  It is undefined when the `int` product
`batch_size * num_beams` (in `shape_` and again in `cross_shape_`) overflows, and it
throws, leaving no cache, from an allocation or from `pasts_.resize` with a negative
count. -/
def KV_Cache.construct {α : Type} (model : Model) (search_params : SearchParams)
    (past_names present_names past_cross_names present_cross_names : List String)
    (a : Allocator α) : Status × Option (KV_Cache α) × Allocator α :=
  let layer_count_ := model.config_.num_hidden_layers
  match int_mul search_params.batch_size search_params.num_beams,
    int_mul search_params.batch_size search_params.num_beams with
  | some beams, some cross_beams =>
    let shape_ : Shape4 :=
      { d0 := beams,
        d1 := model.config_.num_attention_heads, d2 := 0, d3 := model.config_.hidden_size }
    let cross_shape_ : Shape4 :=
      { d0 := cross_beams,
        d1 := model.config_.num_attention_heads, d2 := 1500, d3 := model.config_.hidden_size }
    match CreateTensor a shape_.toList model.score_type_ with
    | (none, a1) => (Status.threw, none, a1)
    | (some empty_past, a1) =>
      if layer_count_ * 2 < 0 then (Status.threw, none, a1)
      else
        match forLoop KV_Cache.ctorBody 0 layer_count_.toNat
          ({ model_ := model, layer_count_ := layer_count_,
             past_names_ := past_names, present_names_ := present_names,
             past_cross_names_ := past_cross_names, present_cross_names_ := present_cross_names,
             shape_ := { shape_ with d2 := search_params.sequence_length },
             cross_shape_ := cross_shape_,
             empty_past_ := some empty_past,
             pasts_ := List.replicate (layer_count_ * 2).toNat none, presents_ := [],
             crosses_ := [],
             input_name_strings_ := [], output_name_strings_ := [],
             input_cross_name_strings_ := [], output_cross_name_strings_ := [] }, a1) with
        | (Status.ok, s) => (Status.ok, some s.1, s.2)
        | (st, s) => (st, none, s.2)
  | _, _ => (Status.ub, none, a)

/-! ### Concrete inputs -/

/-- A host model with single-precision scores, two layers, two heads, hidden size 4. -/
def exampleModel : Model :=
  { USE_CUDA := false, device_type_ := DeviceType.CPU, score_type_ := ScoreType.float,
    config_ := { num_hidden_layers := 2, num_attention_heads := 2, hidden_size := 4 } }

/-- An allocator that never fails and hands out zero-filled buffers. -/
def exampleAllocator : Allocator Nat := { outcome := fun _ => some (fun _ => 0), count := 0 }

/-- A one-layer fused cache of shape `[2, 2, 1, 1, 2]` whose present buffer holds a
distinguishable pattern. -/
def exampleFused : KV_Cache_Combined Nat :=
  { model_ := exampleModel, layer_count_ := 1,
    shape_ := { d0 := 2, d1 := 2, d2 := 1, d3 := 1, d4 := 2 },
    empty_past_ := some { type := ScoreType.float, shape := [2, 2, 1, 0, 2], data := [] },
    pasts_ := [none],
    presents_ := [some { type := ScoreType.float, shape := [2, 2, 1, 1, 2],
                         data := [10, 11, 20, 21, 30, 31, 40, 41] }],
    input_name_strings_ := ["past_0"], output_name_strings_ := ["present_0"] }

/-- A one-layer split cache of shape `[3, 1, 1, 1]`: a key and a value tensor with three
beams of one element each. -/
def exampleSplit3 : KV_Cache Nat :=
  { model_ := exampleModel, layer_count_ := 1,
    past_names_ := ["past_key_%d", "past_value_%d"],
    present_names_ := ["present_key_%d", "present_value_%d"],
    past_cross_names_ := [], present_cross_names_ := [],
    shape_ := { d0 := 3, d1 := 1, d2 := 1, d3 := 1 },
    cross_shape_ := { d0 := 3, d1 := 1, d2 := 1500, d3 := 1 },
    empty_past_ := some { type := ScoreType.float, shape := [3, 1, 0, 1], data := [] },
    pasts_ := [none, none],
    presents_ := [some { type := ScoreType.float, shape := [3, 1, 1, 1], data := [10, 20, 30] },
                  some { type := ScoreType.float, shape := [3, 1, 1, 1], data := [40, 50, 60] }],
    crosses_ := [],
    input_name_strings_ := ["past_key_0", "past_value_0"],
    output_name_strings_ := ["present_key_0", "present_value_0"],
    input_cross_name_strings_ := [], output_cross_name_strings_ := [] }

/-- A one-layer split cache of shape `[2, 1, 1, 2]`: a key and a value tensor with two
beams of two elements each. -/
def exampleSplit : KV_Cache Nat :=
  { model_ := exampleModel, layer_count_ := 1,
    past_names_ := ["past_key_%d", "past_value_%d"],
    present_names_ := ["present_key_%d", "present_value_%d"],
    past_cross_names_ := [], present_cross_names_ := [],
    shape_ := { d0 := 2, d1 := 1, d2 := 1, d3 := 2 },
    cross_shape_ := { d0 := 2, d1 := 1, d2 := 1500, d3 := 2 },
    empty_past_ := some { type := ScoreType.float, shape := [2, 1, 0, 2], data := [] },
    pasts_ := [none, none],
    presents_ := [some { type := ScoreType.float, shape := [2, 1, 1, 2], data := [10, 11, 20, 21] },
                  some { type := ScoreType.float, shape := [2, 1, 1, 2], data := [30, 31, 40, 41] }],
    crosses_ := [],
    input_name_strings_ := ["past_key_0", "past_value_0"],
    output_name_strings_ := ["present_key_0", "present_value_0"],
    input_cross_name_strings_ := [], output_cross_name_strings_ := [] }

/-- A run of successive `KV_Cache_Combined::Update` calls, one per decode step, stopping at
the first call that does not return normally. -/
def KV_Cache_Combined.Updates {α : Type} :
    List (List Int × Int) → KV_Cache_Combined α × Allocator α →
      Status × KV_Cache_Combined α × Allocator α
  | [], s => (Status.ok, s)
  | u :: rest, s =>
    match KV_Cache_Combined.Update u.1 u.2 s.1 s.2 with
    | (Status.ok, s1) => KV_Cache_Combined.Updates rest s1
    | r => r

/-- The state between calls of a fused cache with `n` layers whose present buffers have
the shape `[2, B, H, S, D]` held in `shape_`. -/
def KV_Cache_Combined.ShapedAs {α : Type} (c : KV_Cache_Combined α) (n B H S D : Nat) : Prop :=
  c.layer_count_ = (n : Int) ∧
  c.shape_ = { d0 := 2, d1 := B, d2 := H, d3 := S, d4 := D } ∧
  c.pasts_.length = n ∧ c.presents_.length = n ∧
  ∀ p ∈ c.presents_, ∃ t, p = some t ∧
    t.shape = [2, (B : Int), (H : Int), (S : Int), (D : Int)] ∧
    t.data.length = 2 * B * (H * S * D)

/-- A run of successive `KV_Cache::Update` calls, one per decode step, stopping at
the first call that does not return normally. -/
def KV_Cache.Updates {α : Type} :
    List (List Int × Int) → KV_Cache α × Allocator α →
      Status × KV_Cache α × Allocator α
  | [], s => (Status.ok, s)
  | u :: rest, s =>
    match KV_Cache.Update u.1 u.2 s.1 s.2 with
    | (Status.ok, s1) => KV_Cache.Updates rest s1
    | r => r

/-- The state between calls of a split cache with `n` key and value tensors whose present buffers have
the shape `[B, H, S, D]` held in `shape_`. -/
def KV_Cache.ShapedAs {α : Type} (c : KV_Cache α) (n B H S D : Nat) : Prop :=
  c.layer_count_ * 2 = (n : Int) ∧
  c.shape_ = { d0 := B, d1 := H, d2 := S, d3 := D } ∧
  c.pasts_.length = n ∧ c.presents_.length = n ∧
  ∀ p ∈ c.presents_, ∃ t, p = some t ∧
    t.shape = [(B : Int), (H : Int), (S : Int), (D : Int)] ∧
    t.data.length = B * (H * S * D)

/-- Search parameters with one batch item, two beams and initial sequence length 3. -/
def exampleSearchParams : SearchParams := { batch_size := 1, num_beams := 2, sequence_length := 3 }

/-- The forward pass writing its outputs, from slot `i` on: the content of the present
buffer in slot `k` becomes `P k`; shapes and empty slots stay as they are. -/
def writePresents {α : Type} (P : Nat → List α) :
    Nat → List (Option (Tensor α)) → List (Option (Tensor α))
  | _, [] => []
  | i, p :: rest => p.map (fun t => { t with data := P i }) :: writePresents P (i + 1) rest

/-- Modelled from the spec: the forward pass of the execution engine, an external
collaborator that "writes present-name tensors as outputs each step": it fills the
present buffer of every layer `i` with some content `P i` and leaves the rest of the
cache alone. -/
def KV_Cache_Combined.forwardPass {α : Type} (P : Nat → List α) (self : KV_Cache_Combined α) :
    KV_Cache_Combined α :=
  { self with presents_ := writePresents P 0 self.presents_ }

/-- The content the forward pass leaves in layer `i` of the witness: a distinguishable
pattern of 96 values. -/
def examplePattern (i : Nat) : List Nat := (List.range 96).map (fun k => 1000 * i + k)

/-- An allocator whose request number `k` fails and whose other requests succeed with
zero-filled buffers. -/
def exampleAllocatorFailingAt (k : Nat) : Allocator Nat :=
  { outcome := fun i => if i = k then none else some (fun _ => 0), count := 0 }

/-- A model with twelve layers, used to evaluate the constructor at two-digit layer
indices. -/
def exampleDeepModel : Model :=
  { USE_CUDA := false, device_type_ := DeviceType.CPU, score_type_ := ScoreType.float,
    config_ := { num_hidden_layers := 12, num_attention_heads := 1, hidden_size := 1 } }

/-- The one-layer split cache `exampleSplit` with cross-attention names and its two
cross buffers of shape `[2, 1, 1500, 2]`. -/
def exampleSplitCross : KV_Cache Nat :=
  { exampleSplit with
    past_cross_names_ := ["past_key_cross_%d", "past_value_cross_%d"]
    present_cross_names_ := ["present_key_cross_%d", "present_value_cross_%d"]
    crosses_ := [some { type := ScoreType.float, shape := [2, 1, 1500, 2],
                        data := List.replicate 6000 7 },
                 some { type := ScoreType.float, shape := [2, 1, 1500, 2],
                        data := List.replicate 6000 8 }]
    input_cross_name_strings_ := ["past_key_cross_0", "past_value_cross_0"]
    output_cross_name_strings_ := ["present_key_cross_0", "present_value_cross_0"] }

/-- The conversion `static_cast<int>(x)` of a `size_t` value to the 32-bit `int`: the
value congruent to `x` modulo `2^32` in the range of `int`. -/
def static_cast_int (x : Nat) : Int :=
  if x % 2 ^ 32 < 2 ^ 31 then ((x % 2 ^ 32 : Nat) : Int) else ((x % 2 ^ 32 : Nat) : Int) - 2 ^ 32

/-- The conversion of an `int` to `size_t` made by the comparison `int != size_t`: the
value modulo `2^64`. -/
def to_size_t (i : Int) : Nat := (i % 2 ^ 64).toNat

/-- The fields of `GeneratorParams` that `OgaGeneratorParamsSetInputIDs` assigns;
`input_ids` is the span `(input_ids, input_ids_count)`, kept by its element count. -/
structure GeneratorParams where
  input_ids : Nat
  sequence_length : Int
  batch_size : Int
  deriving DecidableEq, Repr

/-- The function `OgaGeneratorParamsSetInputIDs(oga_params, input_ids, input_ids_count,
sequence_length, batch_size)`.  The returned `OgaResult*` is `none` for `nullptr` and
`some msg` for the result made by `OGA_CATCH` from the exception; the status is `ub`
when the `int` product overflows. -/
def OgaGeneratorParamsSetInputIDs (oga_params : GeneratorParams)
    (input_ids_count sequence_length batch_size : Nat) :
    Status × Option String × GeneratorParams :=
  let params : GeneratorParams :=
    { oga_params with
      input_ids := input_ids_count
      sequence_length := static_cast_int sequence_length
      batch_size := static_cast_int batch_size }
  let product := params.sequence_length * params.batch_size
  if product < -(2 ^ 31) ∨ 2 ^ 31 ≤ product then (Status.ub, none, params)
  else if to_size_t product ≠ input_ids_count then
    (Status.ok, some "sequence length * batch size is not equal to input_ids_count", params)
  else (Status.ok, none, params)

/-- Parameters before any input ids are set. -/
def exampleParams : GeneratorParams := { input_ids := 0, sequence_length := 0, batch_size := 0 }

/-- Modelled from the spec: the element width `sizeof(ScoreType)` of the two
instantiations of `PickPastState` ("single-precision and half-precision float"), that is
`sizeof(float)` and `sizeof(Ort::Float16_t)`, both types being declared outside the
sources at hand. -/
def ScoreType.sizeof : ScoreType → Nat
  | ScoreType.float => 4
  | ScoreType.float16 => 2

/-- One bulk copy issued by `PickPastState`, in bytes: where it starts reading in the
present buffer, where it starts writing in the past buffer, and how many bytes it moves. -/
structure CopyOp where
  source : Nat
  dest : Nat
  count : Nat
  deriving DecidableEq, Repr

/-- The bytes moved by `copy(source, dest)` on spans of elements `w` bytes wide. -/
def CopyOp.ofCopy (w : Nat) (source dest : Span) : CopyOp :=
  { source := source.off * w, dest := dest.off * w, count := source.size * w }

/-- The bytes moved by `cudaMemcpyAsync(dst, src, count, ..)`. -/
def CopyOp.ofMemcpy (dst src count : Nat) : CopyOp :=
  { source := src, dest := dst, count := count }

/-- The pointer `span.data()`, in bytes from the start of the buffer, for elements `w`
bytes wide. -/
def Span.data (w : Nat) (s : Span) : Nat := s.off * w

/-- The byte count `span.size_bytes()` for elements `w` bytes wide. -/
def Span.size_bytes (w : Nat) (s : Span) : Nat := s.size * w

/-- The same copy with every byte count multiplied by `k`. -/
def CopyOp.scale (k : Nat) (c : CopyOp) : CopyOp :=
  { source := c.source * k, dest := c.dest * k, count := c.count * k }

/-- The copies issued by the host branch of `KV_Cache_Combined::PickPastState<ScoreType>`,
in order, for `sizeof(ScoreType) = w`, and how the loop ends. -/
def KV_Cache_Combined.hostCopies (w : Nat) (block_size_per_beam past_key_size : Int)
    (present_span past_span : Span) : Nat → List Int → Status × List CopyOp
  | _, [] => (Status.ok, [])
  | j, beam_index :: rest =>
    match present_span.subspan (beam_index * block_size_per_beam) block_size_per_beam,
      present_span.subspan (past_key_size + beam_index * block_size_per_beam) block_size_per_beam,
      past_span.subspan (j * block_size_per_beam) block_size_per_beam,
      past_span.subspan (past_key_size + j * block_size_per_beam) block_size_per_beam with
    | some present_key, some present_value, some past_key, some past_value =>
      let r := KV_Cache_Combined.hostCopies w block_size_per_beam past_key_size present_span
        past_span (j + 1) rest
      (r.1, CopyOp.ofCopy w present_key past_key :: CopyOp.ofCopy w present_value past_value :: r.2)
    | _, _, _, _ => (Status.ub, [])

/-- The copies issued by the CUDA branch of `KV_Cache_Combined::PickPastState<ScoreType>`,
in order, for `sizeof(ScoreType) = w`, and how the loop ends. -/
def KV_Cache_Combined.cudaCopies (w : Nat) (block_size_per_beam past_key_size : Int)
    (present_span past_span : Span) : Nat → List Int → Status × List CopyOp
  | _, [] => (Status.ok, [])
  | j, beam_index :: rest =>
    match present_span.subspan (beam_index * block_size_per_beam) block_size_per_beam,
      present_span.subspan (past_key_size + beam_index * block_size_per_beam) block_size_per_beam,
      past_span.subspan (j * block_size_per_beam) block_size_per_beam,
      past_span.subspan (past_key_size + j * block_size_per_beam) block_size_per_beam with
    | some present_key, some present_value, some past_key, some past_value =>
      let r := KV_Cache_Combined.cudaCopies w block_size_per_beam past_key_size present_span
        past_span (j + 1) rest
      (r.1,
        CopyOp.ofMemcpy (past_key.data w) (present_key.data w) (present_key.size_bytes w) ::
          CopyOp.ofMemcpy (past_value.data w) (present_value.data w)
            (present_value.size_bytes w) :: r.2)
    | _, _, _, _ => (Status.ub, [])

/-- The copies issued by `KV_Cache_Combined::PickPastState<ScoreType>(beam_indices, index)`
and how its loop ends. -/
def KV_Cache_Combined.PickPastStateCopies {α : Type} (T : ScoreType) (beam_indices : List Int)
    (index : Nat) (self : KV_Cache_Combined α) (a : Allocator α) : Status × List CopyOp :=
  let block_size_per_beam := self.shape_.d2 * self.shape_.d3 * self.shape_.d4
  let past_key_size := self.shape_.d1 * block_size_per_beam
  let element_count := self.shape_.d0 * past_key_size
  match self.presents_[index]? with
  | some (some present) =>
    match CreateTensor a self.shape_.toList T with
    | (none, _) => (Status.threw, [])
    | (some past, _) =>
      match Span.whole past.data.length element_count,
        Span.whole present.data.length element_count with
      | some past_span, some present_span =>
        if self.model_.USE_CUDA && self.model_.device_type_ == DeviceType.CUDA then
          KV_Cache_Combined.cudaCopies T.sizeof block_size_per_beam past_key_size present_span
            past_span 0 beam_indices
        else
          KV_Cache_Combined.hostCopies T.sizeof block_size_per_beam past_key_size present_span
            past_span 0 beam_indices
      | _, _ => (Status.ub, [])
  | _ => (Status.ub, [])

/-- The copies issued by the host branch of `KV_Cache::PickPastState<ScoreType>`, in
order, for `sizeof(ScoreType) = w`, and how the loop ends. -/
def KV_Cache.hostCopies (w : Nat) (block_size_per_beam : Int)
    (present_span past_span : Span) : Nat → List Int → Status × List CopyOp
  | _, [] => (Status.ok, [])
  | j, beam_index :: rest =>
    match present_span.subspan (beam_index * block_size_per_beam) block_size_per_beam,
      past_span.subspan (j * block_size_per_beam) block_size_per_beam with
    | some present, some past =>
      let r := KV_Cache.hostCopies w block_size_per_beam present_span past_span (j + 1) rest
      (r.1, CopyOp.ofCopy w present past :: r.2)
    | _, _ => (Status.ub, [])

/-- The copies issued by the CUDA branch of `KV_Cache::PickPastState<ScoreType>`, in
order, for `sizeof(ScoreType) = w`, and how the loop ends. -/
def KV_Cache.cudaCopies (w : Nat) (block_size_per_beam : Int)
    (present_span past_span : Span) : Nat → List Int → Status × List CopyOp
  | _, [] => (Status.ok, [])
  | j, beam_index :: rest =>
    match present_span.subspan (beam_index * block_size_per_beam) block_size_per_beam,
      past_span.subspan (j * block_size_per_beam) block_size_per_beam with
    | some present, some past =>
      let r := KV_Cache.cudaCopies w block_size_per_beam present_span past_span (j + 1) rest
      (r.1, CopyOp.ofMemcpy (past.data w) (present.data w) (present.size_bytes w) :: r.2)
    | _, _ => (Status.ub, [])

/-- The copies issued by `KV_Cache::PickPastState<ScoreType>(beam_indices, index)` and
how its loop ends. -/
def KV_Cache.PickPastStateCopies {α : Type} (T : ScoreType) (beam_indices : List Int)
    (index : Nat) (self : KV_Cache α) (a : Allocator α) : Status × List CopyOp :=
  let block_size_per_beam := self.shape_.d1 * self.shape_.d2 * self.shape_.d3
  let element_count := self.shape_.d0 * block_size_per_beam
  match self.presents_[index]? with
  | some (some present) =>
    match CreateTensor a self.shape_.toList T with
    | (none, _) => (Status.threw, [])
    | (some past, _) =>
      match Span.whole past.data.length element_count,
        Span.whole present.data.length element_count with
      | some past_span, some present_span =>
        if self.model_.USE_CUDA && self.model_.device_type_ == DeviceType.CUDA then
          KV_Cache.cudaCopies T.sizeof block_size_per_beam present_span past_span 0 beam_indices
        else
          KV_Cache.hostCopies T.sizeof block_size_per_beam present_span past_span 0 beam_indices
      | _, _ => (Status.ub, [])
  | _ => (Status.ub, [])

/-- The array made by `std::make_unique<char[]>(length)`: `length` chars, each zero. -/
def make_unique (length : Nat) : List Char := List.replicate length (Char.ofNat 0)

/-- The array `string.c_str()`: the characters of the string and a terminating zero. -/
def c_str (string : List Char) : List Char := string ++ [Char.ofNat 0]

/-- The C library call `strncpy(dest, src, count)` on an array `dest`: it writes exactly
`count` chars at the indices `0 .. count-1`, the chars of `src` before its first zero and
then zeros, and is undefined when `dest` is shorter than `count`.  The result carries the
indices written, in order. -/
def strncpy (dest src : List Char) (count : Nat) : Status × List Char × List Nat :=
  if count ≤ dest.length then
    (Status.ok,
      (src.takeWhile (fun c => c ≠ Char.ofNat 0)).take count ++
        (List.replicate (count - ((src.takeWhile (fun c => c ≠ Char.ofNat 0)).take count).length)
            (Char.ofNat 0) ++ dest.drop count),
      List.range count)
  else (Status.ub, dest, [])

/-- The assignment `buffer[i] = v` to an array: undefined outside the array. -/
def writeAt (buffer : List Char) (i : Nat) (v : Char) : Status × List Char :=
  if i < buffer.length then (Status.ok, buffer.set i v) else (Status.ub, buffer)

/-- The function `OgaTokenizerDecode` (branch without `_MSC_VER`) from the decoded
`string` on: how it ends, the content of `cstr_buffer`, and the indices of `cstr_buffer`
it wrote, in order. -/
def OgaTokenizerDecode (string : List Char) : Status × List Char × List Nat :=
  let length := string.length + 1
  let cstr_buffer := make_unique length
  match strncpy cstr_buffer (c_str string) length with
  | (Status.ok, buffer, written) =>
    ((writeAt buffer length (Char.ofNat 0)).1, (writeAt buffer length (Char.ofNat 0)).2,
      written ++ [length])
  | r => r

/-- The function `OgaProcessorDecode` (branch without `_MSC_VER`) from the decoded
`string` on: how it ends, the content of `cstr_buffer`, and the indices of `cstr_buffer`
it wrote, in order. -/
def OgaProcessorDecode (string : List Char) : Status × List Char × List Nat :=
  let length := string.length + 1
  let cstr_buffer := make_unique length
  match strncpy cstr_buffer (c_str string) length with
  | (Status.ok, buffer, written) =>
    ((writeAt buffer length (Char.ofNat 0)).1, (writeAt buffer length (Char.ofNat 0)).2,
      written ++ [length])
  | r => r

/-! ## Lemmas on spans, copies and loops -/

theorem copy_length {α : Type} (src dst : List α) (source dest : Span)
    (hs : source.off + source.size ≤ src.length) (hd : dest.off + source.size ≤ dst.length) :
    (copy src source dst dest).length = dst.length := by
  simp only [copy, List.length_append, List.length_take, List.length_drop]
  omega

theorem copy_getElem? {α : Type} (src dst : List α) (source dest : Span) (p : Nat)
    (hs : source.off + source.size ≤ src.length) (hd : dest.off + source.size ≤ dst.length) :
    (copy src source dst dest)[p]? =
      if dest.off ≤ p ∧ p < dest.off + source.size then src[source.off + (p - dest.off)]?
      else dst[p]? := by
  have h1 : (dst.take dest.off).length = dest.off := by simp; omega
  have h2 : ((src.drop source.off).take source.size).length = source.size := by simp; omega
  unfold copy
  by_cases hp : p < dest.off
  · rw [List.getElem?_append_left (by omega), List.getElem?_take_of_lt hp]
    have hn : ¬ (dest.off ≤ p ∧ p < dest.off + source.size) := by omega
    simp only [hn, if_false]
  · rw [List.getElem?_append_right (by omega), h1]
    by_cases hp2 : p < dest.off + source.size
    · rw [List.getElem?_append_left (by omega), List.getElem?_take_of_lt (by omega),
        List.getElem?_drop]
      have hy : dest.off ≤ p ∧ p < dest.off + source.size := by omega
      simp only [hy, and_self, if_true]
    · rw [List.getElem?_append_right (by omega), h2, List.getElem?_drop]
      have hn : ¬ (dest.off ≤ p ∧ p < dest.off + source.size) := by omega
      simp only [hn, if_false]
      congr 1; omega

theorem Span.whole_eq (len n : Nat) (h : n ≤ len) :
    Span.whole len (n : Int) = some { off := 0, size := n } := by
  have h2 : ((n : Int) ≤ (len : Int)) := by exact_mod_cast h
  simp [Span.whole, h2]

theorem Span.subspan_eq (s : Span) (o c : Nat) (h : o + c ≤ s.size) :
    s.subspan (o : Int) (c : Int) = some { off := s.off + o, size := c } := by
  have h2 : ((o : Int) + (c : Int) ≤ (s.size : Int)) := by exact_mod_cast h
  simp [Span.subspan, h2]

theorem slot_le (b B blk : Nat) (h : b < B) : b * blk + blk ≤ B * blk := by
  have h1 : (b + 1) * blk ≤ B * blk := Nat.mul_le_mul_right blk h
  rw [Nat.succ_mul] at h1
  exact h1

theorem KV_Cache_Combined.cudaLoop_eq_hostLoop_fused {α : Type} (block pks : Int) (present : List α)
    (ps qs : Span) (rest : List Int) :
    ∀ (j : Nat) (past : List α),
      KV_Cache_Combined.cudaLoop block pks present ps qs j rest past =
        KV_Cache_Combined.hostLoop block pks present ps qs j rest past := by
  induction rest with
  | nil => intro j past; rfl
  | cons b rest ih =>
    intro j past
    unfold KV_Cache_Combined.cudaLoop KV_Cache_Combined.hostLoop
    split
    · simp only [cudaMemcpyAsync, copy] at *
      rw [ih]
    · rfl

theorem KV_Cache_Combined.hostLoop_cons_fused {α : Type} (B blk b j : Nat) (present : List α)
    (rest : List Int) (past : List α) (hb : b < B) (hj : j < B) :
    KV_Cache_Combined.hostLoop (blk : Int) ((B * blk : Nat) : Int) present
        { off := 0, size := 2 * B * blk } { off := 0, size := 2 * B * blk } j ((b : Int) :: rest) past =
      KV_Cache_Combined.hostLoop (blk : Int) ((B * blk : Nat) : Int) present
        { off := 0, size := 2 * B * blk } { off := 0, size := 2 * B * blk } (j + 1) rest
        (copy present { off := B * blk + b * blk, size := blk }
          (copy present { off := b * blk, size := blk } past { off := j * blk, size := blk })
          { off := B * blk + j * blk, size := blk }) := by
  have hb1 := slot_le b B blk hb
  have hj1 := slot_le j B blk hj
  have e1 : (b : Int) * (blk : Int) = ((b * blk : Nat) : Int) := by push_cast; ring
  have e2 : ((B * blk : Nat) : Int) + (b : Int) * (blk : Int) = ((B * blk + b * blk : Nat) : Int) := by
    push_cast; ring
  have e3 : (j : Int) * (blk : Int) = ((j * blk : Nat) : Int) := by push_cast; ring
  have e4 : ((B * blk : Nat) : Int) + (j : Int) * (blk : Int) = ((B * blk + j * blk : Nat) : Int) := by
    push_cast; ring
  have h2 : 2 * B * blk = B * blk + B * blk := by ring
  rw [KV_Cache_Combined.hostLoop, e2, e4, e1, e3,
    Span.subspan_eq _ _ _ (by simp only []; omega), Span.subspan_eq _ _ _ (by simp only []; omega),
    Span.subspan_eq _ _ _ (by simp only []; omega), Span.subspan_eq _ _ _ (by simp only []; omega)]
  simp only [Nat.zero_add]

/-- What the fused copy loop leaves behind, from slot `j` on: it returns normally, keeps
the length, touches only the key and value blocks of the slots it visits, and fills
those with the blocks the mapping names. -/
theorem KV_Cache_Combined.hostLoop_spec_fused {α : Type} (B blk : Nat) (present : List α)
    (hpres : 2 * B * blk ≤ present.length) (rest : List Nat) :
    ∀ (j : Nat) (past : List α), j + rest.length ≤ B → (∀ b ∈ rest, b < B) →
      past.length = 2 * B * blk →
      ∃ out, KV_Cache_Combined.hostLoop (blk : Int) ((B * blk : Nat) : Int) present
          { off := 0, size := 2 * B * blk } { off := 0, size := 2 * B * blk } j
          (rest.map (fun (b : Nat) => (b : Int))) past = (Status.ok, out) ∧
        out.length = past.length ∧
        (∀ p, ¬ (j * blk ≤ p ∧ p < (j + rest.length) * blk) →
          ¬ (B * blk + j * blk ≤ p ∧ p < B * blk + (j + rest.length) * blk) →
          out[p]? = past[p]?) ∧
        (∀ t e, t < rest.length → e < blk →
          out[(j + t) * blk + e]? = present[rest.getD t 0 * blk + e]? ∧
          out[B * blk + (j + t) * blk + e]? = present[B * blk + rest.getD t 0 * blk + e]?) := by
  induction rest with
  | nil =>
    intro j past _ _ _
    refine ⟨past, rfl, rfl, fun _ _ _ => rfl, ?_⟩
    intro t e ht
    simp at ht
  | cons b rest ih =>
    intro j past hj hin hlen
    have hbB : b < B := hin b (List.mem_cons_self _ _)
    have hjB : j < B := by simp only [List.length_cons] at hj; omega
    have hb1 := slot_le b B blk hbB
    have hj1 := slot_le j B blk hjB
    have h2 : 2 * B * blk = B * blk + B * blk := by ring
    have hU : (j + 1 + rest.length) * blk ≤ B * blk :=
      Nat.mul_le_mul_right blk (by simp only [List.length_cons] at hj; omega)
    have hJ : (j + 1) * blk = j * blk + blk := Nat.succ_mul j blk
    have hJU : (j + 1) * blk ≤ (j + 1 + rest.length) * blk :=
      Nat.mul_le_mul_right blk (by omega)
    have hlenEq : (j + (b :: rest).length) * blk = (j + 1 + rest.length) * blk := by
      simp only [List.length_cons]; ring
    -- the two copies of this iteration
    have hl1 : (copy present { off := b * blk, size := blk } past
        { off := j * blk, size := blk }).length = past.length :=
      copy_length _ _ _ _ (by simp only []; omega) (by simp only []; omega)
    have hg1 := fun p => copy_getElem? present past { off := b * blk, size := blk }
      { off := j * blk, size := blk } p (by simp only []; omega) (by simp only []; omega)
    have hl2 : (copy present { off := B * blk + b * blk, size := blk }
        (copy present { off := b * blk, size := blk } past { off := j * blk, size := blk })
        { off := B * blk + j * blk, size := blk }).length = past.length := by
      rw [copy_length _ _ _ _ (by simp only []; omega) (by simp only [hl1]; omega), hl1]
    have hg2 := fun p => copy_getElem? present
      (copy present { off := b * blk, size := blk } past { off := j * blk, size := blk })
      { off := B * blk + b * blk, size := blk } { off := B * blk + j * blk, size := blk } p
      (by simp only []; omega) (by simp only [hl1]; omega)
    simp only [] at hg1 hg2
    obtain ⟨out, hrun, hlo, hkeep, hfill⟩ := ih (j + 1) _ (by simp only [List.length_cons] at hj; omega)
      (fun x hx => hin x (List.mem_cons_of_mem _ hx)) (hl2.trans hlen)
    refine ⟨out, ?_, hlo.trans hl2, ?_, ?_⟩
    · rw [List.map_cons, KV_Cache_Combined.hostLoop_cons_fused B blk b j present _ past hbB hjB]
      exact hrun
    · intro p hp1 hp2
      rw [hlenEq] at hp1 hp2
      rw [hkeep p (by omega) (by omega), hg2 p, if_neg (by omega), hg1 p, if_neg (by omega)]
    · intro t e ht he
      cases t with
      | zero =>
        simp only [Nat.add_zero, List.getD_cons_zero]
        constructor
        · rw [hkeep _ (by omega) (by omega), hg2, if_neg (by omega), hg1, if_pos (by omega)]
          congr 1; omega
        · rw [hkeep _ (by omega) (by omega), hg2, if_pos (by omega)]
          congr 1; omega
      | succ t =>
        have ht2 : t < rest.length := by simp only [List.length_cons] at ht; omega
        have hidx : j + (t + 1) = j + 1 + t := by omega
        simp only [List.getD_cons_succ, hidx]
        exact hfill t e ht2 he

/-- One run of the fused `PickPastState<T>` on a present buffer of the shape held in
`shape_`, with a mapping of in-range entries no longer than the beam dimension. -/
theorem KV_Cache_Combined.PickPastStateT_run_fused {α : Type} (T : ScoreType) (B H S D : Nat)
    (self : KV_Cache_Combined α) (a : Allocator α) (g : Nat → α) (ms : List Nat) (index : Nat)
    (present : Tensor α)
    (hshape : self.shape_ = { d0 := 2, d1 := B, d2 := H, d3 := S, d4 := D })
    (hpres : self.presents_[index]? = some (some present))
    (hplen : present.data.length = 2 * B * (H * S * D))
    (hpast : index < self.pasts_.length)
    (halloc : a.outcome a.count = some g)
    (hm : ms.length ≤ B) (hrange : ∀ b ∈ ms, b < B) :
    ∃ out : List α,
      KV_Cache_Combined.PickPastStateT T (ms.map (fun (b : Nat) => (b : Int))) index self a =
        (Status.ok,
          { self with
            pasts_ := self.pasts_.set index
              (some { type := T, shape := [2, (B : Int), (H : Int), (S : Int), (D : Int)],
                      data := out }) },
          { a with count := a.count + 1 }) ∧
      out.length = 2 * B * (H * S * D) ∧
      (∀ p, ¬ (p < ms.length * (H * S * D)) →
        ¬ (B * (H * S * D) ≤ p ∧ p < B * (H * S * D) + ms.length * (H * S * D)) →
        out[p]? = ((List.range (2 * B * (H * S * D))).map g)[p]?) ∧
      (∀ j e, j < ms.length → e < H * S * D →
        out[j * (H * S * D) + e]? = present.data[ms.getD j 0 * (H * S * D) + e]? ∧
        out[B * (H * S * D) + j * (H * S * D) + e]? =
          present.data[B * (H * S * D) + ms.getD j 0 * (H * S * D) + e]?) := by
  have hprod : ([2, (B : Int), (H : Int), (S : Int), (D : Int)] : List Int).prod =
      ((2 * B * (H * S * D) : Nat) : Int) := by
    simp only [List.prod_cons, List.prod_nil]; push_cast; ring
  have eb : (H : Int) * (S : Int) * (D : Int) = ((H * S * D : Nat) : Int) := by push_cast; ring
  have ek : (B : Int) * ((H * S * D : Nat) : Int) = ((B * (H * S * D) : Nat) : Int) := by
    push_cast; ring
  have ec : (2 : Int) * ((B * (H * S * D) : Nat) : Int) = ((2 * B * (H * S * D) : Nat) : Int) := by
    push_cast; ring
  have hglen : ((List.range (2 * B * (H * S * D))).map g).length = 2 * B * (H * S * D) := by simp
  obtain ⟨out, hrun, hlo, hkeep, hfill⟩ := KV_Cache_Combined.hostLoop_spec_fused B (H * S * D)
    present.data (le_of_eq hplen.symm) ms 0 ((List.range (2 * B * (H * S * D))).map g)
    (by omega) hrange hglen
  refine ⟨out, ?_, hlo.trans hglen, ?_, ?_⟩
  · unfold KV_Cache_Combined.PickPastStateT
    simp only [hshape, hpres, CreateTensor, halloc, Shape5.toList, hprod, Int.toNat_ofNat, eb, ek,
      ec, hglen, hplen, Span.whole_eq _ _ (le_refl _), KV_Cache_Combined.cudaLoop_eq_hostLoop_fused, ite_self,
      hrun, hpast, if_true]
  · intro p h1 h2
    exact hkeep p (by simpa using h1) (by simpa using h2)
  · intro j e hj he
    simpa using hfill j e hj he

/-! ### The split copy loop -/

theorem KV_Cache.cudaLoop_eq_hostLoop_split {α : Type} (block : Int) (present : List α)
    (ps qs : Span) (rest : List Int) :
    ∀ (j : Nat) (past : List α),
      KV_Cache.cudaLoop block present ps qs j rest past =
        KV_Cache.hostLoop block present ps qs j rest past := by
  induction rest with
  | nil => intro j past; rfl
  | cons b rest ih =>
    intro j past
    unfold KV_Cache.cudaLoop KV_Cache.hostLoop
    split
    · simp only [cudaMemcpyAsync, copy] at *
      rw [ih]
    · rfl

theorem KV_Cache.hostLoop_cons_split {α : Type} (B blk b j : Nat) (present : List α)
    (rest : List Int) (past : List α) (hb : b < B) (hj : j < B) :
    KV_Cache.hostLoop (blk : Int) present
        { off := 0, size := B * blk } { off := 0, size := B * blk } j ((b : Int) :: rest) past =
      KV_Cache.hostLoop (blk : Int) present
        { off := 0, size := B * blk } { off := 0, size := B * blk } (j + 1) rest
        (copy present { off := b * blk, size := blk } past { off := j * blk, size := blk }) := by
  have hb1 := slot_le b B blk hb
  have hj1 := slot_le j B blk hj
  have e1 : (b : Int) * (blk : Int) = ((b * blk : Nat) : Int) := by push_cast; ring
  have e3 : (j : Int) * (blk : Int) = ((j * blk : Nat) : Int) := by push_cast; ring
  rw [KV_Cache.hostLoop, e1, e3,
    Span.subspan_eq _ _ _ (by simp only []; omega), Span.subspan_eq _ _ _ (by simp only []; omega)]
  simp only [Nat.zero_add]

/-- What the split copy loop leaves behind, from slot `j` on. -/
theorem KV_Cache.hostLoop_spec_split {α : Type} (B blk : Nat) (present : List α)
    (hpres : B * blk ≤ present.length) (rest : List Nat) :
    ∀ (j : Nat) (past : List α), j + rest.length ≤ B → (∀ b ∈ rest, b < B) →
      past.length = B * blk →
      ∃ out, KV_Cache.hostLoop (blk : Int) present
          { off := 0, size := B * blk } { off := 0, size := B * blk } j
          (rest.map (fun (b : Nat) => (b : Int))) past = (Status.ok, out) ∧
        out.length = past.length ∧
        (∀ p, ¬ (j * blk ≤ p ∧ p < (j + rest.length) * blk) → out[p]? = past[p]?) ∧
        (∀ t e, t < rest.length → e < blk →
          out[(j + t) * blk + e]? = present[rest.getD t 0 * blk + e]?) := by
  induction rest with
  | nil =>
    intro j past _ _ _
    refine ⟨past, rfl, rfl, fun _ _ => rfl, ?_⟩
    intro t e ht
    simp at ht
  | cons b rest ih =>
    intro j past hj hin hlen
    have hbB : b < B := hin b (List.mem_cons_self _ _)
    have hjB : j < B := by simp only [List.length_cons] at hj; omega
    have hb1 := slot_le b B blk hbB
    have hj1 := slot_le j B blk hjB
    have hJ : (j + 1) * blk = j * blk + blk := Nat.succ_mul j blk
    have hJU : (j + 1) * blk ≤ (j + 1 + rest.length) * blk :=
      Nat.mul_le_mul_right blk (by omega)
    have hlenEq : (j + (b :: rest).length) * blk = (j + 1 + rest.length) * blk := by
      simp only [List.length_cons]; ring
    have hl1 : (copy present { off := b * blk, size := blk } past
        { off := j * blk, size := blk }).length = past.length :=
      copy_length _ _ _ _ (by simp only []; omega) (by simp only []; omega)
    have hg1 := fun p => copy_getElem? present past { off := b * blk, size := blk }
      { off := j * blk, size := blk } p (by simp only []; omega) (by simp only []; omega)
    simp only [] at hg1
    obtain ⟨out, hrun, hlo, hkeep, hfill⟩ := ih (j + 1) _ (by simp only [List.length_cons] at hj; omega)
      (fun x hx => hin x (List.mem_cons_of_mem _ hx)) (hl1.trans hlen)
    refine ⟨out, ?_, hlo.trans hl1, ?_, ?_⟩
    · rw [List.map_cons, KV_Cache.hostLoop_cons_split B blk b j present _ past hbB hjB]
      exact hrun
    · intro p hp1
      rw [hlenEq] at hp1
      rw [hkeep p (by omega), hg1 p, if_neg (by omega)]
    · intro t e ht he
      cases t with
      | zero =>
        simp only [Nat.add_zero, List.getD_cons_zero]
        rw [hkeep _ (by omega), hg1, if_pos (by omega)]
        congr 1; omega
      | succ t =>
        have ht2 : t < rest.length := by simp only [List.length_cons] at ht; omega
        have hidx : j + (t + 1) = j + 1 + t := by omega
        simp only [List.getD_cons_succ, hidx]
        exact hfill t e ht2 he

/-- One run of the split `PickPastState<T>` on a present buffer of the shape held in
`shape_`, with a mapping of in-range entries no longer than the beam dimension. -/
theorem KV_Cache.PickPastStateT_run_split {α : Type} (T : ScoreType) (B H S D : Nat)
    (self : KV_Cache α) (a : Allocator α) (g : Nat → α) (ms : List Nat) (index : Nat)
    (present : Tensor α)
    (hshape : self.shape_ = { d0 := B, d1 := H, d2 := S, d3 := D })
    (hpres : self.presents_[index]? = some (some present))
    (hplen : present.data.length = B * (H * S * D))
    (hpast : index < self.pasts_.length)
    (halloc : a.outcome a.count = some g)
    (hm : ms.length ≤ B) (hrange : ∀ b ∈ ms, b < B) :
    ∃ out : List α,
      KV_Cache.PickPastStateT T (ms.map (fun (b : Nat) => (b : Int))) index self a =
        (Status.ok,
          { self with
            pasts_ := self.pasts_.set index
              (some { type := T, shape := [(B : Int), (H : Int), (S : Int), (D : Int)],
                      data := out }) },
          { a with count := a.count + 1 }) ∧
      out.length = B * (H * S * D) ∧
      (∀ p, ¬ (p < ms.length * (H * S * D)) →
        out[p]? = ((List.range (B * (H * S * D))).map g)[p]?) ∧
      (∀ j e, j < ms.length → e < H * S * D →
        out[j * (H * S * D) + e]? = present.data[ms.getD j 0 * (H * S * D) + e]?) := by
  have hprod : ([(B : Int), (H : Int), (S : Int), (D : Int)] : List Int).prod =
      ((B * (H * S * D) : Nat) : Int) := by
    simp only [List.prod_cons, List.prod_nil]; push_cast; ring
  have eb : (H : Int) * (S : Int) * (D : Int) = ((H * S * D : Nat) : Int) := by push_cast; ring
  have ek : (B : Int) * ((H * S * D : Nat) : Int) = ((B * (H * S * D) : Nat) : Int) := by
    push_cast; ring
  have hglen : ((List.range (B * (H * S * D))).map g).length = B * (H * S * D) := by simp
  obtain ⟨out, hrun, hlo, hkeep, hfill⟩ := KV_Cache.hostLoop_spec_split B (H * S * D)
    present.data (le_of_eq hplen.symm) ms 0 ((List.range (B * (H * S * D))).map g)
    (by omega) hrange hglen
  refine ⟨out, ?_, hlo.trans hglen, ?_, ?_⟩
  · unfold KV_Cache.PickPastStateT
    simp only [hshape, hpres, CreateTensor, halloc, Shape4.toList, hprod, Int.toNat_ofNat, eb, ek,
      hglen, hplen, Span.whole_eq _ _ (le_refl _), KV_Cache.cudaLoop_eq_hostLoop_split, ite_self,
      hrun, hpast, if_true]
  · intro p h1
    exact hkeep p (by simpa using h1)
  · intro j e hj he
    simpa using hfill j e hj he

/-! ### Loops -/

/-- A loop whose every iteration returns normally and re-establishes an invariant returns
normally with the invariant at the final index. -/
theorem forLoop_ok {σ : Type} (body : Nat → σ → Status × σ) (P : Nat → σ → Prop) :
    ∀ (n i0 : Nat) (s0 : σ), P i0 s0 →
      (∀ i s, i0 ≤ i → i < i0 + n → P i s → ∃ s1, body i s = (Status.ok, s1) ∧ P (i + 1) s1) →
      ∃ s1, forLoop body i0 n s0 = (Status.ok, s1) ∧ P (i0 + n) s1 := by
  intro n
  induction n with
  | zero => intro i0 s0 h0 _; exact ⟨s0, rfl, h0⟩
  | succ n ih =>
    intro i0 s0 h0 hstep
    obtain ⟨s1, hb, h1⟩ := hstep i0 s0 (le_refl _) (by omega) h0
    obtain ⟨s2, hrun, h2⟩ := ih (i0 + 1) s1 h1
      (fun i s hi hlt hP => hstep i s (by omega) (by omega) hP)
    refine ⟨s2, ?_, ?_⟩
    · rw [forLoop, hb]; exact hrun
    · have e : i0 + (n + 1) = i0 + 1 + n := by omega
      rw [e]; exact h2

/-- A property of the state that every iteration keeps, however it ends, holds of the
state the loop ends in. -/
theorem forLoop_preserves {σ : Type} (body : Nat → σ → Status × σ) (P : σ → Prop)
    (h : ∀ i s, P s → P (body i s).2) :
    ∀ (n i : Nat) (s : σ), P s → P (forLoop body i n s).2 := by
  intro n
  induction n with
  | zero => intro i s hs; exact hs
  | succ n ih =>
    intro i s hs
    have hb := h i s hs
    rw [forLoop]
    rcases hbody : body i s with ⟨st, s1⟩
    rw [hbody] at hb
    cases st
    · exact ih (i + 1) s1 hb
    · exact hb
    · exact hb

/-! ### Mappings and dispatch -/

theorem map_toNat_cast (m : List Int) (h : ∀ x ∈ m, 0 ≤ x) :
    (m.map Int.toNat).map (fun (b : Nat) => (b : Int)) = m := by
  induction m with
  | nil => rfl
  | cons x rest ih =>
    simp only [List.map_cons]
    rw [ih (fun y hy => h y (List.mem_cons_of_mem _ hy)),
      Int.toNat_of_nonneg (h x (List.mem_cons_self _ _))]

theorem getD_map_toNat (m : List Int) (j : Nat) :
    (m.map Int.toNat).getD j 0 = (m.getD j 0).toNat := by
  induction m generalizing j with
  | nil => simp
  | cons x rest ih =>
    cases j with
    | zero => simp
    | succ j => simpa using ih j

theorem mem_map_toNat_lt (m : List Int) (B : Nat) (h : ∀ x ∈ m, 0 ≤ x ∧ x < (B : Int)) :
    ∀ b ∈ m.map Int.toNat, b < B := by
  intro b hb
  obtain ⟨x, hx, rfl⟩ := List.mem_map.mp hb
  have := h x hx
  omega

theorem KV_Cache_Combined.PickPastState_eq_fused {α : Type} (m : List Int) (index : Nat)
    (self : KV_Cache_Combined α) (a : Allocator α) :
    KV_Cache_Combined.PickPastState m index self a =
      KV_Cache_Combined.PickPastStateT self.model_.score_type_ m index self a := by
  unfold KV_Cache_Combined.PickPastState
  cases h : self.model_.score_type_ <;> simp

theorem KV_Cache.PickPastState_eq_split {α : Type} (m : List Int) (index : Nat)
    (self : KV_Cache α) (a : Allocator α) :
    KV_Cache.PickPastState m index self a =
      KV_Cache.PickPastStateT self.model_.score_type_ m index self a := by
  unfold KV_Cache.PickPastState
  cases h : self.model_.score_type_ <;> simp

/-- Every index of a fused buffer lies in the key block or in the value block of one slot. -/
theorem fused_cover (B blk k : Nat) (hk : k < 2 * B * blk) :
    ∃ j e, j < B ∧ e < blk ∧ (k = j * blk + e ∨ k = B * blk + j * blk + e) := by
  have hpos : 0 < blk := by
    rcases Nat.eq_zero_or_pos blk with h | h
    · subst h; simp at hk
    · exact h
  have h2 : 2 * B * blk = B * blk + B * blk := by ring
  by_cases hlt : k < B * blk
  · refine ⟨k / blk, k % blk, (Nat.div_lt_iff_lt_mul hpos).mpr hlt, Nat.mod_lt _ hpos, Or.inl ?_⟩
    have := Nat.div_add_mod k blk
    rw [Nat.mul_comm] at this
    omega
  · have hk2 : k - B * blk < B * blk := by omega
    refine ⟨(k - B * blk) / blk, (k - B * blk) % blk, (Nat.div_lt_iff_lt_mul hpos).mpr hk2,
      Nat.mod_lt _ hpos, Or.inr ?_⟩
    have := Nat.div_add_mod (k - B * blk) blk
    rw [Nat.mul_comm] at this
    omega

/-- Every index of a split buffer lies in the block of one slot. -/
theorem split_cover (B blk k : Nat) (hk : k < B * blk) :
    ∃ j e, j < B ∧ e < blk ∧ k = j * blk + e := by
  have hpos : 0 < blk := by
    rcases Nat.eq_zero_or_pos blk with h | h
    · subst h; simp at hk
    · exact h
  refine ⟨k / blk, k % blk, (Nat.div_lt_iff_lt_mul hpos).mpr hk, Nat.mod_lt _ hpos, ?_⟩
  have := Nat.div_add_mod k blk
  rw [Nat.mul_comm] at this
  omega

/-! ### The loops of the fused `Update` -/

theorem presents_get {α : Type} (ps : List (Option (Tensor α))) (N i : Nat) (hi : i < ps.length)
    (h : ∀ p ∈ ps, ∃ t, p = some t ∧ t.data.length = N) :
    ∃ t, ps[i]? = some (some t) ∧ t.data.length = N := by
  obtain ⟨t, ht, hl⟩ := h ps[i] (List.getElem_mem _)
  exact ⟨t, by rw [List.getElem?_eq_getElem hi, ht], hl⟩

/-- The first loop of the fused `Update` with a non-empty mapping. -/
theorem KV_Cache_Combined.reorderLoop_run_fused {α : Type} (B H S D : Nat)
    (self : KV_Cache_Combined α) (a : Allocator α) (ms : List Nat) (n : Nat)
    (hshape : self.shape_ = { d0 := 2, d1 := B, d2 := H, d3 := S, d4 := D })
    (hpl : self.pasts_.length = n) (hprl : self.presents_.length = n)
    (hpres : ∀ p ∈ self.presents_, ∃ t, p = some t ∧ t.data.length = 2 * B * (H * S * D))
    (halloc : ∀ k, k < n → ∃ g, a.outcome (a.count + k) = some g)
    (hne : ms ≠ []) (hm : ms.length ≤ B) (hrange : ∀ b ∈ ms, b < B) :
    ∃ ps : List (Option (Tensor α)),
      forLoop (KV_Cache_Combined.updateBody1 (ms.map (fun (b : Nat) => (b : Int)))) 0 n (self, a) =
        (Status.ok, { self with pasts_ := ps }, { a with count := a.count + n }) ∧
      ps.length = n ∧
      ∀ i, i < n → ∃ present out g, self.presents_[i]? = some (some present) ∧
        a.outcome (a.count + i) = some g ∧
        ps[i]? = some (some { type := self.model_.score_type_,
                              shape := [2, (B : Int), (H : Int), (S : Int), (D : Int)],
                              data := out }) ∧
        out.length = 2 * B * (H * S * D) ∧
        (∀ p, ¬ (p < ms.length * (H * S * D)) →
          ¬ (B * (H * S * D) ≤ p ∧ p < B * (H * S * D) + ms.length * (H * S * D)) →
          out[p]? = ((List.range (2 * B * (H * S * D))).map g)[p]?) ∧
        (∀ j e, j < ms.length → e < H * S * D →
          out[j * (H * S * D) + e]? = present.data[ms.getD j 0 * (H * S * D) + e]? ∧
          out[B * (H * S * D) + j * (H * S * D) + e]? =
            present.data[B * (H * S * D) + ms.getD j 0 * (H * S * D) + e]?) := by
  have hmne : (ms.map (fun (b : Nat) => (b : Int))).isEmpty = false := by
    cases ms with
    | nil => exact absurd rfl hne
    | cons x xs => rfl
  obtain ⟨s1, hrun, ps, hs1, hlen, hall⟩ := forLoop_ok
    (KV_Cache_Combined.updateBody1 (ms.map (fun (b : Nat) => (b : Int))))
    (fun i s => ∃ ps : List (Option (Tensor α)),
      s = ({ self with pasts_ := ps }, { a with count := a.count + i }) ∧ ps.length = n ∧
      ∀ k, k < i → ∃ present out g, self.presents_[k]? = some (some present) ∧
        a.outcome (a.count + k) = some g ∧
        ps[k]? = some (some { type := self.model_.score_type_,
                              shape := [2, (B : Int), (H : Int), (S : Int), (D : Int)],
                              data := out }) ∧
        out.length = 2 * B * (H * S * D) ∧
        (∀ p, ¬ (p < ms.length * (H * S * D)) →
          ¬ (B * (H * S * D) ≤ p ∧ p < B * (H * S * D) + ms.length * (H * S * D)) →
          out[p]? = ((List.range (2 * B * (H * S * D))).map g)[p]?) ∧
        (∀ j e, j < ms.length → e < H * S * D →
          out[j * (H * S * D) + e]? = present.data[ms.getD j 0 * (H * S * D) + e]? ∧
          out[B * (H * S * D) + j * (H * S * D) + e]? =
            present.data[B * (H * S * D) + ms.getD j 0 * (H * S * D) + e]?))
    n 0 (self, a) ⟨self.pasts_, by simp, hpl, fun k hk => absurd hk (Nat.not_lt_zero k)⟩
    (by
      intro i s _ hi ⟨ps, hs, hlen, hprev⟩
      subst hs
      obtain ⟨present, hget, hplen⟩ := presents_get self.presents_ _ i (by omega) hpres
      obtain ⟨g, hg⟩ := halloc i (by omega)
      obtain ⟨out, hrun, holen, hkeep, hfill⟩ := KV_Cache_Combined.PickPastStateT_run_fused
        self.model_.score_type_ B H S D { self with pasts_ := ps } { a with count := a.count + i }
        g ms i present hshape hget hplen (by simp only [hlen]; omega) hg hm hrange
      refine ⟨({ self with
          pasts_ := ps.set i (some { type := self.model_.score_type_,
                                     shape := [2, (B : Int), (H : Int), (S : Int), (D : Int)],
                                     data := out }) }, { a with count := a.count + (i + 1) }),
        ?_, ps.set i (some { type := self.model_.score_type_,
                             shape := [2, (B : Int), (H : Int), (S : Int), (D : Int)],
                             data := out }), rfl, by simp [hlen], ?_⟩
      · simp only [KV_Cache_Combined.updateBody1, hmne, Bool.false_eq_true, if_false]
        rw [KV_Cache_Combined.PickPastState_eq_fused]
        exact hrun
      · intro k hk
        by_cases hki : k = i
        · subst hki
          refine ⟨present, out, g, hget, hg, ?_, holen, hkeep, hfill⟩
          rw [List.getElem?_set_self (by omega)]
        · obtain ⟨pr, o, g2, h1, h2, h3, h4⟩ := hprev k (by omega)
          refine ⟨pr, o, g2, h1, h2, ?_, h4⟩
          rw [List.getElem?_set_ne (by omega)]
          exact h3)
  subst hs1
  refine ⟨ps, ?_, hlen, fun i hi => hall i (by omega)⟩
  simpa using hrun

/-- The first loop of the fused `Update` with the empty mapping: every present buffer
moves into the past slot of its layer and leaves an empty present slot. -/
theorem KV_Cache_Combined.moveLoop_run_fused {α : Type} (self : KV_Cache_Combined α) (a : Allocator α)
    (n : Nat) (hpl : self.pasts_.length = n) (hprl : self.presents_.length = n) :
    forLoop (KV_Cache_Combined.updateBody1 []) 0 n (self, a) =
      (Status.ok, { self with pasts_ := self.presents_, presents_ := List.replicate n none }, a) := by
  obtain ⟨s1, hrun, ps, prs, hs1, hl1, hl2, hlow, hhigh⟩ := forLoop_ok
    (KV_Cache_Combined.updateBody1 ([] : List Int))
    (fun i s => ∃ ps prs : List (Option (Tensor α)),
      s = ({ self with pasts_ := ps, presents_ := prs }, a) ∧ ps.length = n ∧ prs.length = n ∧
      (∀ k, k < i → ps[k]? = self.presents_[k]? ∧ prs[k]? = some none) ∧
      (∀ k, i ≤ k → prs[k]? = self.presents_[k]?))
    n 0 (self, a) ⟨self.pasts_, self.presents_, rfl, hpl, hprl,
      fun k hk => absurd hk (Nat.not_lt_zero k), fun _ _ => rfl⟩
    (by
      intro i s _ hi ⟨ps, prs, hs, hl1, hl2, hlow, hhigh⟩
      subst hs
      have hget : prs[i]? = some (prs[i]) := List.getElem?_eq_getElem (by omega)
      refine ⟨({ self with pasts_ := ps.set i prs[i], presents_ := prs.set i none }, a), ?_,
        ps.set i prs[i], prs.set i none, rfl, by simp [hl1], by simp [hl2], ?_, ?_⟩
      · have hin : i < n := by omega
        simp [KV_Cache_Combined.updateBody1, KV_Cache_Combined.movePresent, hget, hl1, hin]
      · intro k hk
        by_cases hki : k = i
        · subst hki
          rw [List.getElem?_set_self (by omega), List.getElem?_set_self (by omega),
            ← hhigh k (le_refl _), hget]
          exact ⟨rfl, rfl⟩
        · rw [List.getElem?_set_ne (by omega), List.getElem?_set_ne (by omega)]
          exact hlow k (by omega)
      · intro k hk
        rw [List.getElem?_set_ne (by omega)]
        exact hhigh k (by omega))
  rw [hrun, hs1]
  have e1 : ps = self.presents_ := by
    apply List.ext_getElem?
    intro k
    by_cases hk : k < n
    · exact (hlow k (by omega)).1
    · rw [List.getElem?_eq_none (by omega), List.getElem?_eq_none (by omega)]
  have e2 : prs = List.replicate n none := by
    apply List.ext_getElem?
    intro k
    by_cases hk : k < n
    · rw [(hlow k (by omega)).2, List.getElem?_replicate]; simp [hk]
    · rw [List.getElem?_eq_none (by omega), List.getElem?_eq_none (by simp; omega)]
  rw [e1, e2]

/-- The second loop of the fused `Update` when no allocation fails: every present slot
receives a fresh tensor of the shape held in `shape_`. -/
theorem KV_Cache_Combined.allocLoop_run_fused {α : Type} (self : KV_Cache_Combined α) (a : Allocator α)
    (n : Nat) (hprl : self.presents_.length = n)
    (halloc : ∀ k, k < n → ∃ g, a.outcome (a.count + k) = some g) :
    ∃ prs : List (Option (Tensor α)),
      forLoop KV_Cache_Combined.updateBody2 0 n (self, a) =
        (Status.ok, { self with presents_ := prs }, { a with count := a.count + n }) ∧
      prs.length = n ∧
      ∀ i, i < n → ∃ g, a.outcome (a.count + i) = some g ∧
        prs[i]? = some (some { type := self.model_.score_type_, shape := self.shape_.toList,
                               data := (List.range self.shape_.toList.prod.toNat).map g }) := by
  obtain ⟨s1, hrun, prs, hs1, hlen, hall⟩ := forLoop_ok KV_Cache_Combined.updateBody2
    (fun i s => ∃ prs : List (Option (Tensor α)),
      s = ({ self with presents_ := prs }, { a with count := a.count + i }) ∧ prs.length = n ∧
      ∀ k, k < i → ∃ g, a.outcome (a.count + k) = some g ∧
        prs[k]? = some (some { type := self.model_.score_type_, shape := self.shape_.toList,
                               data := (List.range self.shape_.toList.prod.toNat).map g }))
    n 0 (self, a) ⟨self.presents_, by simp, hprl, fun k hk => absurd hk (Nat.not_lt_zero k)⟩
    (by
      intro i s _ hi ⟨prs, hs, hlen, hprev⟩
      subst hs
      obtain ⟨g, hg⟩ := halloc i (by omega)
      refine ⟨({ self with
          presents_ := prs.set i
            (some { type := self.model_.score_type_, shape := self.shape_.toList,
                    data := (List.range self.shape_.toList.prod.toNat).map g }) },
          { a with count := a.count + (i + 1) }), ?_, _, rfl, by simp [hlen], ?_⟩
      · have hi2 : i < prs.length := by omega
        simp [KV_Cache_Combined.updateBody2, CreateTensor, hg, hi2]
        rfl
      · intro k hk
        by_cases hki : k = i
        · subst hki
          exact ⟨g, hg, by rw [List.getElem?_set_self (by omega)]⟩
        · obtain ⟨g2, h1, h2⟩ := hprev k (by omega)
          exact ⟨g2, h1, by rw [List.getElem?_set_ne (by omega)]; exact h2⟩)
  subst hs1
  exact ⟨prs, by simpa using hrun, hlen, fun i hi => hall i (by omega)⟩

/-! ### The loops of the split `Update` -/

/-- The first loop of the split `Update` with a non-empty mapping. -/
theorem KV_Cache.reorderLoop_run_split {α : Type} (B H S D : Nat)
    (self : KV_Cache α) (a : Allocator α) (ms : List Nat) (n : Nat)
    (hshape : self.shape_ = { d0 := B, d1 := H, d2 := S, d3 := D })
    (hpl : self.pasts_.length = n) (hprl : self.presents_.length = n)
    (hpres : ∀ p ∈ self.presents_, ∃ t, p = some t ∧ t.data.length = B * (H * S * D))
    (halloc : ∀ k, k < n → ∃ g, a.outcome (a.count + k) = some g)
    (hne : ms ≠ []) (hm : ms.length ≤ B) (hrange : ∀ b ∈ ms, b < B) :
    ∃ ps : List (Option (Tensor α)),
      forLoop (KV_Cache.updateBody1 (ms.map (fun (b : Nat) => (b : Int)))) 0 n (self, a) =
        (Status.ok, { self with pasts_ := ps }, { a with count := a.count + n }) ∧
      ps.length = n ∧
      ∀ i, i < n → ∃ present out g, self.presents_[i]? = some (some present) ∧
        a.outcome (a.count + i) = some g ∧
        ps[i]? = some (some { type := self.model_.score_type_,
                              shape := [(B : Int), (H : Int), (S : Int), (D : Int)],
                              data := out }) ∧
        out.length = B * (H * S * D) ∧
        (∀ p, ¬ (p < ms.length * (H * S * D)) →
          out[p]? = ((List.range (B * (H * S * D))).map g)[p]?) ∧
        (∀ j e, j < ms.length → e < H * S * D →
          out[j * (H * S * D) + e]? = present.data[ms.getD j 0 * (H * S * D) + e]?) := by
  have hmne : (ms.map (fun (b : Nat) => (b : Int))).isEmpty = false := by
    cases ms with
    | nil => exact absurd rfl hne
    | cons x xs => rfl
  obtain ⟨s1, hrun, ps, hs1, hlen, hall⟩ := forLoop_ok
    (KV_Cache.updateBody1 (ms.map (fun (b : Nat) => (b : Int))))
    (fun i s => ∃ ps : List (Option (Tensor α)),
      s = ({ self with pasts_ := ps }, { a with count := a.count + i }) ∧ ps.length = n ∧
      ∀ k, k < i → ∃ present out g, self.presents_[k]? = some (some present) ∧
        a.outcome (a.count + k) = some g ∧
        ps[k]? = some (some { type := self.model_.score_type_,
                              shape := [(B : Int), (H : Int), (S : Int), (D : Int)],
                              data := out }) ∧
        out.length = B * (H * S * D) ∧
        (∀ p, ¬ (p < ms.length * (H * S * D)) →
          out[p]? = ((List.range (B * (H * S * D))).map g)[p]?) ∧
        (∀ j e, j < ms.length → e < H * S * D →
          out[j * (H * S * D) + e]? = present.data[ms.getD j 0 * (H * S * D) + e]?))
    n 0 (self, a) ⟨self.pasts_, by simp, hpl, fun k hk => absurd hk (Nat.not_lt_zero k)⟩
    (by
      intro i s _ hi ⟨ps, hs, hlen, hprev⟩
      subst hs
      obtain ⟨present, hget, hplen⟩ := presents_get self.presents_ _ i (by omega) hpres
      obtain ⟨g, hg⟩ := halloc i (by omega)
      obtain ⟨out, hrun, holen, hkeep, hfill⟩ := KV_Cache.PickPastStateT_run_split
        self.model_.score_type_ B H S D { self with pasts_ := ps } { a with count := a.count + i }
        g ms i present hshape hget hplen (by simp only [hlen]; omega) hg hm hrange
      refine ⟨({ self with
          pasts_ := ps.set i (some { type := self.model_.score_type_,
                                     shape := [(B : Int), (H : Int), (S : Int), (D : Int)],
                                     data := out }) }, { a with count := a.count + (i + 1) }),
        ?_, ps.set i (some { type := self.model_.score_type_,
                             shape := [(B : Int), (H : Int), (S : Int), (D : Int)],
                             data := out }), rfl, by simp [hlen], ?_⟩
      · simp only [KV_Cache.updateBody1, hmne, Bool.false_eq_true, if_false]
        rw [KV_Cache.PickPastState_eq_split]
        exact hrun
      · intro k hk
        by_cases hki : k = i
        · subst hki
          refine ⟨present, out, g, hget, hg, ?_, holen, hkeep, hfill⟩
          rw [List.getElem?_set_self (by omega)]
        · obtain ⟨pr, o, g2, h1, h2, h3, h4⟩ := hprev k (by omega)
          refine ⟨pr, o, g2, h1, h2, ?_, h4⟩
          rw [List.getElem?_set_ne (by omega)]
          exact h3)
  subst hs1
  refine ⟨ps, ?_, hlen, fun i hi => hall i (by omega)⟩
  simpa using hrun

/-- The first loop of the split `Update` with the empty mapping: every present buffer
moves into the past slot of its layer and leaves an empty present slot. -/
theorem KV_Cache.moveLoop_run_split {α : Type} (self : KV_Cache α) (a : Allocator α)
    (n : Nat) (hpl : self.pasts_.length = n) (hprl : self.presents_.length = n) :
    forLoop (KV_Cache.updateBody1 []) 0 n (self, a) =
      (Status.ok, { self with pasts_ := self.presents_, presents_ := List.replicate n none }, a) := by
  obtain ⟨s1, hrun, ps, prs, hs1, hl1, hl2, hlow, hhigh⟩ := forLoop_ok
    (KV_Cache.updateBody1 ([] : List Int))
    (fun i s => ∃ ps prs : List (Option (Tensor α)),
      s = ({ self with pasts_ := ps, presents_ := prs }, a) ∧ ps.length = n ∧ prs.length = n ∧
      (∀ k, k < i → ps[k]? = self.presents_[k]? ∧ prs[k]? = some none) ∧
      (∀ k, i ≤ k → prs[k]? = self.presents_[k]?))
    n 0 (self, a) ⟨self.pasts_, self.presents_, rfl, hpl, hprl,
      fun k hk => absurd hk (Nat.not_lt_zero k), fun _ _ => rfl⟩
    (by
      intro i s _ hi ⟨ps, prs, hs, hl1, hl2, hlow, hhigh⟩
      subst hs
      have hget : prs[i]? = some (prs[i]) := List.getElem?_eq_getElem (by omega)
      refine ⟨({ self with pasts_ := ps.set i prs[i], presents_ := prs.set i none }, a), ?_,
        ps.set i prs[i], prs.set i none, rfl, by simp [hl1], by simp [hl2], ?_, ?_⟩
      · have hin : i < n := by omega
        simp [KV_Cache.updateBody1, KV_Cache.movePresent, hget, hl1, hin]
      · intro k hk
        by_cases hki : k = i
        · subst hki
          rw [List.getElem?_set_self (by omega), List.getElem?_set_self (by omega),
            ← hhigh k (le_refl _), hget]
          exact ⟨rfl, rfl⟩
        · rw [List.getElem?_set_ne (by omega), List.getElem?_set_ne (by omega)]
          exact hlow k (by omega)
      · intro k hk
        rw [List.getElem?_set_ne (by omega)]
        exact hhigh k (by omega))
  rw [hrun, hs1]
  have e1 : ps = self.presents_ := by
    apply List.ext_getElem?
    intro k
    by_cases hk : k < n
    · exact (hlow k (by omega)).1
    · rw [List.getElem?_eq_none (by omega), List.getElem?_eq_none (by omega)]
  have e2 : prs = List.replicate n none := by
    apply List.ext_getElem?
    intro k
    by_cases hk : k < n
    · rw [(hlow k (by omega)).2, List.getElem?_replicate]; simp [hk]
    · rw [List.getElem?_eq_none (by omega), List.getElem?_eq_none (by simp; omega)]
  rw [e1, e2]

/-- The second loop of the split `Update` when no allocation fails: every present slot
receives a fresh tensor of the shape held in `shape_`. -/
theorem KV_Cache.allocLoop_run_split {α : Type} (self : KV_Cache α) (a : Allocator α)
    (n : Nat) (hprl : self.presents_.length = n)
    (halloc : ∀ k, k < n → ∃ g, a.outcome (a.count + k) = some g) :
    ∃ prs : List (Option (Tensor α)),
      forLoop KV_Cache.updateBody2 0 n (self, a) =
        (Status.ok, { self with presents_ := prs }, { a with count := a.count + n }) ∧
      prs.length = n ∧
      ∀ i, i < n → ∃ g, a.outcome (a.count + i) = some g ∧
        prs[i]? = some (some { type := self.model_.score_type_, shape := self.shape_.toList,
                               data := (List.range self.shape_.toList.prod.toNat).map g }) := by
  obtain ⟨s1, hrun, prs, hs1, hlen, hall⟩ := forLoop_ok KV_Cache.updateBody2
    (fun i s => ∃ prs : List (Option (Tensor α)),
      s = ({ self with presents_ := prs }, { a with count := a.count + i }) ∧ prs.length = n ∧
      ∀ k, k < i → ∃ g, a.outcome (a.count + k) = some g ∧
        prs[k]? = some (some { type := self.model_.score_type_, shape := self.shape_.toList,
                               data := (List.range self.shape_.toList.prod.toNat).map g }))
    n 0 (self, a) ⟨self.presents_, by simp, hprl, fun k hk => absurd hk (Nat.not_lt_zero k)⟩
    (by
      intro i s _ hi ⟨prs, hs, hlen, hprev⟩
      subst hs
      obtain ⟨g, hg⟩ := halloc i (by omega)
      refine ⟨({ self with
          presents_ := prs.set i
            (some { type := self.model_.score_type_, shape := self.shape_.toList,
                    data := (List.range self.shape_.toList.prod.toNat).map g }) },
          { a with count := a.count + (i + 1) }), ?_, _, rfl, by simp [hlen], ?_⟩
      · have hi2 : i < prs.length := by omega
        simp [KV_Cache.updateBody2, CreateTensor, hg, hi2]
        rfl
      · intro k hk
        by_cases hki : k = i
        · subst hki
          exact ⟨g, hg, by rw [List.getElem?_set_self (by omega)]⟩
        · obtain ⟨g2, h1, h2⟩ := hprev k (by omega)
          exact ⟨g2, h1, by rw [List.getElem?_set_ne (by omega)]; exact h2⟩)
  subst hs1
  exact ⟨prs, by simpa using hrun, hlen, fun i hi => hall i (by omega)⟩

/-! ### Whole `Update` calls -/

/-- The fused `Update` with the empty mapping, when no allocation fails. -/
theorem KV_Cache_Combined.Update_empty_run_fused {α : Type} (self : KV_Cache_Combined α)
    (a : Allocator α) (L : Int) (n : Nat)
    (hn : self.layer_count_.toNat = n)
    (hpl : self.pasts_.length = n) (hprl : self.presents_.length = n)
    (halloc : ∀ k, k < n → ∃ g, a.outcome (a.count + k) = some g) :
    ∃ prs : List (Option (Tensor α)),
      KV_Cache_Combined.Update [] L self a =
        (Status.ok,
          { self with
            pasts_ := self.presents_, presents_ := prs, shape_ := { self.shape_ with d3 := L } },
          { a with count := a.count + n }) ∧
      prs.length = n ∧
      ∀ i, i < n → ∃ g, a.outcome (a.count + i) = some g ∧
        prs[i]? = some (some
          { type := self.model_.score_type_,
            shape := [self.shape_.d0, self.shape_.d1, self.shape_.d2, L, self.shape_.d4],
            data := (List.range
              ([self.shape_.d0, self.shape_.d1, self.shape_.d2, L, self.shape_.d4] : List Int).prod.toNat).map
                g }) := by
  obtain ⟨prs, hrun, hlen, hall⟩ := KV_Cache_Combined.allocLoop_run_fused
    { self with
      pasts_ := self.presents_, presents_ := List.replicate n none,
      shape_ := { self.shape_ with d3 := L } } a n (by simp) halloc
  refine ⟨prs, ?_, hlen, hall⟩
  unfold KV_Cache_Combined.Update
  rw [hn, KV_Cache_Combined.moveLoop_run_fused self a n hpl hprl]
  exact hrun

/-- The fused `Update` with a non-empty mapping of in-range entries, no longer than the
beam dimension, when no allocation fails. -/
theorem KV_Cache_Combined.Update_reorder_run_fused {α : Type} (B H S D : Nat)
    (self : KV_Cache_Combined α) (a : Allocator α) (ms : List Nat) (L : Int) (n : Nat)
    (hn : self.layer_count_.toNat = n)
    (hshape : self.shape_ = { d0 := 2, d1 := B, d2 := H, d3 := S, d4 := D })
    (hpl : self.pasts_.length = n) (hprl : self.presents_.length = n)
    (hpres : ∀ p ∈ self.presents_, ∃ t, p = some t ∧ t.data.length = 2 * B * (H * S * D))
    (halloc : ∀ k, k < n + n → ∃ g, a.outcome (a.count + k) = some g)
    (hne : ms ≠ []) (hm : ms.length ≤ B) (hrange : ∀ b ∈ ms, b < B) :
    ∃ ps prs : List (Option (Tensor α)),
      KV_Cache_Combined.Update (ms.map (fun (b : Nat) => (b : Int))) L self a =
        (Status.ok,
          { self with
            pasts_ := ps, presents_ := prs,
            shape_ := { d0 := 2, d1 := B, d2 := H, d3 := L, d4 := D } },
          { a with count := a.count + (n + n) }) ∧
      ps.length = n ∧ prs.length = n ∧
      (∀ i, i < n → ∃ present out g, self.presents_[i]? = some (some present) ∧
        a.outcome (a.count + i) = some g ∧
        ps[i]? = some (some { type := self.model_.score_type_,
                              shape := [2, (B : Int), (H : Int), (S : Int), (D : Int)],
                              data := out }) ∧
        out.length = 2 * B * (H * S * D) ∧
        (∀ p, ¬ (p < ms.length * (H * S * D)) →
          ¬ (B * (H * S * D) ≤ p ∧ p < B * (H * S * D) + ms.length * (H * S * D)) →
          out[p]? = ((List.range (2 * B * (H * S * D))).map g)[p]?) ∧
        (∀ j e, j < ms.length → e < H * S * D →
          out[j * (H * S * D) + e]? = present.data[ms.getD j 0 * (H * S * D) + e]? ∧
          out[B * (H * S * D) + j * (H * S * D) + e]? =
            present.data[B * (H * S * D) + ms.getD j 0 * (H * S * D) + e]?)) ∧
      (∀ i, i < n → ∃ g, a.outcome (a.count + n + i) = some g ∧
        prs[i]? = some (some
          { type := self.model_.score_type_,
            shape := [2, (B : Int), (H : Int), L, (D : Int)],
            data := (List.range
              ([2, (B : Int), (H : Int), L, (D : Int)] : List Int).prod.toNat).map g })) := by
  obtain ⟨ps, hrun1, hlen1, hall1⟩ := KV_Cache_Combined.reorderLoop_run_fused B H S D self a ms n
    hshape hpl hprl hpres (fun k hk => halloc k (by omega)) hne hm hrange
  obtain ⟨prs, hrun2, hlen2, hall2⟩ := KV_Cache_Combined.allocLoop_run_fused
    { self with pasts_ := ps, shape_ := { self.shape_ with d3 := L } }
    { a with count := a.count + n } n hprl
    (fun k hk => by
      obtain ⟨g, hg⟩ := halloc (n + k) (by omega)
      exact ⟨g, by simpa [Nat.add_assoc] using hg⟩)
  refine ⟨ps, prs, ?_, hlen1, hlen2, hall1, ?_⟩
  · unfold KV_Cache_Combined.Update
    rw [hn, hrun1]
    simp only []
    rw [hrun2]
    simp [hshape, Nat.add_assoc]
  · intro i hi
    obtain ⟨g, hg, hp⟩ := hall2 i hi
    exact ⟨g, hg, by simpa [hshape, Shape5.toList] using hp⟩

/-- The split `Update` with the empty mapping, when no allocation fails. -/
theorem KV_Cache.Update_empty_run_split {α : Type} (self : KV_Cache α)
    (a : Allocator α) (L : Int) (n : Nat)
    (hn : (self.layer_count_ * 2).toNat = n)
    (hpl : self.pasts_.length = n) (hprl : self.presents_.length = n)
    (halloc : ∀ k, k < n → ∃ g, a.outcome (a.count + k) = some g) :
    ∃ prs : List (Option (Tensor α)),
      KV_Cache.Update [] L self a =
        (Status.ok,
          { self with
            pasts_ := self.presents_, presents_ := prs, shape_ := { self.shape_ with d2 := L } },
          { a with count := a.count + n }) ∧
      prs.length = n ∧
      ∀ i, i < n → ∃ g, a.outcome (a.count + i) = some g ∧
        prs[i]? = some (some
          { type := self.model_.score_type_,
            shape := [self.shape_.d0, self.shape_.d1, L, self.shape_.d3],
            data := (List.range
              ([self.shape_.d0, self.shape_.d1, L, self.shape_.d3] : List Int).prod.toNat).map
                g }) := by
  obtain ⟨prs, hrun, hlen, hall⟩ := KV_Cache.allocLoop_run_split
    { self with
      pasts_ := self.presents_, presents_ := List.replicate n none,
      shape_ := { self.shape_ with d2 := L } } a n (by simp) halloc
  refine ⟨prs, ?_, hlen, hall⟩
  unfold KV_Cache.Update
  rw [hn, KV_Cache.moveLoop_run_split self a n hpl hprl]
  exact hrun

/-- The split `Update` with a non-empty mapping of in-range entries, no longer than the
beam dimension, when no allocation fails. -/
theorem KV_Cache.Update_reorder_run_split {α : Type} (B H S D : Nat)
    (self : KV_Cache α) (a : Allocator α) (ms : List Nat) (L : Int) (n : Nat)
    (hn : (self.layer_count_ * 2).toNat = n)
    (hshape : self.shape_ = { d0 := B, d1 := H, d2 := S, d3 := D })
    (hpl : self.pasts_.length = n) (hprl : self.presents_.length = n)
    (hpres : ∀ p ∈ self.presents_, ∃ t, p = some t ∧ t.data.length = B * (H * S * D))
    (halloc : ∀ k, k < n + n → ∃ g, a.outcome (a.count + k) = some g)
    (hne : ms ≠ []) (hm : ms.length ≤ B) (hrange : ∀ b ∈ ms, b < B) :
    ∃ ps prs : List (Option (Tensor α)),
      KV_Cache.Update (ms.map (fun (b : Nat) => (b : Int))) L self a =
        (Status.ok,
          { self with
            pasts_ := ps, presents_ := prs,
            shape_ := { d0 := B, d1 := H, d2 := L, d3 := D } },
          { a with count := a.count + (n + n) }) ∧
      ps.length = n ∧ prs.length = n ∧
      (∀ i, i < n → ∃ present out g, self.presents_[i]? = some (some present) ∧
        a.outcome (a.count + i) = some g ∧
        ps[i]? = some (some { type := self.model_.score_type_,
                              shape := [(B : Int), (H : Int), (S : Int), (D : Int)],
                              data := out }) ∧
        out.length = B * (H * S * D) ∧
        (∀ p, ¬ (p < ms.length * (H * S * D)) →
          out[p]? = ((List.range (B * (H * S * D))).map g)[p]?) ∧
        (∀ j e, j < ms.length → e < H * S * D →
          out[j * (H * S * D) + e]? = present.data[ms.getD j 0 * (H * S * D) + e]?)) ∧
      (∀ i, i < n → ∃ g, a.outcome (a.count + n + i) = some g ∧
        prs[i]? = some (some
          { type := self.model_.score_type_,
            shape := [(B : Int), (H : Int), L, (D : Int)],
            data := (List.range
              ([(B : Int), (H : Int), L, (D : Int)] : List Int).prod.toNat).map g })) := by
  obtain ⟨ps, hrun1, hlen1, hall1⟩ := KV_Cache.reorderLoop_run_split B H S D self a ms n
    hshape hpl hprl hpres (fun k hk => halloc k (by omega)) hne hm hrange
  obtain ⟨prs, hrun2, hlen2, hall2⟩ := KV_Cache.allocLoop_run_split
    { self with pasts_ := ps, shape_ := { self.shape_ with d2 := L } }
    { a with count := a.count + n } n hprl
    (fun k hk => by
      obtain ⟨g, hg⟩ := halloc (n + k) (by omega)
      exact ⟨g, by simpa [Nat.add_assoc] using hg⟩)
  refine ⟨ps, prs, ?_, hlen1, hlen2, hall1, ?_⟩
  · unfold KV_Cache.Update
    rw [hn, hrun1]
    simp only []
    rw [hrun2]
    simp [hshape, Nat.add_assoc]
  · intro i hi
    obtain ⟨g, hg, hp⟩ := hall2 i hi
    exact ⟨g, hg, by simpa [hshape, Shape4.toList] using hp⟩

/-! ## The claims -/

/-- C1. Fused cache reorder: with `shape_ = [2, B, H, S, D]`, a present buffer of that
shape in layer `index` and a mapping `m` of length `B` with entries in `[0, B)`,
`KV_Cache_Combined::PickPastState` returns normally and stores a past buffer of the same
shape with, for `block = H*S*D`, every slot `j < B` and offset `e < block`,
`past[j*block + e] = present[m[j]*block + e]` and
`past[B*block + j*block + e] = present[B*block + m[j]*block + e]`; these equations fix
all `2*B*block` elements of the past buffer. -/
theorem C1_fused_reorder {α : Type} (B H S D : Nat) (self : KV_Cache_Combined α)
    (a : Allocator α) (g : Nat → α) (m : List Int) (index : Nat) (present : Tensor α)
    (hshape : self.shape_ = { d0 := 2, d1 := B, d2 := H, d3 := S, d4 := D })
    (hpres : self.presents_[index]? = some (some present))
    (hplen : present.data.length = 2 * B * (H * S * D))
    (hpast : index < self.pasts_.length)
    (halloc : a.outcome a.count = some g)
    (hm : m.length = B) (hrange : ∀ x ∈ m, 0 ≤ x ∧ x < (B : Int)) :
    ∃ past : Tensor α,
      KV_Cache_Combined.PickPastState m index self a =
        (Status.ok, { self with pasts_ := self.pasts_.set index (some past) },
          { a with count := a.count + 1 }) ∧
      past.shape = [2, (B : Int), (H : Int), (S : Int), (D : Int)] ∧
      past.data.length = 2 * B * (H * S * D) ∧
      (∀ j e, j < B → e < H * S * D →
        past.data[j * (H * S * D) + e]? =
          present.data[(m.getD j 0).toNat * (H * S * D) + e]? ∧
        past.data[B * (H * S * D) + j * (H * S * D) + e]? =
          present.data[B * (H * S * D) + (m.getD j 0).toNat * (H * S * D) + e]?) ∧
      (∀ other : List α, other.length = 2 * B * (H * S * D) →
        (∀ j e, j < B → e < H * S * D →
          other[j * (H * S * D) + e]? =
            present.data[(m.getD j 0).toNat * (H * S * D) + e]? ∧
          other[B * (H * S * D) + j * (H * S * D) + e]? =
            present.data[B * (H * S * D) + (m.getD j 0).toNat * (H * S * D) + e]?) →
        other = past.data) := by
  have hmlen : (m.map Int.toNat).length = B := by simpa using hm
  obtain ⟨out, hrun, hlen, _, hfill⟩ := KV_Cache_Combined.PickPastStateT_run_fused
    self.model_.score_type_ B H S D self a g (m.map Int.toNat) index present hshape hpres hplen
    hpast halloc (le_of_eq hmlen) (mem_map_toNat_lt m B hrange)
  rw [map_toNat_cast m (fun x hx => (hrange x hx).1)] at hrun
  have hfill2 : ∀ j e, j < B → e < H * S * D →
      out[j * (H * S * D) + e]? = present.data[(m.getD j 0).toNat * (H * S * D) + e]? ∧
      out[B * (H * S * D) + j * (H * S * D) + e]? =
        present.data[B * (H * S * D) + (m.getD j 0).toNat * (H * S * D) + e]? := by
    intro j e hj he
    have := hfill j e (by omega) he
    rwa [getD_map_toNat] at this
  refine ⟨_, (KV_Cache_Combined.PickPastState_eq_fused m index self a).trans hrun, rfl, hlen, hfill2, ?_⟩
  intro other holen hother
  apply List.ext_getElem?
  intro k
  by_cases hk : k < 2 * B * (H * S * D)
  · obtain ⟨j, e, hj, he, hke | hke⟩ := fused_cover B (H * S * D) k hk
    · rw [hke, (hother j e hj he).1, (hfill2 j e hj he).1]
    · rw [hke, (hother j e hj he).2, (hfill2 j e hj he).2]
  · rw [List.getElem?_eq_none (by omega), List.getElem?_eq_none (by simp only [hlen]; omega)]

/-- Witness for C1: the one-layer cache of shape `[2, 2, 1, 1, 2]` with the beams swapped. -/
theorem C1_fused_reorder_witness :
    ∃ past : Tensor Nat,
      KV_Cache_Combined.PickPastState [1, 0] 0 exampleFused exampleAllocator =
        (Status.ok, { exampleFused with pasts_ := [some past] },
          { exampleAllocator with count := 1 }) ∧
      past.data = [20, 21, 10, 11, 40, 41, 30, 31] := by
  obtain ⟨past, hrun, _, _, _, huniq⟩ := C1_fused_reorder 2 1 1 2 exampleFused exampleAllocator
    (fun _ => 0) [1, 0] 0
    { type := ScoreType.float, shape := [2, 2, 1, 1, 2], data := [10, 11, 20, 21, 30, 31, 40, 41] }
    rfl rfl rfl (by decide) rfl rfl (by decide)
  refine ⟨past, hrun, (huniq [20, 21, 10, 11, 40, 41, 30, 31] rfl ?_).symm⟩
  intro j e hj he
  have hj2 : j = 0 ∨ j = 1 := by omega
  have he2 : e = 0 ∨ e = 1 := by omega
  rcases hj2 with rfl | rfl <;> rcases he2 with rfl | rfl <;> decide

/-- C2. Split cache reorder: with `layer_count_ = lc`, `shape_ = [B, H, S, D]`, all
`2*lc` present buffers of that shape, and a mapping `m` of length `B` with entries in
`[0, B)`, `KV_Cache::Update(m, L)` returns normally (allocations succeeding) and, for each
of the `2*lc` tensors, past slot `j` holds the block of `H*S*D` elements of the prior
present slot `m[j]`, for every `j < B`; the mapping may repeat and omit indices. -/
theorem C2_split_reorder {α : Type} (B H S D lc : Nat) (self : KV_Cache α) (a : Allocator α)
    (m : List Int) (L : Int)
    (hlc : self.layer_count_ = (lc : Int))
    (hshape : self.shape_ = { d0 := B, d1 := H, d2 := S, d3 := D })
    (hpl : self.pasts_.length = 2 * lc) (hprl : self.presents_.length = 2 * lc)
    (hpres : ∀ p ∈ self.presents_, ∃ t, p = some t ∧
      t.shape = [(B : Int), (H : Int), (S : Int), (D : Int)] ∧ t.data.length = B * (H * S * D))
    (halloc : ∀ k, ∃ g, a.outcome k = some g)
    (hm : m.length = B) (hrange : ∀ x ∈ m, 0 ≤ x ∧ x < (B : Int)) :
    ∃ (s1 : KV_Cache α) (a1 : Allocator α),
      KV_Cache.Update m L self a = (Status.ok, s1, a1) ∧
      ∀ i, i < 2 * lc → ∃ present past : Tensor α,
        self.presents_[i]? = some (some present) ∧ s1.pasts_[i]? = some (some past) ∧
        past.shape = [(B : Int), (H : Int), (S : Int), (D : Int)] ∧
        past.data.length = B * (H * S * D) ∧
        ∀ j e, j < B → e < H * S * D →
          past.data[j * (H * S * D) + e]? =
            present.data[(m.getD j 0).toNat * (H * S * D) + e]? := by
  have hn : (self.layer_count_ * 2).toNat = 2 * lc := by rw [hlc]; omega
  have hpres2 : ∀ p ∈ self.presents_, ∃ t, p = some t ∧ t.data.length = B * (H * S * D) :=
    fun p hp => by
      obtain ⟨t, h1, _, h3⟩ := hpres p hp
      exact ⟨t, h1, h3⟩
  by_cases hne : m = []
  · subst hne
    simp only [List.length_nil] at hm
    obtain ⟨prs, hrun, _, _⟩ := KV_Cache.Update_empty_run_split self a L (2 * lc) hn hpl hprl
      (fun k _ => halloc _)
    refine ⟨_, _, hrun, ?_⟩
    intro i hi
    obtain ⟨t, ht, hsh, hlen⟩ := hpres self.presents_[i] (List.getElem_mem _)
    refine ⟨t, t, ?_, ?_, hsh, hlen, fun j e hj _ => absurd hj (by omega)⟩
    · rw [List.getElem?_eq_getElem (by omega), ht]
    · simp only []
      rw [List.getElem?_eq_getElem (by omega), ht]
  · have hmlen : (m.map Int.toNat).length = B := by simpa using hm
    obtain ⟨ps, prs, hrun, _, _, hall, _⟩ := KV_Cache.Update_reorder_run_split B H S D self a
      (m.map Int.toNat) L (2 * lc) hn hshape hpl hprl hpres2 (fun k _ => halloc _)
      (by
        intro h
        apply hne
        simpa using h)
      (le_of_eq hmlen) (mem_map_toNat_lt m B hrange)
    rw [map_toNat_cast m (fun x hx => (hrange x hx).1)] at hrun
    refine ⟨_, _, hrun, ?_⟩
    intro i hi
    obtain ⟨present, out, g, h1, _, h3, h4, _, h6⟩ := hall i hi
    refine ⟨present, _, h1, h3, rfl, h4, ?_⟩
    intro j e hj he
    have := h6 j e (by omega) he
    rwa [getD_map_toNat] at this

/-- Witness for C2: three beams and the mapping `[2, 2, 0]`; past slots 0 and 1 hold the
prior present slot 2 and past slot 2 holds the prior present slot 0. -/
theorem C2_split_reorder_witness :
    ∃ (s1 : KV_Cache Nat) (a1 : Allocator Nat),
      KV_Cache.Update [2, 2, 0] 2 exampleSplit3 exampleAllocator = (Status.ok, s1, a1) ∧
      ∀ i, i < 2 → ∃ present past : Tensor Nat,
        exampleSplit3.presents_[i]? = some (some present) ∧ s1.pasts_[i]? = some (some past) ∧
        past.data[0]? = present.data[2]? ∧ past.data[1]? = present.data[2]? ∧
        past.data[2]? = present.data[0]? := by
  obtain ⟨s1, a1, hrun, hall⟩ := C2_split_reorder 3 1 1 1 1 exampleSplit3 exampleAllocator
    [2, 2, 0] 2 rfl rfl rfl rfl
    (by
      intro p hp
      simp only [exampleSplit3, List.mem_cons, List.mem_singleton, List.not_mem_nil, or_false] at hp
      rcases hp with rfl | rfl
      · exact ⟨_, rfl, rfl, rfl⟩
      · exact ⟨_, rfl, rfl, rfl⟩)
    (fun _ => ⟨_, rfl⟩) rfl (by decide)
  refine ⟨s1, a1, hrun, ?_⟩
  intro i hi
  obtain ⟨present, past, h1, h2, _, _, h5⟩ := hall i hi
  exact ⟨present, past, h1, h2, by simpa using h5 0 0 (by omega) (by omega),
    by simpa using h5 1 0 (by omega) (by omega), by simpa using h5 2 0 (by omega) (by omega)⟩

/-- C3. Empty mapping: for the fused and the split cache and every length `L`,
`Update([], L)` returns normally (allocations succeeding) and afterwards the list of past
buffers is the prior list of present buffers: every past slot holds the prior present
buffer of the same index, shape and content unchanged, so its sequence length is the one
that present buffer was allocated with. -/
theorem C3_empty_mapping {α : Type} (c : KV_Cache_Combined α) (k : KV_Cache α) (a : Allocator α)
    (L : Int)
    (hc1 : c.pasts_.length = c.layer_count_.toNat)
    (hc2 : c.presents_.length = c.layer_count_.toNat)
    (hk1 : k.pasts_.length = (k.layer_count_ * 2).toNat)
    (hk2 : k.presents_.length = (k.layer_count_ * 2).toNat)
    (halloc : ∀ i, ∃ g, a.outcome i = some g) :
    (∃ (s1 : KV_Cache_Combined α) (a1 : Allocator α),
      KV_Cache_Combined.Update [] L c a = (Status.ok, s1, a1) ∧ s1.pasts_ = c.presents_) ∧
    (∃ (s1 : KV_Cache α) (a1 : Allocator α),
      KV_Cache.Update [] L k a = (Status.ok, s1, a1) ∧ s1.pasts_ = k.presents_) := by
  constructor
  · obtain ⟨prs, hrun, _, _⟩ := KV_Cache_Combined.Update_empty_run_fused c a L _ rfl hc1 hc2
      (fun i _ => halloc _)
    exact ⟨_, _, hrun, rfl⟩
  · obtain ⟨prs, hrun, _, _⟩ := KV_Cache.Update_empty_run_split k a L _ rfl hk1 hk2
      (fun i _ => halloc _)
    exact ⟨_, _, hrun, rfl⟩

/-- Witness for C3: the one-layer fused cache and the one-layer split cache. -/
theorem C3_empty_mapping_witness :
    (∃ (s1 : KV_Cache_Combined Nat) (a1 : Allocator Nat),
      KV_Cache_Combined.Update [] 2 exampleFused exampleAllocator = (Status.ok, s1, a1) ∧
      s1.pasts_ = exampleFused.presents_) ∧
    (∃ (s1 : KV_Cache Nat) (a1 : Allocator Nat),
      KV_Cache.Update [] 2 exampleSplit3 exampleAllocator = (Status.ok, s1, a1) ∧
      s1.pasts_ = exampleSplit3.presents_) :=
  C3_empty_mapping exampleFused exampleSplit3 exampleAllocator 2 rfl rfl rfl rfl
    (fun _ => ⟨_, rfl⟩)

theorem Span.subspan_none (s : Span) (offset count : Int) (h : (s.size : Int) < offset + count) :
    s.subspan offset count = none := by
  unfold Span.subspan
  rw [if_neg]
  intro h2
  omega

/-- A mapping that reaches past the last slot makes the fused copy loop take a value
range outside the past buffer. -/
theorem KV_Cache_Combined.hostLoop_long_fused {α : Type} (B blk : Nat) (hblk : 0 < blk)
    (present : List α) (hpres : 2 * B * blk ≤ present.length) (rest : List Nat) :
    ∀ (j : Nat) (past : List α), j ≤ B → B < j + rest.length → (∀ b ∈ rest, b < B) →
      past.length = 2 * B * blk →
      (KV_Cache_Combined.hostLoop (blk : Int) ((B * blk : Nat) : Int) present
          { off := 0, size := 2 * B * blk } { off := 0, size := 2 * B * blk } j
          (rest.map (fun (b : Nat) => (b : Int))) past).1 = Status.ub := by
  induction rest with
  | nil => intro j past h1 h2; simp at h2; omega
  | cons b rest ih =>
    intro j past hjB hlong hin hlen
    have hbB : b < B := hin b (List.mem_cons_self _ _)
    have hb1 := slot_le b B blk hbB
    have h2 : 2 * B * blk = B * blk + B * blk := by ring
    rcases Nat.lt_or_ge j B with hj | hj
    · have hj1 := slot_le j B blk hj
      rw [List.map_cons, KV_Cache_Combined.hostLoop_cons_fused B blk b j present _ past hbB hj]
      apply ih (j + 1) _ (by omega) (by simp only [List.length_cons] at hlong; omega)
        (fun x hx => hin x (List.mem_cons_of_mem _ hx))
      rw [copy_length _ _ _ _ (by simp only []; omega)
        (by rw [copy_length _ _ _ _ (by simp only []; omega) (by simp only []; omega)]
            simp only []; omega),
        copy_length _ _ _ _ (by simp only []; omega) (by simp only []; omega), hlen]
    · have hjeq : j = B := by omega
      subst hjeq
      have hnone : ({ off := 0, size := 2 * j * blk } : Span).subspan
          (((j * blk : Nat) : Int) + (j : Int) * (blk : Int)) (blk : Int) = none := by
        apply Span.subspan_none
        simp only []
        push_cast
        have : (0 : Int) < (blk : Int) := by exact_mod_cast hblk
        nlinarith
      rw [List.map_cons, KV_Cache_Combined.hostLoop]
      split
      · rename_i h1 h2 h3 h4
        rw [hnone] at h4
        exact absurd h4 (by simp)
      · rfl

/-- A mapping that reaches past the last slot makes the split copy loop take a range
outside the past buffer. -/
theorem KV_Cache.hostLoop_long_split {α : Type} (B blk : Nat) (hblk : 0 < blk)
    (present : List α) (hpres : B * blk ≤ present.length) (rest : List Nat) :
    ∀ (j : Nat) (past : List α), j ≤ B → B < j + rest.length → (∀ b ∈ rest, b < B) →
      past.length = B * blk →
      (KV_Cache.hostLoop (blk : Int) present
          { off := 0, size := B * blk } { off := 0, size := B * blk } j
          (rest.map (fun (b : Nat) => (b : Int))) past).1 = Status.ub := by
  induction rest with
  | nil => intro j past h1 h2; simp at h2; omega
  | cons b rest ih =>
    intro j past hjB hlong hin hlen
    have hbB : b < B := hin b (List.mem_cons_self _ _)
    have hb1 := slot_le b B blk hbB
    rcases Nat.lt_or_ge j B with hj | hj
    · have hj1 := slot_le j B blk hj
      rw [List.map_cons, KV_Cache.hostLoop_cons_split B blk b j present _ past hbB hj]
      apply ih (j + 1) _ (by omega) (by simp only [List.length_cons] at hlong; omega)
        (fun x hx => hin x (List.mem_cons_of_mem _ hx))
      rw [copy_length _ _ _ _ (by simp only []; omega) (by simp only []; omega), hlen]
    · have hjeq : j = B := by omega
      subst hjeq
      have hnone : ({ off := 0, size := j * blk } : Span).subspan
          ((j : Int) * (blk : Int)) (blk : Int) = none := by
        apply Span.subspan_none
        simp only []
        push_cast
        have : (0 : Int) < (blk : Int) := by exact_mod_cast hblk
        nlinarith
      rw [List.map_cons, KV_Cache.hostLoop]
      split
      · rename_i h1 h2
        rw [hnone] at h2
        exact absurd h2 (by simp)
      · rfl

theorem forLoop_first_fail {σ : Type} (body : Nat → σ → Status × σ) (i n : Nat) (s : σ)
    (h : (body i s).1 ≠ Status.ok) : forLoop body i (n + 1) s = body i s := by
  rw [forLoop]
  rcases hb : body i s with ⟨st, s1⟩
  rw [hb] at h
  cases st
  · exact absurd rfl h
  · rfl
  · rfl

/-- The fused `PickPastState` with a mapping longer than the beam dimension is undefined. -/
theorem KV_Cache_Combined.PickPastState_long_fused {α : Type} (B H S D : Nat)
    (self : KV_Cache_Combined α) (a : Allocator α) (g : Nat → α) (ms : List Nat) (index : Nat)
    (present : Tensor α)
    (hshape : self.shape_ = { d0 := 2, d1 := B, d2 := H, d3 := S, d4 := D })
    (hpres : self.presents_[index]? = some (some present))
    (hplen : present.data.length = 2 * B * (H * S * D))
    (halloc : a.outcome a.count = some g)
    (hblk : 0 < H * S * D) (hm : B < ms.length) (hrange : ∀ b ∈ ms, b < B) :
    (KV_Cache_Combined.PickPastState (ms.map (fun (b : Nat) => (b : Int))) index self a).1 =
      Status.ub := by
  have hprod : ([2, (B : Int), (H : Int), (S : Int), (D : Int)] : List Int).prod =
      ((2 * B * (H * S * D) : Nat) : Int) := by
    simp only [List.prod_cons, List.prod_nil]; push_cast; ring
  have eb : (H : Int) * (S : Int) * (D : Int) = ((H * S * D : Nat) : Int) := by push_cast; ring
  have ek : (B : Int) * ((H * S * D : Nat) : Int) = ((B * (H * S * D) : Nat) : Int) := by
    push_cast; ring
  have ec : (2 : Int) * ((B * (H * S * D) : Nat) : Int) = ((2 * B * (H * S * D) : Nat) : Int) := by
    push_cast; ring
  have hglen : ((List.range (2 * B * (H * S * D))).map g).length = 2 * B * (H * S * D) := by simp
  have hloop := KV_Cache_Combined.hostLoop_long_fused B (H * S * D) hblk present.data
    (le_of_eq hplen.symm) ms 0 ((List.range (2 * B * (H * S * D))).map g) (Nat.zero_le _)
    (by omega) hrange hglen
  rw [KV_Cache_Combined.PickPastState_eq_fused]
  unfold KV_Cache_Combined.PickPastStateT
  simp only [hshape, hpres, CreateTensor, halloc, Shape5.toList, hprod, Int.toNat_ofNat, eb, ek,
    ec, hglen, hplen, Span.whole_eq _ _ (le_refl _), KV_Cache_Combined.cudaLoop_eq_hostLoop_fused, ite_self]
  revert hloop
  generalize KV_Cache_Combined.hostLoop (↑(H * S * D)) (↑(B * (H * S * D))) present.data
    { off := 0, size := 2 * B * (H * S * D) } { off := 0, size := 2 * B * (H * S * D) } 0
    (List.map (fun (b : Nat) => (b : Int)) ms) (List.map g (List.range (2 * B * (H * S * D)))) = r
  intro hloop
  obtain ⟨st, d⟩ := r
  simp only [] at hloop
  subst hloop
  rfl

/-- The split `PickPastState` with a mapping longer than the beam dimension is undefined. -/
theorem KV_Cache.PickPastState_long_split {α : Type} (B H S D : Nat)
    (self : KV_Cache α) (a : Allocator α) (g : Nat → α) (ms : List Nat) (index : Nat)
    (present : Tensor α)
    (hshape : self.shape_ = { d0 := B, d1 := H, d2 := S, d3 := D })
    (hpres : self.presents_[index]? = some (some present))
    (hplen : present.data.length = B * (H * S * D))
    (halloc : a.outcome a.count = some g)
    (hblk : 0 < H * S * D) (hm : B < ms.length) (hrange : ∀ b ∈ ms, b < B) :
    (KV_Cache.PickPastState (ms.map (fun (b : Nat) => (b : Int))) index self a).1 =
      Status.ub := by
  have hprod : ([(B : Int), (H : Int), (S : Int), (D : Int)] : List Int).prod =
      ((B * (H * S * D) : Nat) : Int) := by
    simp only [List.prod_cons, List.prod_nil]; push_cast; ring
  have eb : (H : Int) * (S : Int) * (D : Int) = ((H * S * D : Nat) : Int) := by push_cast; ring
  have ek : (B : Int) * ((H * S * D : Nat) : Int) = ((B * (H * S * D) : Nat) : Int) := by
    push_cast; ring
  have hglen : ((List.range (B * (H * S * D))).map g).length = B * (H * S * D) := by simp
  have hloop := KV_Cache.hostLoop_long_split B (H * S * D) hblk present.data
    (le_of_eq hplen.symm) ms 0 ((List.range (B * (H * S * D))).map g) (Nat.zero_le _)
    (by omega) hrange hglen
  rw [KV_Cache.PickPastState_eq_split]
  unfold KV_Cache.PickPastStateT
  simp only [hshape, hpres, CreateTensor, halloc, Shape4.toList, hprod, Int.toNat_ofNat, eb, ek,
    hglen, hplen, Span.whole_eq _ _ (le_refl _), KV_Cache.cudaLoop_eq_hostLoop_split, ite_self]
  revert hloop
  generalize KV_Cache.hostLoop (↑(H * S * D)) present.data
    { off := 0, size := B * (H * S * D) } { off := 0, size := B * (H * S * D) } 0
    (List.map (fun (b : Nat) => (b : Int)) ms) (List.map g (List.range (B * (H * S * D)))) = r
  intro hloop
  obtain ⟨st, d⟩ := r
  simp only [] at hloop
  subst hloop
  rfl

theorem map_cast_isEmpty (ms : List Nat) (h : ms ≠ []) :
    (ms.map (fun (b : Nat) => (b : Int))).isEmpty = false := by
  cases ms with
  | nil => exact absurd rfl h
  | cons x xs => rfl

/-- The fused `Update` with a mapping longer than the beam dimension is undefined. -/
theorem KV_Cache_Combined.Update_long_fused {α : Type} (B H S D : Nat)
    (self : KV_Cache_Combined α) (a : Allocator α) (g : Nat → α) (ms : List Nat) (L : Int)
    (n : Nat) (present : Tensor α)
    (hn : self.layer_count_.toNat = n + 1)
    (hshape : self.shape_ = { d0 := 2, d1 := B, d2 := H, d3 := S, d4 := D })
    (hpres : self.presents_[0]? = some (some present))
    (hplen : present.data.length = 2 * B * (H * S * D))
    (halloc : a.outcome a.count = some g)
    (hblk : 0 < H * S * D) (hm : B < ms.length) (hrange : ∀ b ∈ ms, b < B) :
    (KV_Cache_Combined.Update (ms.map (fun (b : Nat) => (b : Int))) L self a).1 = Status.ub := by
  have hne : ms ≠ [] := by intro h; subst h; simp at hm
  have hbody : (KV_Cache_Combined.updateBody1 (ms.map (fun (b : Nat) => (b : Int))) 0 (self, a)).1 =
      Status.ub := by
    simp only [KV_Cache_Combined.updateBody1, map_cast_isEmpty ms hne, Bool.false_eq_true, if_false]
    exact KV_Cache_Combined.PickPastState_long_fused B H S D self a g ms 0 present hshape hpres hplen
      halloc hblk hm hrange
  unfold KV_Cache_Combined.Update
  rw [hn, forLoop_first_fail _ _ _ _ (by rw [hbody]; decide)]
  revert hbody
  generalize KV_Cache_Combined.updateBody1 (ms.map (fun (b : Nat) => (b : Int))) 0 (self, a) = r
  intro hbody
  obtain ⟨st, d⟩ := r
  simp only [] at hbody
  subst hbody
  rfl

/-- The split `Update` with a mapping longer than the beam dimension is undefined. -/
theorem KV_Cache.Update_long_split {α : Type} (B H S D : Nat)
    (self : KV_Cache α) (a : Allocator α) (g : Nat → α) (ms : List Nat) (L : Int)
    (n : Nat) (present : Tensor α)
    (hn : (self.layer_count_ * 2).toNat = n + 1)
    (hshape : self.shape_ = { d0 := B, d1 := H, d2 := S, d3 := D })
    (hpres : self.presents_[0]? = some (some present))
    (hplen : present.data.length = B * (H * S * D))
    (halloc : a.outcome a.count = some g)
    (hblk : 0 < H * S * D) (hm : B < ms.length) (hrange : ∀ b ∈ ms, b < B) :
    (KV_Cache.Update (ms.map (fun (b : Nat) => (b : Int))) L self a).1 = Status.ub := by
  have hne : ms ≠ [] := by intro h; subst h; simp at hm
  have hbody : (KV_Cache.updateBody1 (ms.map (fun (b : Nat) => (b : Int))) 0 (self, a)).1 =
      Status.ub := by
    simp only [KV_Cache.updateBody1, map_cast_isEmpty ms hne, Bool.false_eq_true, if_false]
    exact KV_Cache.PickPastState_long_split B H S D self a g ms 0 present hshape hpres hplen
      halloc hblk hm hrange
  unfold KV_Cache.Update
  rw [hn, forLoop_first_fail _ _ _ _ (by rw [hbody]; decide)]
  revert hbody
  generalize KV_Cache.updateBody1 (ms.map (fun (b : Nat) => (b : Int))) 0 (self, a) = r
  intro hbody
  obtain ⟨st, d⟩ := r
  simp only [] at hbody
  subst hbody
  rfl

theorem range_map_getElem? {α : Type} (g : Nat → α) (N p : Nat) (h : p < N) :
    ((List.range N).map g)[p]? = some (g p) := by
  simp [List.getElem?_map, List.getElem?_range h]

/-- C4, as amended. `Update` does not check the length of the mapping.  With a non-empty
mapping of in-range entries shorter than batch×beams, both variants return normally
(allocations succeeding): in every tensor the first `|m|` slots of the new past hold the
blocks of the present slots the mapping names, and the remaining slots keep the
unspecified initial content of the fresh buffer.  With such a mapping longer than
batch×beams, a non-empty block and at least one layer, the copy for slot `j = batch×beams`
takes a range outside the past buffer: the call is undefined and reports no failure. -/
theorem C4_update_without_length_check {α : Type} (B H S D lc : Nat)
    (c : KV_Cache_Combined α) (k : KV_Cache α) (a : Allocator α) (m : List Int) (L : Int)
    (hclc : c.layer_count_ = (lc : Int))
    (hcshape : c.shape_ = { d0 := 2, d1 := B, d2 := H, d3 := S, d4 := D })
    (hcpl : c.pasts_.length = lc) (hcprl : c.presents_.length = lc)
    (hcpres : ∀ p ∈ c.presents_, ∃ t, p = some t ∧ t.data.length = 2 * B * (H * S * D))
    (hklc : k.layer_count_ = (lc : Int))
    (hkshape : k.shape_ = { d0 := B, d1 := H, d2 := S, d3 := D })
    (hkpl : k.pasts_.length = 2 * lc) (hkprl : k.presents_.length = 2 * lc)
    (hkpres : ∀ p ∈ k.presents_, ∃ t, p = some t ∧ t.data.length = B * (H * S * D))
    (halloc : ∀ i, ∃ g, a.outcome i = some g)
    (hne : m ≠ []) (hrange : ∀ x ∈ m, 0 ≤ x ∧ x < (B : Int)) :
    (m.length < B →
      (∃ (s1 : KV_Cache_Combined α) (a1 : Allocator α),
        KV_Cache_Combined.Update m L c a = (Status.ok, s1, a1) ∧
        ∀ i, i < lc → ∃ (present past : Tensor α) (g : Nat → α),
          c.presents_[i]? = some (some present) ∧ a.outcome (a.count + i) = some g ∧
          s1.pasts_[i]? = some (some past) ∧ past.data.length = 2 * B * (H * S * D) ∧
          (∀ j e, j < m.length → e < H * S * D →
            past.data[j * (H * S * D) + e]? =
              present.data[(m.getD j 0).toNat * (H * S * D) + e]? ∧
            past.data[B * (H * S * D) + j * (H * S * D) + e]? =
              present.data[B * (H * S * D) + (m.getD j 0).toNat * (H * S * D) + e]?) ∧
          (∀ j e, m.length ≤ j → j < B → e < H * S * D →
            past.data[j * (H * S * D) + e]? = some (g (j * (H * S * D) + e)) ∧
            past.data[B * (H * S * D) + j * (H * S * D) + e]? =
              some (g (B * (H * S * D) + j * (H * S * D) + e)))) ∧
      (∃ (s1 : KV_Cache α) (a1 : Allocator α),
        KV_Cache.Update m L k a = (Status.ok, s1, a1) ∧
        ∀ i, i < 2 * lc → ∃ (present past : Tensor α) (g : Nat → α),
          k.presents_[i]? = some (some present) ∧ a.outcome (a.count + i) = some g ∧
          s1.pasts_[i]? = some (some past) ∧ past.data.length = B * (H * S * D) ∧
          (∀ j e, j < m.length → e < H * S * D →
            past.data[j * (H * S * D) + e]? =
              present.data[(m.getD j 0).toNat * (H * S * D) + e]?) ∧
          (∀ j e, m.length ≤ j → j < B → e < H * S * D →
            past.data[j * (H * S * D) + e]? = some (g (j * (H * S * D) + e))))) ∧
    (B < m.length → 0 < H * S * D → 0 < lc →
      (KV_Cache_Combined.Update m L c a).1 = Status.ub ∧
      (KV_Cache.Update m L k a).1 = Status.ub) := by
  have hcn : c.layer_count_.toNat = lc := by rw [hclc]; omega
  have hkn : (k.layer_count_ * 2).toNat = 2 * lc := by rw [hklc]; omega
  have hcast := map_toNat_cast m (fun x hx => (hrange x hx).1)
  have hmlen : (m.map Int.toNat).length = m.length := by simp
  have hne2 : m.map Int.toNat ≠ [] := by
    intro h
    apply hne
    simpa using h
  have hr2 := mem_map_toNat_lt m B hrange
  constructor
  · intro hshort
    constructor
    · obtain ⟨ps, prs, hrun, _, _, hall, _⟩ := KV_Cache_Combined.Update_reorder_run_fused B H S D c a
        (m.map Int.toNat) L lc hcn hcshape hcpl hcprl hcpres (fun i _ => halloc _) hne2
        (by omega) hr2
      rw [hcast] at hrun
      refine ⟨_, _, hrun, ?_⟩
      intro i hi
      obtain ⟨present, out, g, h1, h2, h3, h4, h5, h6⟩ := hall i hi
      refine ⟨present, _, g, h1, h2, h3, h4, ?_, ?_⟩
      · intro j e hj he
        have := h6 j e (by omega) he
        rwa [getD_map_toNat] at this
      · intro j e hj1 hj2 he
        have hs := slot_le j B (H * S * D) hj2
        have hlo : (m.map Int.toNat).length * (H * S * D) ≤ j * (H * S * D) :=
          Nat.mul_le_mul_right _ (by omega)
        have hlo2 : (m.map Int.toNat).length * (H * S * D) ≤ B * (H * S * D) :=
          Nat.mul_le_mul_right _ (by omega)
        have h2B : 2 * B * (H * S * D) = B * (H * S * D) + B * (H * S * D) := by ring
        constructor
        · rw [h5 _ (by omega) (by omega), range_map_getElem? g _ _ (by omega)]
        · rw [h5 _ (by omega) (by omega), range_map_getElem? g _ _ (by omega)]
    · obtain ⟨ps, prs, hrun, _, _, hall, _⟩ := KV_Cache.Update_reorder_run_split B H S D k a
        (m.map Int.toNat) L (2 * lc) hkn hkshape hkpl hkprl hkpres (fun i _ => halloc _) hne2
        (by omega) hr2
      rw [hcast] at hrun
      refine ⟨_, _, hrun, ?_⟩
      intro i hi
      obtain ⟨present, out, g, h1, h2, h3, h4, h5, h6⟩ := hall i hi
      refine ⟨present, _, g, h1, h2, h3, h4, ?_, ?_⟩
      · intro j e hj he
        have := h6 j e (by omega) he
        rwa [getD_map_toNat] at this
      · intro j e hj1 hj2 he
        have hs := slot_le j B (H * S * D) hj2
        have hlo : (m.map Int.toNat).length * (H * S * D) ≤ j * (H * S * D) :=
          Nat.mul_le_mul_right _ (by omega)
        rw [h5 _ (by omega), range_map_getElem? g _ _ (by omega)]
  · intro hlong hblk hlc
    obtain ⟨n, rfl⟩ : ∃ n, lc = n + 1 := ⟨lc - 1, by omega⟩
    obtain ⟨g, hg⟩ := halloc a.count
    obtain ⟨tc, htc, htcl⟩ := presents_get c.presents_ _ 0 (by omega) hcpres
    obtain ⟨tk, htk, htkl⟩ := presents_get k.presents_ _ 0 (by omega) hkpres
    have h1 := KV_Cache_Combined.Update_long_fused B H S D c a g (m.map Int.toNat) L n tc hcn hcshape
      htc htcl hg hblk (by omega) hr2
    have h2 := KV_Cache.Update_long_split B H S D k a g (m.map Int.toNat) L (2 * n + 1) tk
      (by rw [hkn]; omega) hkshape htk htkl hg hblk (by omega) hr2
    rw [hcast] at h1 h2
    exact ⟨h1, h2⟩

/-- Witness for C4 as amended: the mapping `[1]` on caches with two beams. -/
theorem C4_update_without_length_check_witness :
    (∃ (s1 : KV_Cache_Combined Nat) (a1 : Allocator Nat),
      KV_Cache_Combined.Update [1] 2 exampleFused exampleAllocator = (Status.ok, s1, a1)) ∧
    (∃ (s1 : KV_Cache Nat) (a1 : Allocator Nat),
      KV_Cache.Update [1] 2 exampleSplit exampleAllocator = (Status.ok, s1, a1)) := by
  have h := (C4_update_without_length_check 2 1 1 2 1 exampleFused exampleSplit exampleAllocator
    [1] 2 rfl rfl rfl rfl
    (by
      intro p hp
      simp only [exampleFused, List.mem_singleton] at hp
      subst hp
      exact ⟨_, rfl, rfl⟩)
    rfl rfl rfl rfl
    (by
      intro p hp
      simp only [exampleSplit, List.mem_cons, List.mem_singleton, List.not_mem_nil, or_false] at hp
      rcases hp with rfl | rfl
      · exact ⟨_, rfl, rfl⟩
      · exact ⟨_, rfl, rfl⟩)
    (fun _ => ⟨_, rfl⟩) (by decide) (by decide)).1 (by decide)
  obtain ⟨⟨s1, a1, h1, _⟩, ⟨s2, a2, h2, _⟩⟩ := h
  exact ⟨⟨s1, a1, h1⟩, ⟨s2, a2, h2⟩⟩

/-- Counterexample to C4 as stated.  On caches with two (fused) and three (split) beams,
`Update` with the one-entry mapping `[1]` returns normally and stores past buffers whose
remaining slots are whatever the allocator supplied (here zeros); with a mapping longer
than the beam dimension the call is undefined instead of failing. -/
theorem C4_counterexample :
    (KV_Cache_Combined.Update [1] 2 exampleFused exampleAllocator).1 = Status.ok ∧
    (KV_Cache_Combined.Update [1] 2 exampleFused exampleAllocator).2.1.pasts_ =
      [some { type := ScoreType.float, shape := [2, 2, 1, 1, 2],
              data := [20, 21, 0, 0, 40, 41, 0, 0] }] ∧
    (KV_Cache_Combined.Update [0, 0, 0] 2 exampleFused exampleAllocator).1 = Status.ub ∧
    (KV_Cache.Update [1] 2 exampleSplit3 exampleAllocator).1 = Status.ok ∧
    (KV_Cache.Update [1] 2 exampleSplit3 exampleAllocator).2.1.pasts_ =
      [some { type := ScoreType.float, shape := [3, 1, 1, 1], data := [20, 0, 0] },
       some { type := ScoreType.float, shape := [3, 1, 1, 1], data := [50, 0, 0] }] ∧
    (KV_Cache.Update [0, 0, 0, 0] 2 exampleSplit3 exampleAllocator).1 = Status.ub := by
  decide

theorem int_mul_eq (a b : Int) (h : -(2 ^ 31) ≤ a * b ∧ a * b < 2 ^ 31) :
    int_mul a b = some (a * b) := by
  unfold int_mul
  rw [if_pos h]

theorem int_mul_natCast (a b : Int) (B : Nat) (hB : a * b = (B : Int)) (hBint : B < 2 ^ 31) :
    -(2 ^ 31) ≤ a * b ∧ a * b < 2 ^ 31 := by
  rw [hB]
  constructor <;> omega

/-- The fused constructor when the beam product fits in `int` and no allocation fails:
what it builds. -/
theorem KV_Cache_Combined.construct_run_fused {α : Type} (model : Model) (sp : SearchParams)
    (a : Allocator α) (n : Nat)
    (hn : model.config_.num_hidden_layers = (n : Int))
    (hbeams : -(2 ^ 31) ≤ sp.batch_size * sp.num_beams ∧ sp.batch_size * sp.num_beams < 2 ^ 31)
    (halloc : ∀ k, k < n + 1 → ∃ g, a.outcome (a.count + k) = some g) :
    ∃ (g0 : Nat → α) (prs : List (Option (Tensor α))),
      a.outcome a.count = some g0 ∧
      KV_Cache_Combined.construct model sp a =
        (Status.ok, some
          { model_ := model, layer_count_ := (n : Int),
            shape_ := { d0 := 2, d1 := sp.batch_size * sp.num_beams,
                        d2 := model.config_.num_attention_heads, d3 := sp.sequence_length,
                        d4 := model.config_.hidden_size },
            empty_past_ := some
              { type := model.score_type_,
                shape := [2, sp.batch_size * sp.num_beams, model.config_.num_attention_heads, 0,
                          model.config_.hidden_size],
                data := (List.range
                  ([2, sp.batch_size * sp.num_beams, model.config_.num_attention_heads, 0,
                    model.config_.hidden_size] : List Int).prod.toNat).map g0 },
            pasts_ := List.replicate n none,
            presents_ := prs,
            input_name_strings_ :=
              (List.range n).map (fun (i : Nat) => snprintf 32 KV_Cache_Combined.past_name_ (i : Int)),
            output_name_strings_ :=
              (List.range n).map (fun (i : Nat) => snprintf 32 KV_Cache_Combined.present_name_ (i : Int)) },
          { a with count := a.count + 1 + n }) ∧
      prs.length = n ∧
      ∀ i, i < n → ∃ g, a.outcome (a.count + 1 + i) = some g ∧
        prs[i]? = some (some
          { type := model.score_type_,
            shape := [2, sp.batch_size * sp.num_beams, model.config_.num_attention_heads,
                      sp.sequence_length, model.config_.hidden_size],
            data := (List.range
              ([2, sp.batch_size * sp.num_beams, model.config_.num_attention_heads,
                sp.sequence_length, model.config_.hidden_size] : List Int).prod.toNat).map g }) := by
  obtain ⟨g0, hg0⟩ := halloc 0 (by omega)
  simp only [Nat.add_zero] at hg0
  obtain ⟨s1, hrun, prs, hs1, hlen, hall⟩ := forLoop_ok
    (@KV_Cache_Combined.ctorBody α)
    (fun i s => ∃ prs : List (Option (Tensor α)),
      s = ({ model_ := model, layer_count_ := (n : Int),
             shape_ := { d0 := 2, d1 := sp.batch_size * sp.num_beams,
                         d2 := model.config_.num_attention_heads, d3 := sp.sequence_length,
                         d4 := model.config_.hidden_size },
             empty_past_ := some
               { type := model.score_type_,
                 shape := [2, sp.batch_size * sp.num_beams, model.config_.num_attention_heads, 0,
                           model.config_.hidden_size],
                 data := (List.range
                   ([2, sp.batch_size * sp.num_beams, model.config_.num_attention_heads, 0,
                     model.config_.hidden_size] : List Int).prod.toNat).map g0 },
             pasts_ := List.replicate n none,
             presents_ := prs,
             input_name_strings_ :=
               (List.range i).map (fun (i : Nat) => snprintf 32 KV_Cache_Combined.past_name_ (i : Int)),
             output_name_strings_ :=
               (List.range i).map
                 (fun (i : Nat) => snprintf 32 KV_Cache_Combined.present_name_ (i : Int)) },
           { a with count := a.count + 1 + i }) ∧
      prs.length = i ∧
      ∀ k, k < i → ∃ g, a.outcome (a.count + 1 + k) = some g ∧
        prs[k]? = some (some
          { type := model.score_type_,
            shape := [2, sp.batch_size * sp.num_beams, model.config_.num_attention_heads,
                      sp.sequence_length, model.config_.hidden_size],
            data := (List.range
              ([2, sp.batch_size * sp.num_beams, model.config_.num_attention_heads,
                sp.sequence_length, model.config_.hidden_size] : List Int).prod.toNat).map g }))
    n 0 _ ⟨[], rfl, rfl, fun k hk => absurd hk (Nat.not_lt_zero k)⟩
    (by
      intro i s _ hi ⟨prs, hs, hlen, hprev⟩
      subst hs
      obtain ⟨g, hg⟩ := halloc (1 + i) (by omega)
      rw [← Nat.add_assoc] at hg
      refine ⟨_, ?_, prs ++ [some
          { type := model.score_type_,
            shape := [2, sp.batch_size * sp.num_beams, model.config_.num_attention_heads,
                      sp.sequence_length, model.config_.hidden_size],
            data := (List.range
              ([2, sp.batch_size * sp.num_beams, model.config_.num_attention_heads,
                sp.sequence_length, model.config_.hidden_size] : List Int).prod.toNat).map g }],
        rfl, by simp [hlen], ?_⟩
      · simp only [KV_Cache_Combined.ctorBody, CreateTensor, hg, Shape5.toList, List.range_succ,
          List.map_append, List.map_cons, List.map_nil]
        rfl
      · intro k hk
        by_cases hki : k = i
        · subst hki
          refine ⟨g, hg, ?_⟩
          rw [List.getElem?_append_right (by omega), hlen]
          simp
        · obtain ⟨g2, h1, h2⟩ := hprev k (by omega)
          refine ⟨g2, h1, ?_⟩
          rw [List.getElem?_append_left (by omega)]
          exact h2)
  refine ⟨g0, prs, hg0, ?_, by simpa using hlen, fun i hi => hall i (by omega)⟩
  unfold KV_Cache_Combined.construct
  simp only [int_mul_eq _ _ hbeams, CreateTensor, hg0, hn, Shape5.toList]
  rw [if_neg (by omega)]
  simp only [Int.toNat_ofNat]
  simp only [List.range_zero, List.map_nil, Nat.add_zero] at hrun
  rw [hrun, hs1]
  simp [Nat.add_assoc]

theorem forall_mem_of_getElem? {β : Type} (l : List β) (P : β → Prop)
    (h : ∀ i, i < l.length → ∃ x, l[i]? = some x ∧ P x) : ∀ p ∈ l, P p := by
  intro p hp
  obtain ⟨i, hi, rfl⟩ := List.getElem_of_mem hp
  obtain ⟨x, hx, hP⟩ := h i hi
  rw [List.getElem?_eq_getElem hi] at hx
  cases hx
  exact hP

/-- One fused `Update` call keeps the state well shaped: the new present buffers have the
requested sequence length and the new past buffers the previous one. -/
theorem KV_Cache_Combined.Update_shaped_fused {α : Type} (n B H S D l : Nat)
    (c : KV_Cache_Combined α) (a : Allocator α) (m : List Int)
    (hc : c.ShapedAs n B H S D)
    (halloc : ∀ i, ∃ g, a.outcome i = some g)
    (hm : m = [] ∨ (m.length = B ∧ ∀ x ∈ m, 0 ≤ x ∧ x < (B : Int))) :
    ∃ (c1 : KV_Cache_Combined α) (a1 : Allocator α),
      KV_Cache_Combined.Update m (l : Int) c a = (Status.ok, c1, a1) ∧
      a1.outcome = a.outcome ∧ c1.ShapedAs n B H l D ∧
      ∀ p ∈ c1.pasts_, ∃ t, p = some t ∧
        t.shape = [2, (B : Int), (H : Int), (S : Int), (D : Int)] := by
  obtain ⟨hlc, hshape, hpl, hprl, hpres⟩ := hc
  have hn : c.layer_count_.toNat = n := by rw [hlc]; omega
  have hprod : ([2, (B : Int), (H : Int), (l : Int), (D : Int)] : List Int).prod.toNat =
      2 * B * (H * l * D) := by
    have : ([2, (B : Int), (H : Int), (l : Int), (D : Int)] : List Int).prod =
        ((2 * B * (H * l * D) : Nat) : Int) := by
      simp only [List.prod_cons, List.prod_nil]; push_cast; ring
    rw [this]; exact Int.toNat_ofNat _
  have fresh : ∀ (prs : List (Option (Tensor α))), prs.length = n →
      (∀ i, i < n → ∃ g, a.outcome (a.count + n + i) = some g ∧
        prs[i]? = some (some
          { type := c.model_.score_type_,
            shape := [2, (B : Int), (H : Int), (l : Int), (D : Int)],
            data := (List.range
              ([2, (B : Int), (H : Int), (l : Int), (D : Int)] : List Int).prod.toNat).map g })) →
      ∀ p ∈ prs, ∃ t, p = some t ∧
        t.shape = [2, (B : Int), (H : Int), (l : Int), (D : Int)] ∧
        t.data.length = 2 * B * (H * l * D) := by
    intro prs hlen hall
    apply forall_mem_of_getElem?
    intro i hi
    obtain ⟨g, _, hg⟩ := hall i (by omega)
    exact ⟨_, hg, _, rfl, rfl, by simp only [List.length_map, List.length_range]; exact hprod⟩
  rcases hm with hm | ⟨hmlen, hrange⟩
  · subst hm
    obtain ⟨prs, hrun, hlen, hall⟩ := KV_Cache_Combined.Update_empty_run_fused c a (l : Int) n hn
      hpl hprl (fun i _ => halloc _)
    refine ⟨_, _, hrun, rfl, ⟨hlc, by simp [hshape], hprl, hlen, ?_⟩, ?_⟩
    · apply forall_mem_of_getElem?
      intro i hi
      obtain ⟨g, _, hg⟩ := hall i (by simp only [] at hi; omega)
      simp only [hshape] at hg
      exact ⟨_, hg, _, rfl, rfl, by simp only [List.length_map, List.length_range]; exact hprod⟩
    · intro p hp
      obtain ⟨t, h1, h2, _⟩ := hpres p hp
      exact ⟨t, h1, h2⟩
  · by_cases hne : m = []
    · subst hne
      obtain ⟨prs, hrun, hlen, hall⟩ := KV_Cache_Combined.Update_empty_run_fused c a (l : Int) n hn
        hpl hprl (fun i _ => halloc _)
      refine ⟨_, _, hrun, rfl, ⟨hlc, by simp [hshape], hprl, hlen, ?_⟩, ?_⟩
      · apply forall_mem_of_getElem?
        intro i hi
        obtain ⟨g, _, hg⟩ := hall i (by simp only [] at hi; omega)
        simp only [hshape] at hg
        exact ⟨_, hg, _, rfl, rfl, by simp only [List.length_map, List.length_range]; exact hprod⟩
      · intro p hp
        obtain ⟨t, h1, h2, _⟩ := hpres p hp
        exact ⟨t, h1, h2⟩
    · have hmlen2 : (m.map Int.toNat).length = B := by simpa using hmlen
      obtain ⟨ps, prs, hrun, hl1, hl2, hall1, hall2⟩ := KV_Cache_Combined.Update_reorder_run_fused
        B H S D c a (m.map Int.toNat) (l : Int) n hn hshape hpl hprl
        (fun p hp => by
          obtain ⟨t, h1, _, h3⟩ := hpres p hp
          exact ⟨t, h1, h3⟩)
        (fun i _ => halloc _)
        (by
          intro h
          apply hne
          simpa using h)
        (le_of_eq hmlen2) (mem_map_toNat_lt m B hrange)
      rw [map_toNat_cast m (fun x hx => (hrange x hx).1)] at hrun
      refine ⟨_, _, hrun, rfl, ⟨hlc, rfl, hl1, hl2, fresh prs hl2 hall2⟩, ?_⟩
      apply forall_mem_of_getElem?
      intro i hi
      obtain ⟨_, out, _, _, _, h3, _⟩ := hall1 i (by simp only [] at hi; omega)
      exact ⟨_, h3, _, rfl, rfl⟩

theorem prod_toNat5 (B H S D : Nat) :
    ([2, (B : Int), (H : Int), (S : Int), (D : Int)] : List Int).prod.toNat =
      2 * B * (H * S * D) := by
  have : ([2, (B : Int), (H : Int), (S : Int), (D : Int)] : List Int).prod =
      ((2 * B * (H * S * D) : Nat) : Int) := by
    simp only [List.prod_cons, List.prod_nil]; push_cast; ring
  rw [this]; exact Int.toNat_ofNat _

/-- The fused constructor, with non-negative sizes and no failing allocation, returns a
well-shaped cache at the initial sequence length. -/
theorem KV_Cache_Combined.construct_shaped_fused {α : Type} (model : Model) (sp : SearchParams)
    (a : Allocator α) (n B H D L0 : Nat)
    (hn : model.config_.num_hidden_layers = (n : Int))
    (hB : sp.batch_size * sp.num_beams = (B : Int)) (hBint : B < 2 ^ 31)
    (hH : model.config_.num_attention_heads = (H : Int))
    (hD : model.config_.hidden_size = (D : Int))
    (hL : sp.sequence_length = (L0 : Int))
    (halloc : ∀ i, ∃ g, a.outcome i = some g) :
    ∃ (c : KV_Cache_Combined α) (a1 : Allocator α),
      KV_Cache_Combined.construct model sp a = (Status.ok, some c, a1) ∧
      a1.outcome = a.outcome ∧ c.ShapedAs n B H L0 D := by
  obtain ⟨g0, prs, _, hrun, hlen, hall⟩ := KV_Cache_Combined.construct_run_fused model sp a n hn
    (int_mul_natCast _ _ B hB hBint) (fun k _ => halloc _)
  refine ⟨_, _, hrun, rfl, rfl, by simp [hB, hH, hD, hL], by simp, hlen, ?_⟩
  apply forall_mem_of_getElem?
  intro i hi
  obtain ⟨g, _, hg⟩ := hall i (by simp only [] at hi; omega)
  simp only [hB, hH, hD, hL] at hg
  exact ⟨_, hg, _, rfl, rfl, by
    simp only [List.length_map, List.length_range]; exact prod_toNat5 B H L0 D⟩

theorem writePresents_length {α : Type} (P : Nat → List α) (l : List (Option (Tensor α))) :
    ∀ i, (writePresents P i l).length = l.length := by
  induction l with
  | nil => intro i; rfl
  | cons p rest ih => intro i; simp [writePresents, ih]

theorem writePresents_getElem? {α : Type} (P : Nat → List α) (l : List (Option (Tensor α))) :
    ∀ (i k : Nat), (writePresents P i l)[k]? =
      l[k]?.map (fun (p : Option (Tensor α)) =>
        p.map (fun (t : Tensor α) => { t with data := P (i + k) })) := by
  induction l with
  | nil => intro i k; simp [writePresents]
  | cons p rest ih =>
    intro i k
    cases k with
    | zero => simp [writePresents]
    | succ k =>
      simp only [writePresents, List.getElem?_cons_succ, ih]
      have e : i + 1 + k = i + (k + 1) := by omega
      rw [e]

/-- The forward pass keeps a fused cache well shaped when it writes buffers of the right
size, and afterwards layer `i` holds `P i`. -/
theorem KV_Cache_Combined.forwardPass_shaped {α : Type} (P : Nat → List α) (n B H S D : Nat)
    (c : KV_Cache_Combined α) (hc : c.ShapedAs n B H S D)
    (hP : ∀ i, i < n → (P i).length = 2 * B * (H * S * D)) :
    (c.forwardPass P).ShapedAs n B H S D ∧
    ∀ i, i < n → ∃ t, (c.forwardPass P).presents_[i]? = some (some t) ∧ t.data = P i := by
  obtain ⟨hlc, hshape, hpl, hprl, hpres⟩ := hc
  have hget : ∀ i, i < n → ∃ t, (writePresents P 0 c.presents_)[i]? = some (some t) ∧
      t.shape = [2, (B : Int), (H : Int), (S : Int), (D : Int)] ∧ t.data = P i := by
    intro i hi
    obtain ⟨t, ht, hsh, _⟩ := hpres c.presents_[i] (List.getElem_mem _)
    refine ⟨{ t with data := P i }, ?_, hsh, rfl⟩
    rw [writePresents_getElem?, List.getElem?_eq_getElem (by omega), ht]
    simp
  refine ⟨⟨hlc, hshape, hpl, by simp [KV_Cache_Combined.forwardPass, writePresents_length, hprl],
    ?_⟩, ?_⟩
  · apply forall_mem_of_getElem?
    intro i hi
    simp only [KV_Cache_Combined.forwardPass, writePresents_length] at hi
    obtain ⟨t, h1, h2, h3⟩ := hget i (by omega)
    exact ⟨_, h1, t, rfl, h2, by rw [h3]; exact hP i (by omega)⟩
  · intro i hi
    obtain ⟨t, h1, _, h3⟩ := hget i hi
    exact ⟨t, h1, h3⟩

/-- C6. End-to-end two-step scenario on the fused cache: after construction with initial
length `L0` (and a beam dimension `batch_size*num_beams` within the range of `int`), `Update([], L1)`, a forward pass that fills the length-`L1` present buffers
with arbitrary content `P`, and `Update(m, L2)` with `m` of length batch×beams and
in-range entries (allocations succeeding), all calls return normally, each layer's past
buffer has the shape of length `L1` and equals `P` reordered by `m` with
`block = heads * L1 * hidden`, in the key and in the value half, and each new present
buffer has sequence length `L2`. -/
theorem C6_two_step_scenario {α : Type} (model : Model) (sp : SearchParams) (a : Allocator α)
    (n B H D L0 L1 : Nat) (L2 : Int) (P : Nat → List α) (m : List Int)
    (hn : model.config_.num_hidden_layers = (n : Int))
    (hB : sp.batch_size * sp.num_beams = (B : Int)) (hBint : B < 2 ^ 31)
    (hH : model.config_.num_attention_heads = (H : Int))
    (hD : model.config_.hidden_size = (D : Int))
    (hL : sp.sequence_length = (L0 : Int))
    (halloc : ∀ i, ∃ g, a.outcome i = some g)
    (hP : ∀ i, i < n → (P i).length = 2 * B * (H * L1 * D))
    (hm : m.length = B) (hrange : ∀ x ∈ m, 0 ≤ x ∧ x < (B : Int)) :
    ∃ (c0 : KV_Cache_Combined α) (a0 : Allocator α) (c1 : KV_Cache_Combined α)
        (a1 : Allocator α) (c2 : KV_Cache_Combined α) (a2 : Allocator α),
      KV_Cache_Combined.construct model sp a = (Status.ok, some c0, a0) ∧
      KV_Cache_Combined.Update [] (L1 : Int) c0 a0 = (Status.ok, c1, a1) ∧
      KV_Cache_Combined.Update m L2 (c1.forwardPass P) a1 = (Status.ok, c2, a2) ∧
      ∀ i, i < n → ∃ past present : Tensor α,
        c2.pasts_[i]? = some (some past) ∧
        past.shape = [2, (B : Int), (H : Int), (L1 : Int), (D : Int)] ∧
        past.data.length = 2 * B * (H * L1 * D) ∧
        (∀ j e, j < B → e < H * L1 * D →
          past.data[j * (H * L1 * D) + e]? = (P i)[(m.getD j 0).toNat * (H * L1 * D) + e]? ∧
          past.data[B * (H * L1 * D) + j * (H * L1 * D) + e]? =
            (P i)[B * (H * L1 * D) + (m.getD j 0).toNat * (H * L1 * D) + e]?) ∧
        c2.presents_[i]? = some (some present) ∧
        present.shape = [2, (B : Int), (H : Int), L2, (D : Int)] := by
  obtain ⟨c0, a0, hc, ha0, hs0⟩ := KV_Cache_Combined.construct_shaped_fused model sp a n B H D L0
    hn hB hBint hH hD hL halloc
  have halloc0 : ∀ i, ∃ g, a0.outcome i = some g := by rw [ha0]; exact halloc
  obtain ⟨c1, a1, hrun1, ha1, hs1, _⟩ := KV_Cache_Combined.Update_shaped_fused n B H L0 D L1 c0 a0
    [] hs0 halloc0 (Or.inl rfl)
  have halloc1 : ∀ i, ∃ g, a1.outcome i = some g := by rw [ha1]; exact halloc0
  obtain ⟨hsf, hdata⟩ := KV_Cache_Combined.forwardPass_shaped P n B H L1 D c1 hs1 hP
  obtain ⟨hlc, hshape, hpl, hprl, hpres⟩ := hsf
  have hnn : (c1.forwardPass P).layer_count_.toNat = n := by rw [hlc]; omega
  by_cases hne : m = []
  · subst hne
    simp only [List.length_nil] at hm
    obtain ⟨prs, hrun2, _, hall⟩ := KV_Cache_Combined.Update_empty_run_fused (c1.forwardPass P) a1
      L2 n hnn hpl hprl (fun i _ => halloc1 _)
    refine ⟨c0, a0, c1, a1, _, _, hc, hrun1, hrun2, ?_⟩
    intro i hi
    obtain ⟨t, ht, htd⟩ := hdata i hi
    obtain ⟨t2, ht2, hsh, hlen⟩ := hpres _ (List.getElem?_mem ht)
    cases ht2
    obtain ⟨g, _, hg⟩ := hall i hi
    simp only [hshape] at hg
    exact ⟨t, _, ht, hsh, hlen, fun j e hj _ => absurd hj (by omega), hg, rfl⟩
  · have hmlen : (m.map Int.toNat).length = B := by simpa using hm
    obtain ⟨ps, prs, hrun2, _, _, hall1, hall2⟩ := KV_Cache_Combined.Update_reorder_run_fused
      B H L1 D (c1.forwardPass P) a1 (m.map Int.toNat) L2 n hnn hshape hpl hprl
      (fun p hp => by
        obtain ⟨t, h1, _, h3⟩ := hpres p hp
        exact ⟨t, h1, h3⟩)
      (fun i _ => halloc1 _)
      (by
        intro h
        apply hne
        simpa using h)
      (le_of_eq hmlen) (mem_map_toNat_lt m B hrange)
    rw [map_toNat_cast m (fun x hx => (hrange x hx).1)] at hrun2
    refine ⟨c0, a0, c1, a1, _, _, hc, hrun1, hrun2, ?_⟩
    intro i hi
    obtain ⟨present, out, g, h1, _, h3, h4, _, h6⟩ := hall1 i hi
    obtain ⟨t, ht, htd⟩ := hdata i hi
    rw [ht] at h1
    cases h1
    obtain ⟨g2, _, hg2⟩ := hall2 i hi
    refine ⟨_, _, h3, rfl, h4, ?_, hg2, rfl⟩
    intro j e hj he
    have := h6 j e (by omega) he
    rwa [getD_map_toNat, htd] at this

/-- Witness for C6: two layers, two beams, two heads, hidden size 4, lengths 3, 3 and 4,
mapping `[1, 0]`: with `block = 24` the past of each layer is `P` with its two beams
swapped in the key half and in the value half. -/
theorem C6_two_step_scenario_witness :
    ∃ (c0 : KV_Cache_Combined Nat) (a0 : Allocator Nat) (c1 : KV_Cache_Combined Nat)
        (a1 : Allocator Nat) (c2 : KV_Cache_Combined Nat) (a2 : Allocator Nat),
      KV_Cache_Combined.construct exampleModel exampleSearchParams exampleAllocator = (Status.ok, some c0, a0) ∧
      KV_Cache_Combined.Update [] 3 c0 a0 = (Status.ok, c1, a1) ∧
      KV_Cache_Combined.Update [1, 0] 4 (c1.forwardPass examplePattern) a1 = (Status.ok, c2, a2) ∧
      ∀ i, i < 2 → ∃ past present : Tensor Nat,
        c2.pasts_[i]? = some (some past) ∧ past.shape = [2, 2, 2, 3, 4] ∧
        (∀ e, e < 24 →
          past.data[e]? = (examplePattern i)[24 + e]? ∧
          past.data[24 + e]? = (examplePattern i)[e]? ∧
          past.data[48 + e]? = (examplePattern i)[72 + e]? ∧
          past.data[72 + e]? = (examplePattern i)[48 + e]?) ∧
        c2.presents_[i]? = some (some present) ∧ present.shape = [2, 2, 2, 4, 4] := by
  obtain ⟨c0, a0, c1, a1, c2, a2, h1, h2, h3, h4⟩ := C6_two_step_scenario exampleModel
    exampleSearchParams exampleAllocator 2 2 2 4 3 3 4 examplePattern [1, 0] rfl rfl (by decide)
    rfl rfl rfl (fun _ => ⟨_, rfl⟩) (fun i _ => by simp [examplePattern]) rfl (by decide)
  refine ⟨c0, a0, c1, a1, c2, a2, h1, h2, h3, ?_⟩
  intro i hi
  obtain ⟨past, present, g1, g2, _, g4, g5, g6⟩ := h4 i hi
  refine ⟨past, present, g1, g2, ?_, g5, g6⟩
  intro e he
  have k0 := g4 0 e (by omega) he
  have k1 := g4 1 e (by omega) he
  simp only [List.getD_cons_zero, List.getD_cons_succ] at k0 k1
  norm_num at k0 k1
  exact ⟨k0.1, k1.1, k0.2, k1.2⟩

theorem KV_Cache.PickPastState_frame_split {α : Type} (m : List Int) (i : Nat)
    (s : KV_Cache α) (a : Allocator α) :
    ∃ ps, (KV_Cache.PickPastState m i s a).2.1 = { s with pasts_ := ps } := by
  rw [KV_Cache.PickPastState_eq_split]
  unfold KV_Cache.PickPastStateT
  simp only [KV_Cache.cudaLoop_eq_hostLoop_split, ite_self]
  repeat' split
  all_goals exact ⟨_, rfl⟩

theorem KV_Cache.updateBody1_frame_split {α : Type} (m : List Int) (i : Nat)
    (s : KV_Cache α × Allocator α) :
    ∃ ps prs, (KV_Cache.updateBody1 m i s).2.1 = { s.1 with pasts_ := ps, presents_ := prs } := by
  unfold KV_Cache.updateBody1
  split
  · unfold KV_Cache.movePresent
    repeat' split
    all_goals exact ⟨_, _, rfl⟩
  · obtain ⟨ps, h⟩ := KV_Cache.PickPastState_frame_split m i s.1 s.2
    exact ⟨ps, s.1.presents_, h⟩

theorem KV_Cache.updateBody2_frame_split {α : Type} (i : Nat) (s : KV_Cache α × Allocator α) :
    ∃ prs, (KV_Cache.updateBody2 i s).2.1 = { s.1 with presents_ := prs } := by
  unfold KV_Cache.updateBody2
  repeat' split
  all_goals exact ⟨_, rfl⟩

/-- The frame of the split `Update`: up to the point where the call ends, only `pasts_`,
`presents_` and the sequence-length entry `shape_[2]` have been assigned. -/
theorem KV_Cache.Update_frame_split {α : Type} (m : List Int) (L : Int) (self : KV_Cache α)
    (a : Allocator α) :
    ∃ (ps prs : List (Option (Tensor α))) (d2 : Int),
      (KV_Cache.Update m L self a).2.1 =
        { self with pasts_ := ps, presents_ := prs, shape_ := { self.shape_ with d2 := d2 } } := by
  have key : ∀ (body : Nat → KV_Cache α × Allocator α → Status × KV_Cache α × Allocator α),
      (∀ i s, ∃ ps prs, (body i s).2.1 = { s.1 with pasts_ := ps, presents_ := prs }) →
      ∀ (n i : Nat) (s : KV_Cache α × Allocator α),
        (∃ (ps prs : List (Option (Tensor α))) (d2 : Int), s.1 =
          { self with pasts_ := ps, presents_ := prs, shape_ := { self.shape_ with d2 := d2 } }) →
        ∃ (ps prs : List (Option (Tensor α))) (d2 : Int), (forLoop body i n s).2.1 =
          { self with pasts_ := ps, presents_ := prs, shape_ := { self.shape_ with d2 := d2 } } := by
    intro body hbody n i s hs
    exact forLoop_preserves body
      (fun s => ∃ (ps prs : List (Option (Tensor α))) (d2 : Int), s.1 =
        { self with pasts_ := ps, presents_ := prs, shape_ := { self.shape_ with d2 := d2 } })
      (fun i s ⟨ps, prs, d2, h⟩ => by
        obtain ⟨ps2, prs2, h2⟩ := hbody i s
        exact ⟨ps2, prs2, d2, by rw [h2, h]⟩)
      n i s hs
  have h1 := key (KV_Cache.updateBody1 m) (KV_Cache.updateBody1_frame_split m) (self.layer_count_ * 2).toNat 0
    (self, a) ⟨self.pasts_, self.presents_, self.shape_.d2, rfl⟩
  unfold KV_Cache.Update
  rcases hr : forLoop (KV_Cache.updateBody1 m) 0 (self.layer_count_ * 2).toNat (self, a) with ⟨st, s1⟩
  rw [hr] at h1
  cases st
  · obtain ⟨ps, prs, d2, h⟩ := h1
    simp only [] at h
    exact key KV_Cache.updateBody2
      (fun i s => by
        obtain ⟨prs, h⟩ := KV_Cache.updateBody2_frame_split i s
        exact ⟨s.1.pasts_, prs, h⟩)
      _ 0 _ ⟨ps, prs, L, by simp only []; rw [h]⟩
  · exact h1
  · exact h1

/-- Counterexample to C7 as stated: on a cache with two beams and two cross buffers, the
call `Update([0, 0, 0], 2)`, whose mapping is longer than the beam dimension, is
undefined (its third copy lies outside the new past buffer), so that nothing is
guaranteed of the cross buffers after it. -/
theorem C7_counterexample :
    (KV_Cache.Update [0, 0, 0] 2 exampleSplitCross exampleAllocator).1 = Status.ub ∧
    exampleSplitCross.shape_.d0 = 2 ∧ exampleSplitCross.crosses_.length = 2 := by
  decide

/-- C7, as amended. Cross-buffer invariance: every call `KV_Cache::Update(m, L)` that is
not undefined (it returns normally or propagates an allocation failure), with any mapping
and any length, leaves `crosses_`, `cross_shape_`, the four binding-name lists, the name
templates, `layer_count_`, `empty_past_` and `model_` as they were: the state afterwards
is the state before with only `pasts_`, `presents_` and the sequence-length entry
`shape_[2]` replaced. -/
theorem C7_cross_buffer_invariance {α : Type} (m : List Int) (L : Int) (self : KV_Cache α)
    (a : Allocator α) (_hdef : (KV_Cache.Update m L self a).1 ≠ Status.ub) :
    ∃ (ps prs : List (Option (Tensor α))) (d2 : Int),
      (KV_Cache.Update m L self a).2.1 =
        { self with pasts_ := ps, presents_ := prs, shape_ := { self.shape_ with d2 := d2 } } :=
  KV_Cache.Update_frame_split m L self a

/-- Witness for C7 as amended: the cache with two cross buffers, beams swapped, new
length 2. -/
theorem C7_cross_buffer_invariance_witness :
    (KV_Cache.Update [1, 0] 2 exampleSplitCross exampleAllocator).1 = Status.ok ∧
    (KV_Cache.Update [1, 0] 2 exampleSplitCross exampleAllocator).2.1.crosses_ =
      exampleSplitCross.crosses_ ∧
    (KV_Cache.Update [1, 0] 2 exampleSplitCross exampleAllocator).2.1.cross_shape_ =
      exampleSplitCross.cross_shape_ ∧
    (KV_Cache.Update [1, 0] 2 exampleSplitCross exampleAllocator).2.1.input_cross_name_strings_ =
      exampleSplitCross.input_cross_name_strings_ := by
  obtain ⟨ps, prs, d2, h⟩ := C7_cross_buffer_invariance [1, 0] 2 exampleSplitCross
    exampleAllocator (by decide)
  rw [h]
  exact ⟨by decide, rfl, rfl, rfl⟩

theorem forLoop_split {σ : Type} (body : Nat → σ → Status × σ) (k1 k2 : Nat) :
    ∀ (i : Nat) (s s1 : σ), forLoop body i k1 s = (Status.ok, s1) →
      forLoop body i (k1 + k2) s = forLoop body (i + k1) k2 s1 := by
  induction k1 with
  | zero =>
    intro i s s1 h
    simp only [forLoop, Prod.mk.injEq, true_and] at h
    subst h
    simp
  | succ k1 ih =>
    intro i s s1 h
    have e : k1 + 1 + k2 = (k1 + k2) + 1 := by omega
    rw [e, forLoop]
    rw [forLoop] at h
    rcases hb : body i s with ⟨st, s2⟩
    rw [hb] at h
    cases st
    · simp only [] at h ⊢
      rw [ih (i + 1) s2 s1 h]
      have e2 : i + 1 + k1 = i + (k1 + 1) := by omega
      rw [e2]
    · simp at h
    · simp at h

/-- A loop whose first `k` iterations return normally and whose next one does not ends
with the outcome of that iteration. -/
theorem forLoop_fail_at {σ : Type} (body : Nat → σ → Status × σ) (k r : Nat) (s s1 : σ)
    (hpre : forLoop body 0 k s = (Status.ok, s1)) (hfail : (body k s1).1 ≠ Status.ok) :
    forLoop body 0 (k + (r + 1)) s = body k s1 := by
  rw [forLoop_split body k (r + 1) 0 s s1 hpre, Nat.zero_add]
  exact forLoop_first_fail body k r s1 hfail

/-- The first `k` iterations of the first loop of the fused `Update` with a non-empty
mapping: the first `k` past slots are replaced, the others are untouched. -/
theorem KV_Cache_Combined.reorderLoop_prefix_fused {α : Type} (B H S D : Nat)
    (self : KV_Cache_Combined α) (a : Allocator α) (ms : List Nat) (n k : Nat) (hk : k ≤ n)
    (hshape : self.shape_ = { d0 := 2, d1 := B, d2 := H, d3 := S, d4 := D })
    (hpl : self.pasts_.length = n) (hprl : self.presents_.length = n)
    (hpres : ∀ p ∈ self.presents_, ∃ t, p = some t ∧ t.data.length = 2 * B * (H * S * D))
    (halloc : ∀ i, i < k → ∃ g, a.outcome (a.count + i) = some g)
    (hne : ms ≠ []) (hm : ms.length ≤ B) (hrange : ∀ b ∈ ms, b < B) :
    ∃ ps : List (Option (Tensor α)),
      forLoop (KV_Cache_Combined.updateBody1 (ms.map (fun (b : Nat) => (b : Int)))) 0 k (self, a) =
        (Status.ok, { self with pasts_ := ps }, { a with count := a.count + k }) ∧
      ps.length = n ∧
      (∀ i, k ≤ i → ps[i]? = self.pasts_[i]?) ∧
      ∀ i, i < k → ∃ present out, self.presents_[i]? = some (some present) ∧
        ps[i]? = some (some { type := self.model_.score_type_,
                              shape := [2, (B : Int), (H : Int), (S : Int), (D : Int)],
                              data := out }) ∧
        out.length = 2 * B * (H * S * D) ∧
        (∀ j e, j < ms.length → e < H * S * D →
          out[j * (H * S * D) + e]? = present.data[ms.getD j 0 * (H * S * D) + e]? ∧
          out[B * (H * S * D) + j * (H * S * D) + e]? =
            present.data[B * (H * S * D) + ms.getD j 0 * (H * S * D) + e]?) := by
  obtain ⟨s1, hrun, ps, hs1, hlen, hkeep, hall⟩ := forLoop_ok
    (KV_Cache_Combined.updateBody1 (ms.map (fun (b : Nat) => (b : Int))))
    (fun i s => ∃ ps : List (Option (Tensor α)),
      s = ({ self with pasts_ := ps }, { a with count := a.count + i }) ∧ ps.length = n ∧
      (∀ j, i ≤ j → ps[j]? = self.pasts_[j]?) ∧
      ∀ j, j < i → ∃ present out, self.presents_[j]? = some (some present) ∧
        ps[j]? = some (some { type := self.model_.score_type_,
                              shape := [2, (B : Int), (H : Int), (S : Int), (D : Int)],
                              data := out }) ∧
        out.length = 2 * B * (H * S * D) ∧
        (∀ j e, j < ms.length → e < H * S * D →
          out[j * (H * S * D) + e]? = present.data[ms.getD j 0 * (H * S * D) + e]? ∧
          out[B * (H * S * D) + j * (H * S * D) + e]? =
            present.data[B * (H * S * D) + ms.getD j 0 * (H * S * D) + e]?))
    k 0 (self, a) ⟨self.pasts_, by simp, hpl, fun _ _ => rfl,
      fun j hj => absurd hj (Nat.not_lt_zero j)⟩
    (by
      intro i s _ hi ⟨ps, hs, hlen, hkeep, hprev⟩
      subst hs
      obtain ⟨present, hget, hplen⟩ := presents_get self.presents_ _ i (by omega) hpres
      obtain ⟨g, hg⟩ := halloc i (by omega)
      obtain ⟨out, hrun, holen, _, hfill⟩ := KV_Cache_Combined.PickPastStateT_run_fused
        self.model_.score_type_ B H S D { self with pasts_ := ps } { a with count := a.count + i }
        g ms i present hshape hget hplen (by simp only [hlen]; omega) hg hm hrange
      refine ⟨({ self with
          pasts_ := ps.set i (some { type := self.model_.score_type_,
                                     shape := [2, (B : Int), (H : Int), (S : Int), (D : Int)],
                                     data := out }) }, { a with count := a.count + (i + 1) }),
        ?_, ps.set i (some { type := self.model_.score_type_,
                             shape := [2, (B : Int), (H : Int), (S : Int), (D : Int)],
                             data := out }), rfl, by simp [hlen], ?_, ?_⟩
      · simp only [KV_Cache_Combined.updateBody1, map_cast_isEmpty ms hne, Bool.false_eq_true,
          if_false]
        rw [KV_Cache_Combined.PickPastState_eq_fused]
        exact hrun
      · intro j hj
        rw [List.getElem?_set_ne (by omega)]
        exact hkeep j (by omega)
      · intro j hj
        by_cases hji : j = i
        · subst hji
          refine ⟨present, out, hget, ?_, holen, hfill⟩
          rw [List.getElem?_set_self (by omega)]
        · obtain ⟨pr, o, h1, h3, h4⟩ := hprev j (by omega)
          refine ⟨pr, o, h1, ?_, h4⟩
          rw [List.getElem?_set_ne (by omega)]
          exact h3)
  subst hs1
  refine ⟨ps, ?_, hlen, fun i hi => hkeep i (by omega), fun i hi => hall i (by omega)⟩
  simpa using hrun

/-- The first `k` iterations of the second loop of the fused `Update`: the first `k`
present slots hold fresh tensors, the others are untouched. -/
theorem KV_Cache_Combined.allocLoop_prefix_fused {α : Type} (self : KV_Cache_Combined α)
    (a : Allocator α) (n k : Nat) (hk : k ≤ n) (hprl : self.presents_.length = n)
    (halloc : ∀ i, i < k → ∃ g, a.outcome (a.count + i) = some g) :
    ∃ prs : List (Option (Tensor α)),
      forLoop KV_Cache_Combined.updateBody2 0 k (self, a) =
        (Status.ok, { self with presents_ := prs }, { a with count := a.count + k }) ∧
      prs.length = n ∧
      (∀ i, k ≤ i → prs[i]? = self.presents_[i]?) ∧
      ∀ i, i < k → ∃ t, prs[i]? = some (some t) ∧ t.shape = self.shape_.toList := by
  obtain ⟨s1, hrun, prs, hs1, hlen, hkeep, hall⟩ := forLoop_ok KV_Cache_Combined.updateBody2
    (fun i s => ∃ prs : List (Option (Tensor α)),
      s = ({ self with presents_ := prs }, { a with count := a.count + i }) ∧ prs.length = n ∧
      (∀ j, i ≤ j → prs[j]? = self.presents_[j]?) ∧
      ∀ j, j < i → ∃ t, prs[j]? = some (some t) ∧ t.shape = self.shape_.toList)
    k 0 (self, a) ⟨self.presents_, by simp, hprl, fun _ _ => rfl,
      fun j hj => absurd hj (Nat.not_lt_zero j)⟩
    (by
      intro i s _ hi ⟨prs, hs, hlen, hkeep, hprev⟩
      subst hs
      obtain ⟨g, hg⟩ := halloc i (by omega)
      refine ⟨({ self with
          presents_ := prs.set i
            (some { type := self.model_.score_type_, shape := self.shape_.toList,
                    data := (List.range self.shape_.toList.prod.toNat).map g }) },
          { a with count := a.count + (i + 1) }), ?_, _, rfl, by simp [hlen], ?_, ?_⟩
      · have hi2 : i < prs.length := by omega
        simp [KV_Cache_Combined.updateBody2, CreateTensor, hg, hi2]
        rfl
      · intro j hj
        rw [List.getElem?_set_ne (by omega)]
        exact hkeep j (by omega)
      · intro j hj
        by_cases hji : j = i
        · subst hji
          exact ⟨_, by rw [List.getElem?_set_self (by omega)], rfl⟩
        · obtain ⟨t, h1, h2⟩ := hprev j (by omega)
          exact ⟨t, by rw [List.getElem?_set_ne (by omega)]; exact h1, h2⟩)
  subst hs1
  exact ⟨prs, by simpa using hrun, hlen, fun i hi => hkeep i (by omega),
    fun i hi => hall i (by omega)⟩

theorem KV_Cache_Combined.PickPastState_alloc_fail_fused {α : Type} (m : List Int) (i : Nat)
    (self : KV_Cache_Combined α) (a : Allocator α) (present : Tensor α)
    (hpres : self.presents_[i]? = some (some present)) (hfail : a.outcome a.count = none) :
    KV_Cache_Combined.PickPastState m i self a =
      (Status.threw, self, { a with count := a.count + 1 }) := by
  rw [KV_Cache_Combined.PickPastState_eq_fused]
  unfold KV_Cache_Combined.PickPastStateT
  simp only [hpres, CreateTensor, hfail]

theorem KV_Cache_Combined.updateBody2_alloc_fail_fused {α : Type} (i : Nat)
    (s : KV_Cache_Combined α × Allocator α) (hfail : s.2.outcome s.2.count = none) :
    KV_Cache_Combined.updateBody2 i s = (Status.threw, s.1, { s.2 with count := s.2.count + 1 }) := by
  unfold KV_Cache_Combined.updateBody2
  simp only [CreateTensor, hfail]

/-- The first `k` iterations of the first loop of the split `Update` with a non-empty
mapping: the first `k` past slots are replaced, the others are untouched. -/
theorem KV_Cache.reorderLoop_prefix_split {α : Type} (B H S D : Nat)
    (self : KV_Cache α) (a : Allocator α) (ms : List Nat) (n k : Nat) (hk : k ≤ n)
    (hshape : self.shape_ = { d0 := B, d1 := H, d2 := S, d3 := D })
    (hpl : self.pasts_.length = n) (hprl : self.presents_.length = n)
    (hpres : ∀ p ∈ self.presents_, ∃ t, p = some t ∧ t.data.length = B * (H * S * D))
    (halloc : ∀ i, i < k → ∃ g, a.outcome (a.count + i) = some g)
    (hne : ms ≠ []) (hm : ms.length ≤ B) (hrange : ∀ b ∈ ms, b < B) :
    ∃ ps : List (Option (Tensor α)),
      forLoop (KV_Cache.updateBody1 (ms.map (fun (b : Nat) => (b : Int)))) 0 k (self, a) =
        (Status.ok, { self with pasts_ := ps }, { a with count := a.count + k }) ∧
      ps.length = n ∧
      (∀ i, k ≤ i → ps[i]? = self.pasts_[i]?) ∧
      ∀ i, i < k → ∃ present out, self.presents_[i]? = some (some present) ∧
        ps[i]? = some (some { type := self.model_.score_type_,
                              shape := [(B : Int), (H : Int), (S : Int), (D : Int)],
                              data := out }) ∧
        out.length = B * (H * S * D) ∧
        (∀ j e, j < ms.length → e < H * S * D →
          out[j * (H * S * D) + e]? = present.data[ms.getD j 0 * (H * S * D) + e]?) := by
  obtain ⟨s1, hrun, ps, hs1, hlen, hkeep, hall⟩ := forLoop_ok
    (KV_Cache.updateBody1 (ms.map (fun (b : Nat) => (b : Int))))
    (fun i s => ∃ ps : List (Option (Tensor α)),
      s = ({ self with pasts_ := ps }, { a with count := a.count + i }) ∧ ps.length = n ∧
      (∀ j, i ≤ j → ps[j]? = self.pasts_[j]?) ∧
      ∀ j, j < i → ∃ present out, self.presents_[j]? = some (some present) ∧
        ps[j]? = some (some { type := self.model_.score_type_,
                              shape := [(B : Int), (H : Int), (S : Int), (D : Int)],
                              data := out }) ∧
        out.length = B * (H * S * D) ∧
        (∀ j e, j < ms.length → e < H * S * D →
          out[j * (H * S * D) + e]? = present.data[ms.getD j 0 * (H * S * D) + e]?))
    k 0 (self, a) ⟨self.pasts_, by simp, hpl, fun _ _ => rfl,
      fun j hj => absurd hj (Nat.not_lt_zero j)⟩
    (by
      intro i s _ hi ⟨ps, hs, hlen, hkeep, hprev⟩
      subst hs
      obtain ⟨present, hget, hplen⟩ := presents_get self.presents_ _ i (by omega) hpres
      obtain ⟨g, hg⟩ := halloc i (by omega)
      obtain ⟨out, hrun, holen, _, hfill⟩ := KV_Cache.PickPastStateT_run_split
        self.model_.score_type_ B H S D { self with pasts_ := ps } { a with count := a.count + i }
        g ms i present hshape hget hplen (by simp only [hlen]; omega) hg hm hrange
      refine ⟨({ self with
          pasts_ := ps.set i (some { type := self.model_.score_type_,
                                     shape := [(B : Int), (H : Int), (S : Int), (D : Int)],
                                     data := out }) }, { a with count := a.count + (i + 1) }),
        ?_, ps.set i (some { type := self.model_.score_type_,
                             shape := [(B : Int), (H : Int), (S : Int), (D : Int)],
                             data := out }), rfl, by simp [hlen], ?_, ?_⟩
      · simp only [KV_Cache.updateBody1, map_cast_isEmpty ms hne, Bool.false_eq_true,
          if_false]
        rw [KV_Cache.PickPastState_eq_split]
        exact hrun
      · intro j hj
        rw [List.getElem?_set_ne (by omega)]
        exact hkeep j (by omega)
      · intro j hj
        by_cases hji : j = i
        · subst hji
          refine ⟨present, out, hget, ?_, holen, hfill⟩
          rw [List.getElem?_set_self (by omega)]
        · obtain ⟨pr, o, h1, h3, h4⟩ := hprev j (by omega)
          refine ⟨pr, o, h1, ?_, h4⟩
          rw [List.getElem?_set_ne (by omega)]
          exact h3)
  subst hs1
  refine ⟨ps, ?_, hlen, fun i hi => hkeep i (by omega), fun i hi => hall i (by omega)⟩
  simpa using hrun

/-- The first `k` iterations of the second loop of the split `Update`: the first `k`
present slots hold fresh tensors, the others are untouched. -/
theorem KV_Cache.allocLoop_prefix_split {α : Type} (self : KV_Cache α)
    (a : Allocator α) (n k : Nat) (hk : k ≤ n) (hprl : self.presents_.length = n)
    (halloc : ∀ i, i < k → ∃ g, a.outcome (a.count + i) = some g) :
    ∃ prs : List (Option (Tensor α)),
      forLoop KV_Cache.updateBody2 0 k (self, a) =
        (Status.ok, { self with presents_ := prs }, { a with count := a.count + k }) ∧
      prs.length = n ∧
      (∀ i, k ≤ i → prs[i]? = self.presents_[i]?) ∧
      ∀ i, i < k → ∃ t, prs[i]? = some (some t) ∧ t.shape = self.shape_.toList := by
  obtain ⟨s1, hrun, prs, hs1, hlen, hkeep, hall⟩ := forLoop_ok KV_Cache.updateBody2
    (fun i s => ∃ prs : List (Option (Tensor α)),
      s = ({ self with presents_ := prs }, { a with count := a.count + i }) ∧ prs.length = n ∧
      (∀ j, i ≤ j → prs[j]? = self.presents_[j]?) ∧
      ∀ j, j < i → ∃ t, prs[j]? = some (some t) ∧ t.shape = self.shape_.toList)
    k 0 (self, a) ⟨self.presents_, by simp, hprl, fun _ _ => rfl,
      fun j hj => absurd hj (Nat.not_lt_zero j)⟩
    (by
      intro i s _ hi ⟨prs, hs, hlen, hkeep, hprev⟩
      subst hs
      obtain ⟨g, hg⟩ := halloc i (by omega)
      refine ⟨({ self with
          presents_ := prs.set i
            (some { type := self.model_.score_type_, shape := self.shape_.toList,
                    data := (List.range self.shape_.toList.prod.toNat).map g }) },
          { a with count := a.count + (i + 1) }), ?_, _, rfl, by simp [hlen], ?_, ?_⟩
      · have hi2 : i < prs.length := by omega
        simp [KV_Cache.updateBody2, CreateTensor, hg, hi2]
        rfl
      · intro j hj
        rw [List.getElem?_set_ne (by omega)]
        exact hkeep j (by omega)
      · intro j hj
        by_cases hji : j = i
        · subst hji
          exact ⟨_, by rw [List.getElem?_set_self (by omega)], rfl⟩
        · obtain ⟨t, h1, h2⟩ := hprev j (by omega)
          exact ⟨t, by rw [List.getElem?_set_ne (by omega)]; exact h1, h2⟩)
  subst hs1
  exact ⟨prs, by simpa using hrun, hlen, fun i hi => hkeep i (by omega),
    fun i hi => hall i (by omega)⟩

theorem KV_Cache.PickPastState_alloc_fail_split {α : Type} (m : List Int) (i : Nat)
    (self : KV_Cache α) (a : Allocator α) (present : Tensor α)
    (hpres : self.presents_[i]? = some (some present)) (hfail : a.outcome a.count = none) :
    KV_Cache.PickPastState m i self a =
      (Status.threw, self, { a with count := a.count + 1 }) := by
  rw [KV_Cache.PickPastState_eq_split]
  unfold KV_Cache.PickPastStateT
  simp only [hpres, CreateTensor, hfail]

theorem KV_Cache.updateBody2_alloc_fail_split {α : Type} (i : Nat)
    (s : KV_Cache α × Allocator α) (hfail : s.2.outcome s.2.count = none) :
    KV_Cache.updateBody2 i s = (Status.threw, s.1, { s.2 with count := s.2.count + 1 }) := by
  unfold KV_Cache.updateBody2
  simp only [CreateTensor, hfail]

/-- The fused `Update` with a non-empty mapping when the allocation for the reorder of
layer `f` fails: the call throws, the layers before `f` have their new past, the others
and all present buffers are untouched. -/
theorem KV_Cache_Combined.Update_fail_reorder_fused {α : Type} (B H S D : Nat)
    (self : KV_Cache_Combined α) (a : Allocator α) (ms : List Nat) (L : Int) (n f : Nat)
    (hn : self.layer_count_.toNat = n) (hf : f < n)
    (hshape : self.shape_ = { d0 := 2, d1 := B, d2 := H, d3 := S, d4 := D })
    (hpl : self.pasts_.length = n) (hprl : self.presents_.length = n)
    (hpres : ∀ p ∈ self.presents_, ∃ t, p = some t ∧ t.data.length = 2 * B * (H * S * D))
    (hok : ∀ i, i < f → ∃ g, a.outcome (a.count + i) = some g)
    (hfail : a.outcome (a.count + f) = none)
    (hne : ms ≠ []) (hm : ms.length ≤ B) (hrange : ∀ b ∈ ms, b < B) :
    ∃ ps : List (Option (Tensor α)),
      KV_Cache_Combined.Update (ms.map (fun (b : Nat) => (b : Int))) L self a =
        (Status.threw, { self with pasts_ := ps }, { a with count := a.count + f + 1 }) ∧
      ps.length = n ∧
      (∀ i, f ≤ i → ps[i]? = self.pasts_[i]?) ∧
      ∀ i, i < f → ∃ present out, self.presents_[i]? = some (some present) ∧
        ps[i]? = some (some { type := self.model_.score_type_,
                              shape := [2, (B : Int), (H : Int), (S : Int), (D : Int)],
                              data := out }) ∧
        out.length = 2 * B * (H * S * D) ∧
        (∀ j e, j < ms.length → e < H * S * D →
          out[j * (H * S * D) + e]? = present.data[ms.getD j 0 * (H * S * D) + e]? ∧
          out[B * (H * S * D) + j * (H * S * D) + e]? =
            present.data[B * (H * S * D) + ms.getD j 0 * (H * S * D) + e]?) := by
  obtain ⟨ps, hpre, hlen, hkeep, hall⟩ := KV_Cache_Combined.reorderLoop_prefix_fused B H S D self a
    ms n f (by omega) hshape hpl hprl hpres hok hne hm hrange
  obtain ⟨present, hget, _⟩ := presents_get self.presents_ _ f (by omega) hpres
  have hbody : KV_Cache_Combined.updateBody1 (ms.map (fun (b : Nat) => (b : Int))) f
      ({ self with pasts_ := ps }, { a with count := a.count + f }) =
      (Status.threw, { self with pasts_ := ps }, { a with count := a.count + f + 1 }) := by
    simp only [KV_Cache_Combined.updateBody1, map_cast_isEmpty ms hne, Bool.false_eq_true, if_false]
    exact KV_Cache_Combined.PickPastState_alloc_fail_fused _ f _ _ present hget hfail
  obtain ⟨r, hr⟩ : ∃ r, n = f + (r + 1) := ⟨n - f - 1, by omega⟩
  refine ⟨ps, ?_, hlen, hkeep, hall⟩
  unfold KV_Cache_Combined.Update
  rw [hn, hr, forLoop_fail_at _ f r _ _ hpre (by rw [hbody]; simp), hbody]

/-- The fused `Update` when the allocation of the new present buffer of layer `f` fails,
the first loop having returned normally in state `s1`: the call throws, the present
slots before `f` hold fresh buffers and the others are as the first loop left them. -/
theorem KV_Cache_Combined.Update_fail_present_fused {α : Type} (m : List Int) (L : Int)
    (self s1 : KV_Cache_Combined α) (a a1 : Allocator α) (n f : Nat)
    (hn : self.layer_count_.toNat = n) (hf : f < n)
    (hloop : forLoop (KV_Cache_Combined.updateBody1 m) 0 n (self, a) = (Status.ok, s1, a1))
    (hprl : s1.presents_.length = n)
    (hok : ∀ i, i < f → ∃ g, a1.outcome (a1.count + i) = some g)
    (hfail : a1.outcome (a1.count + f) = none) :
    ∃ prs : List (Option (Tensor α)),
      KV_Cache_Combined.Update m L self a =
        (Status.threw, { s1 with presents_ := prs, shape_ := { s1.shape_ with d3 := L } },
          { a1 with count := a1.count + f + 1 }) ∧
      prs.length = n ∧
      (∀ i, f ≤ i → prs[i]? = s1.presents_[i]?) ∧
      ∀ i, i < f → ∃ t, prs[i]? = some (some t) ∧
        t.shape = [s1.shape_.d0, s1.shape_.d1, s1.shape_.d2, L, s1.shape_.d4] := by
  obtain ⟨prs, hpre, hlen, hkeep, hall⟩ := KV_Cache_Combined.allocLoop_prefix_fused
    { s1 with shape_ := { s1.shape_ with d3 := L } } a1 n f (by omega) hprl hok
  have hbody := KV_Cache_Combined.updateBody2_alloc_fail_fused f
    ({ s1 with shape_ := { s1.shape_ with d3 := L }, presents_ := prs },
      { a1 with count := a1.count + f }) hfail
  obtain ⟨r, hr⟩ : ∃ r, n = f + (r + 1) := ⟨n - f - 1, by omega⟩
  refine ⟨prs, ?_, hlen, hkeep, hall⟩
  unfold KV_Cache_Combined.Update
  rw [hn, hloop]
  simp only []
  rw [hr, forLoop_fail_at _ f r _ _ hpre (by rw [hbody]; simp), hbody]

/-- The split `Update` with a non-empty mapping when the allocation for the reorder of
layer `f` fails: the call throws, the tensors before `f` have their new past, the others
and all present buffers are untouched. -/
theorem KV_Cache.Update_fail_reorder_split {α : Type} (B H S D : Nat)
    (self : KV_Cache α) (a : Allocator α) (ms : List Nat) (L : Int) (n f : Nat)
    (hn : (self.layer_count_ * 2).toNat = n) (hf : f < n)
    (hshape : self.shape_ = { d0 := B, d1 := H, d2 := S, d3 := D })
    (hpl : self.pasts_.length = n) (hprl : self.presents_.length = n)
    (hpres : ∀ p ∈ self.presents_, ∃ t, p = some t ∧ t.data.length = B * (H * S * D))
    (hok : ∀ i, i < f → ∃ g, a.outcome (a.count + i) = some g)
    (hfail : a.outcome (a.count + f) = none)
    (hne : ms ≠ []) (hm : ms.length ≤ B) (hrange : ∀ b ∈ ms, b < B) :
    ∃ ps : List (Option (Tensor α)),
      KV_Cache.Update (ms.map (fun (b : Nat) => (b : Int))) L self a =
        (Status.threw, { self with pasts_ := ps }, { a with count := a.count + f + 1 }) ∧
      ps.length = n ∧
      (∀ i, f ≤ i → ps[i]? = self.pasts_[i]?) ∧
      ∀ i, i < f → ∃ present out, self.presents_[i]? = some (some present) ∧
        ps[i]? = some (some { type := self.model_.score_type_,
                              shape := [(B : Int), (H : Int), (S : Int), (D : Int)],
                              data := out }) ∧
        out.length = B * (H * S * D) ∧
        (∀ j e, j < ms.length → e < H * S * D →
          out[j * (H * S * D) + e]? = present.data[ms.getD j 0 * (H * S * D) + e]?) := by
  obtain ⟨ps, hpre, hlen, hkeep, hall⟩ := KV_Cache.reorderLoop_prefix_split B H S D self a
    ms n f (by omega) hshape hpl hprl hpres hok hne hm hrange
  obtain ⟨present, hget, _⟩ := presents_get self.presents_ _ f (by omega) hpres
  have hbody : KV_Cache.updateBody1 (ms.map (fun (b : Nat) => (b : Int))) f
      ({ self with pasts_ := ps }, { a with count := a.count + f }) =
      (Status.threw, { self with pasts_ := ps }, { a with count := a.count + f + 1 }) := by
    simp only [KV_Cache.updateBody1, map_cast_isEmpty ms hne, Bool.false_eq_true, if_false]
    exact KV_Cache.PickPastState_alloc_fail_split _ f _ _ present hget hfail
  obtain ⟨r, hr⟩ : ∃ r, n = f + (r + 1) := ⟨n - f - 1, by omega⟩
  refine ⟨ps, ?_, hlen, hkeep, hall⟩
  unfold KV_Cache.Update
  rw [hn, hr, forLoop_fail_at _ f r _ _ hpre (by rw [hbody]; simp), hbody]

/-- The split `Update` when the allocation of the new present buffer of tensor `f` fails,
the first loop having returned normally in state `s1`: the call throws, the present
slots before `f` hold fresh buffers and the others are as the first loop left them. -/
theorem KV_Cache.Update_fail_present_split {α : Type} (m : List Int) (L : Int)
    (self s1 : KV_Cache α) (a a1 : Allocator α) (n f : Nat)
    (hn : (self.layer_count_ * 2).toNat = n) (hf : f < n)
    (hloop : forLoop (KV_Cache.updateBody1 m) 0 n (self, a) = (Status.ok, s1, a1))
    (hprl : s1.presents_.length = n)
    (hok : ∀ i, i < f → ∃ g, a1.outcome (a1.count + i) = some g)
    (hfail : a1.outcome (a1.count + f) = none) :
    ∃ prs : List (Option (Tensor α)),
      KV_Cache.Update m L self a =
        (Status.threw, { s1 with presents_ := prs, shape_ := { s1.shape_ with d2 := L } },
          { a1 with count := a1.count + f + 1 }) ∧
      prs.length = n ∧
      (∀ i, f ≤ i → prs[i]? = s1.presents_[i]?) ∧
      ∀ i, i < f → ∃ t, prs[i]? = some (some t) ∧
        t.shape = [s1.shape_.d0, s1.shape_.d1, L, s1.shape_.d3] := by
  obtain ⟨prs, hpre, hlen, hkeep, hall⟩ := KV_Cache.allocLoop_prefix_split
    { s1 with shape_ := { s1.shape_ with d2 := L } } a1 n f (by omega) hprl hok
  have hbody := KV_Cache.updateBody2_alloc_fail_split f
    ({ s1 with shape_ := { s1.shape_ with d2 := L }, presents_ := prs },
      { a1 with count := a1.count + f }) hfail
  obtain ⟨r, hr⟩ : ∃ r, n = f + (r + 1) := ⟨n - f - 1, by omega⟩
  refine ⟨prs, ?_, hlen, hkeep, hall⟩
  unfold KV_Cache.Update
  rw [hn, hloop]
  simp only []
  rw [hr, forLoop_fail_at _ f r _ _ hpre (by rw [hbody]; simp), hbody]

/-- Counterexample to C8 as stated.  When the first allocation of `Update([], 2)` fails on
the one-layer fused cache, the call throws and leaves the past slot holding the prior
present buffer, the present slot empty and `shape_` at the new length.  When the second
allocation of `Update([1, 0], 2)` fails on the split cache, the call throws with the key
tensor's past replaced and the value tensor's past not. -/
theorem C8_counterexample :
    (KV_Cache_Combined.Update [] 2 exampleFused (exampleAllocatorFailingAt 0)).1 = Status.threw ∧
    (KV_Cache_Combined.Update [] 2 exampleFused (exampleAllocatorFailingAt 0)).2.1.presents_ =
      [none] ∧
    (KV_Cache_Combined.Update [] 2 exampleFused (exampleAllocatorFailingAt 0)).2.1.pasts_ =
      exampleFused.presents_ ∧
    (KV_Cache_Combined.Update [] 2 exampleFused (exampleAllocatorFailingAt 0)).2.1.shape_.d3 = 2 ∧
    (KV_Cache_Combined.Update [] 2 exampleFused (exampleAllocatorFailingAt 0)).2.1 ≠ exampleFused ∧
    (KV_Cache.Update [1, 0] 2 exampleSplit (exampleAllocatorFailingAt 1)).1 = Status.threw ∧
    (KV_Cache.Update [1, 0] 2 exampleSplit (exampleAllocatorFailingAt 1)).2.1.pasts_ =
      [some { type := ScoreType.float, shape := [2, 1, 1, 2], data := [20, 21, 10, 11] }, none] ∧
    (KV_Cache.Update [1, 0] 2 exampleSplit (exampleAllocatorFailingAt 1)).2.1 ≠ exampleSplit := by
  decide

/-- C8, as amended. `Update` is not all-or-nothing under allocation failure: the failure
propagates and the state stays as the statements before it left it.  Let request `f`
(counted from the start of the call) be the first allocation that fails.
With a mapping of length batch×beams: if `f` is the reorder of tensor `f`, the tensors
before `f` have their new (reordered) past, the other past slots, all present slots and
`shape_` are as before the call (so the state is unchanged exactly when `f = 0`); if `f`
is the allocation of a new present buffer, every past is replaced, `shape_` carries the
new length, the present slots before the failing one hold fresh buffers and the others
still hold the prior present buffers.  With the empty mapping and `f` below the number of
tensors, every past slot holds the prior present buffer, `shape_` carries the new length,
the present slots before `f` hold fresh buffers and the others are empty. -/
theorem C8_update_under_allocation_failure {α : Type} (B H S D lc : Nat)
    (c : KV_Cache_Combined α) (k : KV_Cache α) (a : Allocator α) (m : List Int) (L : Int)
    (f : Nat)
    (hclc : c.layer_count_ = (lc : Int))
    (hcshape : c.shape_ = { d0 := 2, d1 := B, d2 := H, d3 := S, d4 := D })
    (hcpl : c.pasts_.length = lc) (hcprl : c.presents_.length = lc)
    (hcpres : ∀ p ∈ c.presents_, ∃ t, p = some t ∧ t.data.length = 2 * B * (H * S * D))
    (hklc : k.layer_count_ = (lc : Int))
    (hkshape : k.shape_ = { d0 := B, d1 := H, d2 := S, d3 := D })
    (hkpl : k.pasts_.length = 2 * lc) (hkprl : k.presents_.length = 2 * lc)
    (hkpres : ∀ p ∈ k.presents_, ∃ t, p = some t ∧ t.data.length = B * (H * S * D))
    (hok : ∀ i, i < f → ∃ g, a.outcome (a.count + i) = some g)
    (hfail : a.outcome (a.count + f) = none)
    (hne : m ≠ []) (hm : m.length = B) (hrange : ∀ x ∈ m, 0 ≤ x ∧ x < (B : Int)) :
    (f < lc → ∃ (ps : List (Option (Tensor α))) (a1 : Allocator α),
      KV_Cache_Combined.Update m L c a = (Status.threw, { c with pasts_ := ps }, a1) ∧
      (∀ i, f ≤ i → ps[i]? = c.pasts_[i]?) ∧
      ∀ i, i < f → ∃ present past : Tensor α,
        c.presents_[i]? = some (some present) ∧ ps[i]? = some (some past) ∧
        ∀ j e, j < B → e < H * S * D →
          past.data[j * (H * S * D) + e]? =
            present.data[(m.getD j 0).toNat * (H * S * D) + e]? ∧
          past.data[B * (H * S * D) + j * (H * S * D) + e]? =
            present.data[B * (H * S * D) + (m.getD j 0).toNat * (H * S * D) + e]?) ∧
    (lc ≤ f → f < lc + lc → ∃ (ps prs : List (Option (Tensor α))) (a1 : Allocator α),
      KV_Cache_Combined.Update m L c a =
        (Status.threw,
          { c with pasts_ := ps, presents_ := prs, shape_ := { c.shape_ with d3 := L } }, a1) ∧
      (∀ i, i < lc → ∃ present past : Tensor α,
        c.presents_[i]? = some (some present) ∧ ps[i]? = some (some past) ∧
        ∀ j e, j < B → e < H * S * D →
          past.data[j * (H * S * D) + e]? =
            present.data[(m.getD j 0).toNat * (H * S * D) + e]? ∧
          past.data[B * (H * S * D) + j * (H * S * D) + e]? =
            present.data[B * (H * S * D) + (m.getD j 0).toNat * (H * S * D) + e]?) ∧
      (∀ i, f - lc ≤ i → prs[i]? = c.presents_[i]?) ∧
      ∀ i, i < f - lc → ∃ t, prs[i]? = some (some t) ∧
        t.shape = [2, (B : Int), (H : Int), L, (D : Int)]) ∧
    (f < lc → ∃ (prs : List (Option (Tensor α))) (a1 : Allocator α),
      KV_Cache_Combined.Update [] L c a =
        (Status.threw,
          { c with
            pasts_ := c.presents_, presents_ := prs, shape_ := { c.shape_ with d3 := L } },
          a1) ∧
      (∀ i, f ≤ i → i < lc → prs[i]? = some none) ∧
      ∀ i, i < f → ∃ t, prs[i]? = some (some t) ∧
        t.shape = [2, (B : Int), (H : Int), L, (D : Int)]) ∧
    (f < 2 * lc → ∃ (ps : List (Option (Tensor α))) (a1 : Allocator α),
      KV_Cache.Update m L k a = (Status.threw, { k with pasts_ := ps }, a1) ∧
      (∀ i, f ≤ i → ps[i]? = k.pasts_[i]?) ∧
      ∀ i, i < f → ∃ present past : Tensor α,
        k.presents_[i]? = some (some present) ∧ ps[i]? = some (some past) ∧
        ∀ j e, j < B → e < H * S * D →
          past.data[j * (H * S * D) + e]? =
            present.data[(m.getD j 0).toNat * (H * S * D) + e]?) ∧
    (2 * lc ≤ f → f < 2 * lc + 2 * lc →
      ∃ (ps prs : List (Option (Tensor α))) (a1 : Allocator α),
      KV_Cache.Update m L k a =
        (Status.threw,
          { k with pasts_ := ps, presents_ := prs, shape_ := { k.shape_ with d2 := L } }, a1) ∧
      (∀ i, i < 2 * lc → ∃ present past : Tensor α,
        k.presents_[i]? = some (some present) ∧ ps[i]? = some (some past) ∧
        ∀ j e, j < B → e < H * S * D →
          past.data[j * (H * S * D) + e]? =
            present.data[(m.getD j 0).toNat * (H * S * D) + e]?) ∧
      (∀ i, f - 2 * lc ≤ i → prs[i]? = k.presents_[i]?) ∧
      ∀ i, i < f - 2 * lc → ∃ t, prs[i]? = some (some t) ∧
        t.shape = [(B : Int), (H : Int), L, (D : Int)]) ∧
    (f < 2 * lc → ∃ (prs : List (Option (Tensor α))) (a1 : Allocator α),
      KV_Cache.Update [] L k a =
        (Status.threw,
          { k with
            pasts_ := k.presents_, presents_ := prs, shape_ := { k.shape_ with d2 := L } },
          a1) ∧
      (∀ i, f ≤ i → i < 2 * lc → prs[i]? = some none) ∧
      ∀ i, i < f → ∃ t, prs[i]? = some (some t) ∧
        t.shape = [(B : Int), (H : Int), L, (D : Int)]) := by
  have hcn : c.layer_count_.toNat = lc := by rw [hclc]; omega
  have hkn : (k.layer_count_ * 2).toNat = 2 * lc := by rw [hklc]; omega
  have hcast := map_toNat_cast m (fun x hx => (hrange x hx).1)
  have hmlen : (m.map Int.toNat).length = B := by simpa using hm
  have hne2 : m.map Int.toNat ≠ [] := by
    intro h
    apply hne
    simpa using h
  have hr2 := mem_map_toNat_lt m B hrange
  refine ⟨?_, ?_, ?_, ?_, ?_, ?_⟩
  · intro hf
    obtain ⟨ps, hrun, _, hkeep, hall⟩ := KV_Cache_Combined.Update_fail_reorder_fused B H S D c a
      (m.map Int.toNat) L lc f hcn hf hcshape hcpl hcprl hcpres hok hfail hne2 (le_of_eq hmlen) hr2
    rw [hcast] at hrun
    refine ⟨ps, _, hrun, hkeep, ?_⟩
    intro i hi
    obtain ⟨present, out, h1, h2, _, h4⟩ := hall i hi
    refine ⟨present, _, h1, h2, ?_⟩
    intro j e hj he
    have := h4 j e (by omega) he
    rwa [getD_map_toNat] at this
  · intro hf1 hf2
    obtain ⟨ps, hloop, hlen, _, hall⟩ := KV_Cache_Combined.reorderLoop_prefix_fused B H S D c a
      (m.map Int.toNat) lc lc (le_refl _) hcshape hcpl hcprl hcpres (fun i hi => hok i (by omega))
      hne2 (le_of_eq hmlen) hr2
    rw [hcast] at hloop
    obtain ⟨prs, hrun, _, hkeep, hfresh⟩ := KV_Cache_Combined.Update_fail_present_fused m L c
      { c with pasts_ := ps } a { a with count := a.count + lc } lc (f - lc) hcn (by omega) hloop
      hcprl
      (fun i hi => by
        obtain ⟨g, hg⟩ := hok (lc + i) (by omega)
        exact ⟨g, by simpa [Nat.add_assoc] using hg⟩)
      (by
        have e : a.count + lc + (f - lc) = a.count + f := by omega
        simp only [e]
        exact hfail)
    refine ⟨ps, prs, _, hrun, ?_, hkeep, ?_⟩
    · intro i hi
      obtain ⟨present, out, h1, h2, _, h4⟩ := hall i hi
      refine ⟨present, _, h1, h2, ?_⟩
      intro j e hj he
      have := h4 j e (by omega) he
      rwa [getD_map_toNat] at this
    · intro i hi
      obtain ⟨t, h1, h2⟩ := hfresh i hi
      exact ⟨t, h1, by simpa [hcshape] using h2⟩
  · intro hf
    obtain ⟨prs, hrun, _, hkeep, hfresh⟩ := KV_Cache_Combined.Update_fail_present_fused [] L c
      { c with pasts_ := c.presents_, presents_ := List.replicate lc none } a a lc f hcn hf
      (KV_Cache_Combined.moveLoop_run_fused c a lc hcpl hcprl) (by simp) hok hfail
    refine ⟨prs, _, hrun, ?_, ?_⟩
    · intro i hi1 hi2
      rw [hkeep i hi1]
      simp [List.getElem?_replicate, hi2]
    · intro i hi
      obtain ⟨t, h1, h2⟩ := hfresh i hi
      exact ⟨t, h1, by simpa [hcshape] using h2⟩
  · intro hf
    obtain ⟨ps, hrun, _, hkeep, hall⟩ := KV_Cache.Update_fail_reorder_split B H S D k a
      (m.map Int.toNat) L (2 * lc) f hkn hf hkshape hkpl hkprl hkpres hok hfail hne2
      (le_of_eq hmlen) hr2
    rw [hcast] at hrun
    refine ⟨ps, _, hrun, hkeep, ?_⟩
    intro i hi
    obtain ⟨present, out, h1, h2, _, h4⟩ := hall i hi
    refine ⟨present, _, h1, h2, ?_⟩
    intro j e hj he
    have := h4 j e (by omega) he
    rwa [getD_map_toNat] at this
  · intro hf1 hf2
    obtain ⟨ps, hloop, hlen, _, hall⟩ := KV_Cache.reorderLoop_prefix_split B H S D k a
      (m.map Int.toNat) (2 * lc) (2 * lc) (le_refl _) hkshape hkpl hkprl hkpres
      (fun i hi => hok i (by omega)) hne2 (le_of_eq hmlen) hr2
    rw [hcast] at hloop
    obtain ⟨prs, hrun, _, hkeep, hfresh⟩ := KV_Cache.Update_fail_present_split m L k
      { k with pasts_ := ps } a { a with count := a.count + 2 * lc } (2 * lc) (f - 2 * lc) hkn
      (by omega) hloop hkprl
      (fun i hi => by
        obtain ⟨g, hg⟩ := hok (2 * lc + i) (by omega)
        exact ⟨g, by simpa [Nat.add_assoc] using hg⟩)
      (by
        have e : a.count + 2 * lc + (f - 2 * lc) = a.count + f := by omega
        simp only [e]
        exact hfail)
    refine ⟨ps, prs, _, hrun, ?_, hkeep, ?_⟩
    · intro i hi
      obtain ⟨present, out, h1, h2, _, h4⟩ := hall i hi
      refine ⟨present, _, h1, h2, ?_⟩
      intro j e hj he
      have := h4 j e (by omega) he
      rwa [getD_map_toNat] at this
    · intro i hi
      obtain ⟨t, h1, h2⟩ := hfresh i hi
      exact ⟨t, h1, by simpa [hkshape] using h2⟩
  · intro hf
    obtain ⟨prs, hrun, _, hkeep, hfresh⟩ := KV_Cache.Update_fail_present_split [] L k
      { k with pasts_ := k.presents_, presents_ := List.replicate (2 * lc) none } a a (2 * lc) f
      hkn hf (KV_Cache.moveLoop_run_split k a (2 * lc) hkpl hkprl) (by simp) hok hfail
    refine ⟨prs, _, hrun, ?_, ?_⟩
    · intro i hi1 hi2
      rw [hkeep i hi1]
      simp [List.getElem?_replicate, hi2]
    · intro i hi
      obtain ⟨t, h1, h2⟩ := hfresh i hi
      exact ⟨t, h1, by simpa [hkshape] using h2⟩

/-- Witness for C8 as amended: the second allocation of `Update([1, 0], 2)` fails.  On the
one-layer fused cache that is the new present buffer: the call throws with the past
replaced and the present slot still holding the prior buffer.  On the split cache it is
the reorder of the value tensor: the call throws with the value tensor's past untouched. -/
theorem C8_update_under_allocation_failure_witness :
    (∃ (ps prs : List (Option (Tensor Nat))) (a1 : Allocator Nat),
      KV_Cache_Combined.Update [1, 0] 2 exampleFused (exampleAllocatorFailingAt 1) =
        (Status.threw,
          { exampleFused with
            pasts_ := ps, presents_ := prs, shape_ := { exampleFused.shape_ with d3 := 2 } },
          a1) ∧
      ∀ i : Nat, prs[i]? = exampleFused.presents_[i]?) ∧
    (∃ (ps : List (Option (Tensor Nat))) (a1 : Allocator Nat),
      KV_Cache.Update [1, 0] 2 exampleSplit (exampleAllocatorFailingAt 1) =
        (Status.threw, { exampleSplit with pasts_ := ps }, a1) ∧
      ∀ i : Nat, 1 ≤ i → ps[i]? = exampleSplit.pasts_[i]?) := by
  have h := C8_update_under_allocation_failure 2 1 1 2 1 exampleFused exampleSplit
    (exampleAllocatorFailingAt 1) [1, 0] 2 1 rfl rfl rfl rfl
    (by
      intro p hp
      simp only [exampleFused, List.mem_singleton] at hp
      subst hp
      exact ⟨_, rfl, rfl⟩)
    rfl rfl rfl rfl
    (by
      intro p hp
      simp only [exampleSplit, List.mem_cons, List.mem_singleton, List.not_mem_nil, or_false] at hp
      rcases hp with rfl | rfl
      · exact ⟨_, rfl, rfl⟩
      · exact ⟨_, rfl, rfl⟩)
    (by
      intro i hi
      have hi0 : i = 0 := by omega
      subst hi0
      exact ⟨_, rfl⟩)
    rfl (by decide) rfl (by decide)
  obtain ⟨ps, prs, a1, h1, _, h3, _⟩ := h.2.1 (by decide) (by decide)
  obtain ⟨ps2, a2, g1, g2, _⟩ := h.2.2.2.1 (by decide)
  exact ⟨⟨ps, prs, a1, h1, fun i => h3 i (Nat.zero_le _)⟩, ⟨ps2, a2, g1, g2⟩⟩

theorem getD_mem_range (m : List Int) (B j : Nat) (hm : m.length = B) (hj : j < B)
    (hrange : ∀ x ∈ m, 0 ≤ x ∧ x < (B : Int)) :
    m.getD j 0 = (((m.getD j 0).toNat : Nat) : Int) ∧ (m.getD j 0).toNat < B := by
  have hmem : m.getD j 0 ∈ m := by
    rw [List.getD_eq_getElem _ _ (by omega)]
    exact List.getElem_mem _
  obtain ⟨h0, h1⟩ := hrange _ hmem
  exact ⟨(Int.toNat_of_nonneg h0).symm, by omega⟩

/-- C9. In bounds under the input contract: with non-negative shape dimensions, a mapping
of length exactly batch×beams and every entry in `[0, batch×beams)`, each `subspan` call
of `PickPastState` is within its span of `element_count` elements, for every slot `j`:
the source ranges start at `m[j]*block` (and `past_key_size + m[j]*block` in the fused
value half), the destination ranges at `j*block` (and `past_key_size + j*block`), all of
length `block`, and each ends at or before `element_count`; so the copy loops of both
variants, host and CUDA branch, run to the end without an out-of-range span. -/
theorem C9_in_bounds {α : Type} (B H S D : Nat) (m : List Int)
    (hm : m.length = B) (hrange : ∀ x ∈ m, 0 ≤ x ∧ x < (B : Int)) :
    (∀ j, j < B →
      ({ off := 0, size := 2 * B * (H * S * D) } : Span).subspan
          (m.getD j 0 * ((H : Int) * (S : Int) * (D : Int))) ((H : Int) * (S : Int) * (D : Int)) =
        some { off := (m.getD j 0).toNat * (H * S * D), size := H * S * D } ∧
      ({ off := 0, size := 2 * B * (H * S * D) } : Span).subspan
          ((B : Int) * ((H : Int) * (S : Int) * (D : Int)) +
            m.getD j 0 * ((H : Int) * (S : Int) * (D : Int)))
          ((H : Int) * (S : Int) * (D : Int)) =
        some { off := B * (H * S * D) + (m.getD j 0).toNat * (H * S * D), size := H * S * D } ∧
      ({ off := 0, size := 2 * B * (H * S * D) } : Span).subspan
          ((j : Int) * ((H : Int) * (S : Int) * (D : Int))) ((H : Int) * (S : Int) * (D : Int)) =
        some { off := j * (H * S * D), size := H * S * D } ∧
      ({ off := 0, size := 2 * B * (H * S * D) } : Span).subspan
          ((B : Int) * ((H : Int) * (S : Int) * (D : Int)) +
            (j : Int) * ((H : Int) * (S : Int) * (D : Int)))
          ((H : Int) * (S : Int) * (D : Int)) =
        some { off := B * (H * S * D) + j * (H * S * D), size := H * S * D } ∧
      B * (H * S * D) + (m.getD j 0).toNat * (H * S * D) + H * S * D ≤ 2 * B * (H * S * D) ∧
      B * (H * S * D) + j * (H * S * D) + H * S * D ≤ 2 * B * (H * S * D)) ∧
    (∀ j, j < B →
      ({ off := 0, size := B * (H * S * D) } : Span).subspan
          (m.getD j 0 * ((H : Int) * (S : Int) * (D : Int))) ((H : Int) * (S : Int) * (D : Int)) =
        some { off := (m.getD j 0).toNat * (H * S * D), size := H * S * D } ∧
      ({ off := 0, size := B * (H * S * D) } : Span).subspan
          ((j : Int) * ((H : Int) * (S : Int) * (D : Int))) ((H : Int) * (S : Int) * (D : Int)) =
        some { off := j * (H * S * D), size := H * S * D } ∧
      (m.getD j 0).toNat * (H * S * D) + H * S * D ≤ B * (H * S * D) ∧
      j * (H * S * D) + H * S * D ≤ B * (H * S * D)) ∧
    (∀ present past : List α, present.length = 2 * B * (H * S * D) →
      past.length = 2 * B * (H * S * D) →
      (KV_Cache_Combined.hostLoop ((H : Int) * (S : Int) * (D : Int))
        ((B : Int) * ((H : Int) * (S : Int) * (D : Int))) present
        { off := 0, size := 2 * B * (H * S * D) } { off := 0, size := 2 * B * (H * S * D) } 0 m
        past).1 = Status.ok ∧
      (KV_Cache_Combined.cudaLoop ((H : Int) * (S : Int) * (D : Int))
        ((B : Int) * ((H : Int) * (S : Int) * (D : Int))) present
        { off := 0, size := 2 * B * (H * S * D) } { off := 0, size := 2 * B * (H * S * D) } 0 m
        past).1 = Status.ok) ∧
    (∀ present past : List α, present.length = B * (H * S * D) →
      past.length = B * (H * S * D) →
      (KV_Cache.hostLoop ((H : Int) * (S : Int) * (D : Int)) present
        { off := 0, size := B * (H * S * D) } { off := 0, size := B * (H * S * D) } 0 m
        past).1 = Status.ok ∧
      (KV_Cache.cudaLoop ((H : Int) * (S : Int) * (D : Int)) present
        { off := 0, size := B * (H * S * D) } { off := 0, size := B * (H * S * D) } 0 m
        past).1 = Status.ok) := by
  have eb : (H : Int) * (S : Int) * (D : Int) = ((H * S * D : Nat) : Int) := by push_cast; ring
  have ek : (B : Int) * ((H * S * D : Nat) : Int) = ((B * (H * S * D) : Nat) : Int) := by
    push_cast; ring
  have h2 : 2 * B * (H * S * D) = B * (H * S * D) + B * (H * S * D) := by ring
  have hcast := map_toNat_cast m (fun x hx => (hrange x hx).1)
  have hmlen : (m.map Int.toNat).length = B := by simpa using hm
  have hr2 := mem_map_toNat_lt m B hrange
  rw [eb, ek]
  refine ⟨?_, ?_, ?_, ?_⟩
  · intro j hj
    obtain ⟨hx, hb⟩ := getD_mem_range m B j hm hj hrange
    have hb1 := slot_le _ B (H * S * D) hb
    have hj1 := slot_le j B (H * S * D) hj
    have e1 : m.getD j 0 * ((H * S * D : Nat) : Int) =
        (((m.getD j 0).toNat * (H * S * D) : Nat) : Int) := by
      rw [Nat.cast_mul (m.getD j 0).toNat (H * S * D), ← hx]
    have e2 : ((B * (H * S * D) : Nat) : Int) + m.getD j 0 * ((H * S * D : Nat) : Int) =
        ((B * (H * S * D) + (m.getD j 0).toNat * (H * S * D) : Nat) : Int) := by
      rw [Nat.cast_add, e1]
    have e3 : (j : Int) * ((H * S * D : Nat) : Int) = ((j * (H * S * D) : Nat) : Int) := by
      push_cast; ring
    have e4 : ((B * (H * S * D) : Nat) : Int) + (j : Int) * ((H * S * D : Nat) : Int) =
        ((B * (H * S * D) + j * (H * S * D) : Nat) : Int) := by
      push_cast; ring
    rw [e2, e4, e1, e3, Span.subspan_eq _ _ _ (by simp only []; omega),
      Span.subspan_eq _ _ _ (by simp only []; omega),
      Span.subspan_eq _ _ _ (by simp only []; omega),
      Span.subspan_eq _ _ _ (by simp only []; omega)]
    simp only [Nat.zero_add, true_and]
    omega
  · intro j hj
    obtain ⟨hx, hb⟩ := getD_mem_range m B j hm hj hrange
    have hb1 := slot_le _ B (H * S * D) hb
    have hj1 := slot_le j B (H * S * D) hj
    have e1 : m.getD j 0 * ((H * S * D : Nat) : Int) =
        (((m.getD j 0).toNat * (H * S * D) : Nat) : Int) := by
      rw [Nat.cast_mul (m.getD j 0).toNat (H * S * D), ← hx]
    have e3 : (j : Int) * ((H * S * D : Nat) : Int) = ((j * (H * S * D) : Nat) : Int) := by
      push_cast; ring
    rw [e1, e3, Span.subspan_eq _ _ _ (by simp only []; omega),
      Span.subspan_eq _ _ _ (by simp only []; omega)]
    simp only [Nat.zero_add, true_and]
    omega
  · intro present past hp hq
    obtain ⟨out, hrun, _⟩ := KV_Cache_Combined.hostLoop_spec_fused B (H * S * D) present
      (le_of_eq hp.symm) (m.map Int.toNat) 0 past (by omega) hr2 hq
    rw [hcast] at hrun
    rw [KV_Cache_Combined.cudaLoop_eq_hostLoop_fused, hrun]
    exact ⟨rfl, rfl⟩
  · intro present past hp hq
    obtain ⟨out, hrun, _⟩ := KV_Cache.hostLoop_spec_split B (H * S * D) present
      (le_of_eq hp.symm) (m.map Int.toNat) 0 past (by omega) hr2 hq
    rw [hcast] at hrun
    rw [KV_Cache.cudaLoop_eq_hostLoop_split, hrun]
    exact ⟨rfl, rfl⟩

/-- Witness for C9: two beams, block of two elements, the mapping `[1, 0]`: the host copy
loops of both variants run to the end. -/
theorem C9_in_bounds_witness :
    (KV_Cache_Combined.hostLoop 2 4 [10, 11, 20, 21, 30, 31, 40, 41] { off := 0, size := 8 }
      { off := 0, size := 8 } 0 [1, 0] [0, 0, 0, 0, 0, 0, 0, 0]).1 = Status.ok ∧
    (KV_Cache.hostLoop 2 [10, 11, 20, 21] { off := 0, size := 4 } { off := 0, size := 4 } 0
      [1, 0] [0, 0, 0, 0]).1 = Status.ok :=
  ⟨((@C9_in_bounds Nat 2 1 1 2 [1, 0] rfl (by decide)).2.2.1
      [10, 11, 20, 21, 30, 31, 40, 41] [0, 0, 0, 0, 0, 0, 0, 0] rfl rfl).1,
    ((@C9_in_bounds Nat 2 1 1 2 [1, 0] rfl (by decide)).2.2.2
      [10, 11, 20, 21] [0, 0, 0, 0] rfl rfl).1⟩

theorem decimalAux_fuel (fuel : Nat) :
    ∀ (n fuel2 : Nat), n < fuel → n < fuel2 → decimalAux fuel n = decimalAux fuel2 n := by
  induction fuel with
  | zero => intro n fuel2 h; omega
  | succ fuel ih =>
    intro n fuel2 h1 h2
    cases fuel2 with
    | zero => omega
    | succ fuel2 =>
      simp only [decimalAux]
      by_cases h : n < 10
      · simp [h]
      · simp only [h, if_false]
        rw [ih (n / 10) fuel2 (by omega) (by omega)]

theorem decimal_eq (n : Nat) :
    decimal n = if n < 10 then [Nat.digitChar n] else decimal (n / 10) ++ [Nat.digitChar (n % 10)] := by
  unfold decimal
  rw [decimalAux]
  by_cases h : n < 10
  · simp [h]
  · simp only [h, if_false]
    rw [decimalAux_fuel n (n / 10) (n / 10 + 1) (by omega) (by omega)]

theorem decimal_ne_nil (n : Nat) : decimal n ≠ [] := by
  rw [decimal_eq]
  split <;> simp

theorem decimal_length_le (k : Nat) : ∀ n, n < 10 ^ (k + 1) → (decimal n).length ≤ k + 1 := by
  induction k with
  | zero =>
    intro n h
    rw [decimal_eq, if_pos (by simpa using h)]
    simp
  | succ k ih =>
    intro n h
    rw [decimal_eq]
    split
    · simp
    · have : n / 10 < 10 ^ (k + 1) := by
        rw [Nat.div_lt_iff_lt_mul (by decide)]
        rw [pow_succ] at h
        exact h
      simp only [List.length_append, List.length_singleton]
      have := ih (n / 10) this
      omega

theorem digitChar_inj : ∀ a, a < 10 → ∀ b, b < 10 → Nat.digitChar a = Nat.digitChar b → a = b := by
  decide

theorem decimal_inj : ∀ (n m : Nat), decimal n = decimal m → n = m := by
  intro n
  induction n using Nat.strong_induction_on with
  | _ n ih =>
    intro m h
    rw [decimal_eq n, decimal_eq m] at h
    by_cases hn : n < 10
    · by_cases hm : m < 10
      · simp only [hn, hm, if_true, List.cons.injEq, and_true] at h
        exact digitChar_inj n hn m hm h
      · simp only [hn, hm, if_true, if_false] at h
        have hl := congrArg List.length h
        simp only [List.length_singleton, List.length_append] at hl
        have := List.length_pos.mpr (decimal_ne_nil (m / 10))
        omega
    · by_cases hm : m < 10
      · simp only [hn, hm, if_true, if_false] at h
        have hl := congrArg List.length h
        simp only [List.length_singleton, List.length_append] at hl
        have := List.length_pos.mpr (decimal_ne_nil (n / 10))
        omega
      · simp only [hn, hm, if_false] at h
        obtain ⟨h1, h2⟩ := List.append_inj' h rfl
        have e1 := ih (n / 10) (by omega) (m / 10) h1
        have e2 := digitChar_inj (n % 10) (Nat.mod_lt _ (by decide)) (m % 10)
          (Nat.mod_lt _ (by decide)) (by simpa using h2)
        omega

theorem formatInt_natCast (i : Nat) : formatInt (i : Int) = decimal i := by
  unfold formatInt
  rw [if_neg (by omega), Int.toNat_ofNat]

theorem snprintf_past_name (i : Nat) (hi : i < 2 ^ 31) :
    snprintf 32 KV_Cache_Combined.past_name_ (i : Int) = "past_" ++ String.mk (decimal i) := by
  have hlen := decimal_length_le 9 i (by omega)
  have hfmt : format KV_Cache_Combined.past_name_.toList (i : Int) =
      ['p', 'a', 's', 't', '_'] ++ decimal i := by
    simp [KV_Cache_Combined.past_name_, format, formatInt_natCast]
  unfold snprintf
  rw [hfmt, List.take_of_length_le]
  · rfl
  · simp only [List.length_append, List.length_cons, List.length_nil]
    omega

theorem snprintf_present_name (i : Nat) (hi : i < 2 ^ 31) :
    snprintf 32 KV_Cache_Combined.present_name_ (i : Int) =
      "present_" ++ String.mk (decimal i) := by
  have hlen := decimal_length_le 9 i (by omega)
  have hfmt : format KV_Cache_Combined.present_name_.toList (i : Int) =
      ['p', 'r', 'e', 's', 'e', 'n', 't', '_'] ++ decimal i := by
    simp [KV_Cache_Combined.present_name_, format, formatInt_natCast]
  unfold snprintf
  rw [hfmt, List.take_of_length_le]
  · rfl
  · simp only [List.length_append, List.length_cons, List.length_nil]
    omega

theorem name_inj (s : String) (i j : Nat)
    (h : s ++ String.mk (decimal i) = s ++ String.mk (decimal j)) : i = j := by
  apply decimal_inj
  have h2 := congrArg String.data h
  simp only [String.data_append] at h2
  exact List.append_cancel_left h2

theorem map_range_congr {β : Type} (f g : Nat → β) (n : Nat) (h : ∀ i, i < n → f i = g i) :
    (List.range n).map f = (List.range n).map g := by
  apply List.map_congr_left
  intro i hi
  exact h i (List.mem_range.mp hi)

/-- C10. Fused construction: for every layer count `n >= 0` (a C++ `int`, so below
`2^31`) and all shape parameters (the product `batch_size*num_beams` being an `int` as
well), the constructor of `KV_Cache_Combined` (allocations
succeeding) returns a cache with exactly `n` present buffers, each of shape
`[2, batch_size*num_beams, heads, initial sequence length, hidden]`, an empty-past
placeholder of shape `[2, batch_size*num_beams, heads, 0, hidden]`, `n` past slots
holding no buffer, and exactly `n` input and `n` output binding names, the `i`-th being
`past_` resp. `present_` followed by the decimal digits of `i`, in full, and pairwise
distinct. -/
theorem C10_fused_construction {α : Type} (model : Model) (sp : SearchParams) (a : Allocator α)
    (n : Nat)
    (hn : model.config_.num_hidden_layers = (n : Int)) (hint : n < 2 ^ 31)
    (hbeams : -(2 ^ 31) ≤ sp.batch_size * sp.num_beams ∧ sp.batch_size * sp.num_beams < 2 ^ 31)
    (halloc : ∀ k, k < n + 1 → ∃ g, a.outcome (a.count + k) = some g) :
    ∃ (c : KV_Cache_Combined α) (a1 : Allocator α) (e : Tensor α),
      KV_Cache_Combined.construct model sp a = (Status.ok, some c, a1) ∧
      c.layer_count_ = (n : Int) ∧
      c.presents_.length = n ∧
      (∀ p ∈ c.presents_, ∃ t, p = some t ∧
        t.shape = [2, sp.batch_size * sp.num_beams, model.config_.num_attention_heads,
                   sp.sequence_length, model.config_.hidden_size]) ∧
      c.empty_past_ = some e ∧
      e.shape = [2, sp.batch_size * sp.num_beams, model.config_.num_attention_heads, 0,
                 model.config_.hidden_size] ∧
      c.pasts_ = List.replicate n none ∧
      c.input_name_strings_ =
        (List.range n).map (fun (i : Nat) => "past_" ++ String.mk (decimal i)) ∧
      c.output_name_strings_ =
        (List.range n).map (fun (i : Nat) => "present_" ++ String.mk (decimal i)) ∧
      c.input_name_strings_.length = n ∧ c.output_name_strings_.length = n ∧
      c.input_name_strings_.Nodup ∧ c.output_name_strings_.Nodup := by
  obtain ⟨g0, prs, _, hrun, hlen, hall⟩ := KV_Cache_Combined.construct_run_fused model sp a n hn
    hbeams halloc
  have hin : (List.range n).map (fun (i : Nat) => snprintf 32 KV_Cache_Combined.past_name_ (i : Int)) =
      (List.range n).map (fun (i : Nat) => "past_" ++ String.mk (decimal i)) :=
    map_range_congr _ _ n (fun i hi => snprintf_past_name i (by omega))
  have hout : (List.range n).map
      (fun (i : Nat) => snprintf 32 KV_Cache_Combined.present_name_ (i : Int)) =
      (List.range n).map (fun (i : Nat) => "present_" ++ String.mk (decimal i)) :=
    map_range_congr _ _ n (fun i hi => snprintf_present_name i (by omega))
  refine ⟨_, _, _, hrun, rfl, hlen, ?_, rfl, rfl, rfl, hin, hout, by simp, by simp, ?_, ?_⟩
  · apply forall_mem_of_getElem?
    intro i hi
    obtain ⟨g, _, hg⟩ := hall i (by simp only [] at hi; omega)
    exact ⟨_, hg, _, rfl, rfl⟩
  · simp only [hin]
    exact List.Nodup.map (fun i j h => name_inj _ i j h) (List.nodup_range n)
  · simp only [hout]
    exact List.Nodup.map (fun i j h => name_inj _ i j h) (List.nodup_range n)

/-- Witness for C10: two layers, one batch item, two beams, two heads, hidden size 4,
initial sequence length 3. -/
theorem C10_fused_construction_witness :
    ∃ (c : KV_Cache_Combined Nat) (a1 : Allocator Nat) (e : Tensor Nat),
      KV_Cache_Combined.construct exampleModel exampleSearchParams exampleAllocator =
        (Status.ok, some c, a1) ∧
      c.presents_.length = 2 ∧
      (∀ p ∈ c.presents_, ∃ t, p = some t ∧ t.shape = [2, 2, 2, 3, 4]) ∧
      c.empty_past_ = some e ∧ e.shape = [2, 2, 2, 0, 4] ∧
      c.pasts_ = [none, none] ∧
      c.input_name_strings_ = ["past_0", "past_1"] ∧
      c.output_name_strings_ = ["present_0", "present_1"] := by
  obtain ⟨c, a1, e, h1, _, h3, h4, h5, h6, h7, h8, h9, _⟩ := C10_fused_construction exampleModel
    exampleSearchParams exampleAllocator 2 rfl (by decide) (by decide) (fun _ _ => ⟨_, rfl⟩)
  exact ⟨c, a1, e, h1, h3, h4, h5, h6, h7, by rw [h8]; decide, by rw [h9]; decide⟩

/-- C13: the code at a failing input.  With the 32-character template
`past_key_values.%d.decoder.value` and twelve layers, the name generated for layer 10
(position `2*10+1` of the input names) is `past_key_values.10.decoder.valu`, the first 31
characters of the template with `%d` replaced by `10`: a truncated prefix, not the exact
name `past_key_values.10.decoder.value`. -/
theorem C13_truncated_binding_name :
    ((KV_Cache.construct exampleDeepModel exampleSearchParams
        ["past_key_values.%d.decoder.key", "past_key_values.%d.decoder.value"]
        ["present.%d.decoder.key", "present.%d.decoder.value"] [] []
        exampleAllocator).2.1.map (fun c => c.input_name_strings_[21]?)) =
      some (some "past_key_values.10.decoder.valu") ∧
    String.mk (format "past_key_values.%d.decoder.value".toList 10) =
      "past_key_values.10.decoder.value" ∧
    snprintf 32 "past_key_values.%d.decoder.value" 10 = "past_key_values.10.decoder.valu" := by
  decide

theorem static_cast_int_small (x : Nat) (h : x < 2 ^ 31) : static_cast_int x = (x : Int) := by
  have h1 : x % 2 ^ 32 = x := Nat.mod_eq_of_lt (by omega)
  simp only [static_cast_int, h1]
  rw [if_pos h]

theorem to_size_t_natCast (n : Nat) (h : n < 2 ^ 64) : to_size_t (n : Int) = n := by
  unfold to_size_t
  have : ((n : Int) % 2 ^ 64) = ((n % 2 ^ 64 : Nat) : Int) := by push_cast; rfl
  rw [this, Nat.mod_eq_of_lt h]
  simp

/-- Counterexample to C15 as stated: with `sequence_length = 2^32 + 1`, `batch_size = 1`
and `input_ids_count = 1` the call returns null, although the mathematical product
`2^32 + 1` differs from the count. -/
theorem C15_counterexample :
    (OgaGeneratorParamsSetInputIDs exampleParams 1 4294967297 1).1 = Status.ok ∧
    (OgaGeneratorParamsSetInputIDs exampleParams 1 4294967297 1).2.1 = none ∧
    4294967297 < 2 ^ 64 ∧ 4294967297 * 1 ≠ 1 := by
  decide

/-- C15, as amended.  `OgaGeneratorParamsSetInputIDs` compares the count with the product
of the two arguments after each was narrowed to `int`, the `int` product being converted
to `size_t`.  Whenever that `int` product does not overflow, the call returns the error
result exactly when the converted product differs from `input_ids_count`, and null
exactly when they are equal.  When `sequence_length`, `batch_size` and their product are
all at most `INT_MAX`, this is the mathematical product: the call returns null exactly
when `sequence_length * batch_size = input_ids_count`, and the error result otherwise. -/
theorem C15_set_input_ids (oga_params : GeneratorParams)
    (input_ids_count sequence_length batch_size : Nat) :
    (-(2 ^ 31) ≤ static_cast_int sequence_length * static_cast_int batch_size →
      static_cast_int sequence_length * static_cast_int batch_size < 2 ^ 31 →
      (OgaGeneratorParamsSetInputIDs oga_params input_ids_count sequence_length batch_size).1 =
        Status.ok ∧
      ((OgaGeneratorParamsSetInputIDs oga_params input_ids_count sequence_length batch_size).2.1 =
          some "sequence length * batch size is not equal to input_ids_count" ↔
        to_size_t (static_cast_int sequence_length * static_cast_int batch_size) ≠
          input_ids_count) ∧
      ((OgaGeneratorParamsSetInputIDs oga_params input_ids_count sequence_length batch_size).2.1 =
          none ↔
        to_size_t (static_cast_int sequence_length * static_cast_int batch_size) =
          input_ids_count)) ∧
    (sequence_length < 2 ^ 31 → batch_size < 2 ^ 31 → sequence_length * batch_size < 2 ^ 31 →
      (OgaGeneratorParamsSetInputIDs oga_params input_ids_count sequence_length batch_size).1 =
        Status.ok ∧
      ((OgaGeneratorParamsSetInputIDs oga_params input_ids_count sequence_length batch_size).2.1 =
          some "sequence length * batch size is not equal to input_ids_count" ↔
        sequence_length * batch_size ≠ input_ids_count) ∧
      ((OgaGeneratorParamsSetInputIDs oga_params input_ids_count sequence_length batch_size).2.1 =
          none ↔
        sequence_length * batch_size = input_ids_count)) := by
  have key : ∀ P : Int, -(2 ^ 31) ≤ P → P < 2 ^ 31 →
      P = static_cast_int sequence_length * static_cast_int batch_size →
      (OgaGeneratorParamsSetInputIDs oga_params input_ids_count sequence_length batch_size).1 =
        Status.ok ∧
      ((OgaGeneratorParamsSetInputIDs oga_params input_ids_count sequence_length batch_size).2.1 =
          some "sequence length * batch size is not equal to input_ids_count" ↔
        to_size_t P ≠ input_ids_count) ∧
      ((OgaGeneratorParamsSetInputIDs oga_params input_ids_count sequence_length batch_size).2.1 =
          none ↔ to_size_t P = input_ids_count) := by
    intro P h1 h2 hP
    have hno : ¬ (P < -(2 ^ 31) ∨ 2 ^ 31 ≤ P) := by omega
    simp only [OgaGeneratorParamsSetInputIDs, ← hP, if_neg hno]
    by_cases hc : to_size_t P = input_ids_count
    · simp [hc]
    · simp [hc]
  refine ⟨fun h1 h2 => key _ h1 h2 rfl, fun hs hb hp => ?_⟩
  have hP : ((sequence_length * batch_size : Nat) : Int) =
      static_cast_int sequence_length * static_cast_int batch_size := by
    rw [static_cast_int_small _ hs, static_cast_int_small _ hb]
    push_cast
    rfl
  have h := key ((sequence_length * batch_size : Nat) : Int) (by omega) (by omega) hP
  rw [to_size_t_natCast _ (by omega)] at h
  exact h

/-- Witness for C15 as amended: three sequences of length four with twelve ids. -/
theorem C15_set_input_ids_witness :
    (OgaGeneratorParamsSetInputIDs exampleParams 12 4 3).1 = Status.ok ∧
    ((OgaGeneratorParamsSetInputIDs exampleParams 12 4 3).2.1 = none ↔ 4 * 3 = 12) :=
  have h := (C15_set_input_ids exampleParams 12 4 3).2
    (by decide) (by decide) (by decide)
  ⟨h.1, h.2.2⟩

theorem KV_Cache_Combined.cudaCopies_eq_hostCopies_fused (w : Nat) (block pks : Int)
    (ps qs : Span) (rest : List Int) :
    ∀ (j : Nat), KV_Cache_Combined.cudaCopies w block pks ps qs j rest =
      KV_Cache_Combined.hostCopies w block pks ps qs j rest := by
  induction rest with
  | nil => intro j; rfl
  | cons b rest ih =>
    intro j
    unfold KV_Cache_Combined.cudaCopies KV_Cache_Combined.hostCopies
    split
    · simp only [CopyOp.ofMemcpy, CopyOp.ofCopy, Span.data, Span.size_bytes]
      rw [ih]
    · rfl

theorem KV_Cache.cudaCopies_eq_hostCopies_split (w : Nat) (block : Int)
    (ps qs : Span) (rest : List Int) :
    ∀ (j : Nat), KV_Cache.cudaCopies w block ps qs j rest =
      KV_Cache.hostCopies w block ps qs j rest := by
  induction rest with
  | nil => intro j; rfl
  | cons b rest ih =>
    intro j
    unfold KV_Cache.cudaCopies KV_Cache.hostCopies
    split
    · simp only [CopyOp.ofMemcpy, CopyOp.ofCopy, Span.data, Span.size_bytes]
      rw [ih]
    · rfl

theorem KV_Cache_Combined.hostCopies_status_fused {α : Type} (w : Nat) (block pks : Int)
    (present : List α) (ps qs : Span) (rest : List Int) :
    ∀ (j : Nat) (past : List α),
      (KV_Cache_Combined.hostCopies w block pks ps qs j rest).1 =
        (KV_Cache_Combined.hostLoop block pks present ps qs j rest past).1 := by
  induction rest with
  | nil => intro j past; rfl
  | cons b rest ih =>
    intro j past
    unfold KV_Cache_Combined.hostCopies KV_Cache_Combined.hostLoop
    split
    · exact ih _ _
    · rfl

theorem KV_Cache.hostCopies_status_split {α : Type} (w : Nat) (block : Int)
    (present : List α) (ps qs : Span) (rest : List Int) :
    ∀ (j : Nat) (past : List α),
      (KV_Cache.hostCopies w block ps qs j rest).1 =
        (KV_Cache.hostLoop block present ps qs j rest past).1 := by
  induction rest with
  | nil => intro j past; rfl
  | cons b rest ih =>
    intro j past
    unfold KV_Cache.hostCopies KV_Cache.hostLoop
    split
    · exact ih _ _
    · rfl

theorem KV_Cache_Combined.hostCopies_scale_fused (w k : Nat) (block pks : Int)
    (ps qs : Span) (rest : List Int) :
    ∀ (j : Nat), KV_Cache_Combined.hostCopies (w * k) block pks ps qs j rest =
      ((KV_Cache_Combined.hostCopies w block pks ps qs j rest).1,
        (KV_Cache_Combined.hostCopies w block pks ps qs j rest).2.map (CopyOp.scale k)) := by
  induction rest with
  | nil => intro j; rfl
  | cons b rest ih =>
    intro j
    unfold KV_Cache_Combined.hostCopies
    split
    · simp only [ih, List.map_cons, CopyOp.scale, CopyOp.ofCopy, Nat.mul_assoc]
    · rfl

theorem KV_Cache.hostCopies_scale_split (w k : Nat) (block : Int)
    (ps qs : Span) (rest : List Int) :
    ∀ (j : Nat), KV_Cache.hostCopies (w * k) block ps qs j rest =
      ((KV_Cache.hostCopies w block ps qs j rest).1,
        (KV_Cache.hostCopies w block ps qs j rest).2.map (CopyOp.scale k)) := by
  induction rest with
  | nil => intro j; rfl
  | cons b rest ih =>
    intro j
    unfold KV_Cache.hostCopies
    split
    · simp only [ih, List.map_cons, CopyOp.scale, CopyOp.ofCopy, Nat.mul_assoc]
    · rfl

theorem KV_Cache_Combined.hostCopies_run_fused (w B blk : Nat) (ms : List Nat) :
    ∀ (j : Nat), j + ms.length ≤ B → (∀ b ∈ ms, b < B) →
      KV_Cache_Combined.hostCopies w (blk : Int) ((B * blk : Nat) : Int)
          { off := 0, size := 2 * B * blk } { off := 0, size := 2 * B * blk } j
          (ms.map (fun (b : Nat) => (b : Int))) =
        (Status.ok,
          (List.enumFrom j ms).flatMap (fun p =>
            [({ source := p.2 * blk * w, dest := p.1 * blk * w, count := blk * w } : CopyOp),
             { source := (B + p.2) * blk * w, dest := (B + p.1) * blk * w, count := blk * w }])) := by
  induction ms with
  | nil => intro j _ _; rfl
  | cons b rest ih =>
    intro j hj hr
    have hb : b < B := hr b (List.mem_cons_self _ _)
    have hjB : j < B := by simp only [List.length_cons] at hj; omega
    have hb1 := slot_le b B blk hb
    have hj1 := slot_le j B blk hjB
    have e1 : (b : Int) * (blk : Int) = ((b * blk : Nat) : Int) := by push_cast; ring
    have e2 : ((B * blk : Nat) : Int) + (b : Int) * (blk : Int) =
        ((B * blk + b * blk : Nat) : Int) := by push_cast; ring
    have e3 : (j : Int) * (blk : Int) = ((j * blk : Nat) : Int) := by push_cast; ring
    have e4 : ((B * blk : Nat) : Int) + (j : Int) * (blk : Int) =
        ((B * blk + j * blk : Nat) : Int) := by push_cast; ring
    have h2 : 2 * B * blk = B * blk + B * blk := by ring
    rw [List.map_cons, KV_Cache_Combined.hostCopies, e2, e4, e1, e3,
      Span.subspan_eq _ _ _ (by simp only []; omega), Span.subspan_eq _ _ _ (by simp only []; omega),
      Span.subspan_eq _ _ _ (by simp only []; omega), Span.subspan_eq _ _ _ (by simp only []; omega)]
    simp only [Nat.zero_add]
    rw [ih (j + 1) (by simp only [List.length_cons] at hj; omega)
      (fun x hx => hr x (List.mem_cons_of_mem _ hx))]
    simp only [List.enumFrom_cons, List.flatMap_cons, CopyOp.ofCopy, List.cons_append,
      List.nil_append, Nat.add_mul]

theorem KV_Cache.hostCopies_run_split (w B blk : Nat) (ms : List Nat) :
    ∀ (j : Nat), j + ms.length ≤ B → (∀ b ∈ ms, b < B) →
      KV_Cache.hostCopies w (blk : Int)
          { off := 0, size := B * blk } { off := 0, size := B * blk } j
          (ms.map (fun (b : Nat) => (b : Int))) =
        (Status.ok,
          (List.enumFrom j ms).map (fun p =>
            ({ source := p.2 * blk * w, dest := p.1 * blk * w, count := blk * w } : CopyOp))) := by
  induction ms with
  | nil => intro j _ _; rfl
  | cons b rest ih =>
    intro j hj hr
    have hb : b < B := hr b (List.mem_cons_self _ _)
    have hjB : j < B := by simp only [List.length_cons] at hj; omega
    have hb1 := slot_le b B blk hb
    have hj1 := slot_le j B blk hjB
    have e1 : (b : Int) * (blk : Int) = ((b * blk : Nat) : Int) := by push_cast; ring
    have e3 : (j : Int) * (blk : Int) = ((j * blk : Nat) : Int) := by push_cast; ring
    rw [List.map_cons, KV_Cache.hostCopies, e1, e3,
      Span.subspan_eq _ _ _ (by simp only []; omega), Span.subspan_eq _ _ _ (by simp only []; omega)]
    simp only [Nat.zero_add]
    rw [ih (j + 1) (by simp only [List.length_cons] at hj; omega)
      (fun x hx => hr x (List.mem_cons_of_mem _ hx))]
    simp only [List.enumFrom_cons, List.map_cons, CopyOp.ofCopy]

theorem KV_Cache_Combined.PickPastStateCopies_run_fused {α : Type} (T : ScoreType)
    (B H S D : Nat) (self : KV_Cache_Combined α) (a : Allocator α) (g : Nat → α)
    (ms : List Nat) (index : Nat) (present : Tensor α)
    (hshape : self.shape_ = { d0 := 2, d1 := B, d2 := H, d3 := S, d4 := D })
    (hpres : self.presents_[index]? = some (some present))
    (hplen : present.data.length = 2 * B * (H * S * D))
    (halloc : a.outcome a.count = some g)
    (hm : ms.length ≤ B) (hrange : ∀ b ∈ ms, b < B) :
    KV_Cache_Combined.PickPastStateCopies T (ms.map (fun (b : Nat) => (b : Int))) index self a =
      (Status.ok,
        (List.enumFrom 0 ms).flatMap (fun p =>
          [({ source := p.2 * (H * S * D) * T.sizeof, dest := p.1 * (H * S * D) * T.sizeof,
              count := H * S * D * T.sizeof } : CopyOp),
           { source := (B + p.2) * (H * S * D) * T.sizeof,
             dest := (B + p.1) * (H * S * D) * T.sizeof, count := H * S * D * T.sizeof }])) := by
  have hprod : ([2, (B : Int), (H : Int), (S : Int), (D : Int)] : List Int).prod =
      ((2 * B * (H * S * D) : Nat) : Int) := by
    simp only [List.prod_cons, List.prod_nil]; push_cast; ring
  have eb : (H : Int) * (S : Int) * (D : Int) = ((H * S * D : Nat) : Int) := by push_cast; ring
  have ek : (B : Int) * ((H * S * D : Nat) : Int) = ((B * (H * S * D) : Nat) : Int) := by
    push_cast; ring
  have ec : (2 : Int) * ((B * (H * S * D) : Nat) : Int) = ((2 * B * (H * S * D) : Nat) : Int) := by
    push_cast; ring
  have hglen : ((List.range (2 * B * (H * S * D))).map g).length = 2 * B * (H * S * D) := by simp
  have hrun := KV_Cache_Combined.hostCopies_run_fused T.sizeof B (H * S * D) ms 0 (by omega) hrange
  unfold KV_Cache_Combined.PickPastStateCopies
  simp only [hshape, hpres, CreateTensor, halloc, Shape5.toList, hprod, Int.toNat_ofNat, eb, ek,
    ec, hglen, hplen, Span.whole_eq _ _ (le_refl _),
    KV_Cache_Combined.cudaCopies_eq_hostCopies_fused, ite_self, hrun]

theorem KV_Cache.PickPastStateCopies_run_split {α : Type} (T : ScoreType)
    (B H S D : Nat) (self : KV_Cache α) (a : Allocator α) (g : Nat → α)
    (ms : List Nat) (index : Nat) (present : Tensor α)
    (hshape : self.shape_ = { d0 := B, d1 := H, d2 := S, d3 := D })
    (hpres : self.presents_[index]? = some (some present))
    (hplen : present.data.length = B * (H * S * D))
    (halloc : a.outcome a.count = some g)
    (hm : ms.length ≤ B) (hrange : ∀ b ∈ ms, b < B) :
    KV_Cache.PickPastStateCopies T (ms.map (fun (b : Nat) => (b : Int))) index self a =
      (Status.ok,
        (List.enumFrom 0 ms).map (fun p =>
          ({ source := p.2 * (H * S * D) * T.sizeof, dest := p.1 * (H * S * D) * T.sizeof,
             count := H * S * D * T.sizeof } : CopyOp))) := by
  have hprod : ([(B : Int), (H : Int), (S : Int), (D : Int)] : List Int).prod =
      ((B * (H * S * D) : Nat) : Int) := by
    simp only [List.prod_cons, List.prod_nil]; push_cast; ring
  have eb : (H : Int) * (S : Int) * (D : Int) = ((H * S * D : Nat) : Int) := by push_cast; ring
  have ek : (B : Int) * ((H * S * D : Nat) : Int) = ((B * (H * S * D) : Nat) : Int) := by
    push_cast; ring
  have hglen : ((List.range (B * (H * S * D))).map g).length = B * (H * S * D) := by simp
  have hrun := KV_Cache.hostCopies_run_split T.sizeof B (H * S * D) ms 0 (by omega) hrange
  unfold KV_Cache.PickPastStateCopies
  simp only [hshape, hpres, CreateTensor, halloc, Shape4.toList, hprod, Int.toNat_ofNat, eb, ek,
    hglen, hplen, Span.whole_eq _ _ (le_refl _),
    KV_Cache.cudaCopies_eq_hostCopies_split, ite_self, hrun]

/-- The two instantiations of the fused `PickPastState<ScoreType>` end the same way and
leave the same shapes and data in `pasts_`: they differ in the element type alone. -/
theorem KV_Cache_Combined.PickPastStateT_width_fused {α : Type} (m : List Int) (index : Nat)
    (self : KV_Cache_Combined α) (a : Allocator α) :
    (KV_Cache_Combined.PickPastStateT ScoreType.float m index self a).1 =
      (KV_Cache_Combined.PickPastStateT ScoreType.float16 m index self a).1 ∧
    (KV_Cache_Combined.PickPastStateT ScoreType.float m index self a).2.1.pasts_.map
        (Option.map (fun t => (t.shape, t.data))) =
      (KV_Cache_Combined.PickPastStateT ScoreType.float16 m index self a).2.1.pasts_.map
        (Option.map (fun t => (t.shape, t.data))) := by
  unfold KV_Cache_Combined.PickPastStateT CreateTensor
  simp only [KV_Cache_Combined.cudaLoop_eq_hostLoop_fused, ite_self]
  rcases hp : self.presents_[index]? with _ | (_ | present)
  · exact ⟨rfl, rfl⟩
  · exact ⟨rfl, rfl⟩
  · rcases ha : a.outcome a.count with _ | g
    · exact ⟨rfl, rfl⟩
    · simp only [List.length_map, List.length_range]
      split
      · split
        · split
          · simp [List.map_set]
          · exact ⟨rfl, rfl⟩
        · exact ⟨rfl, rfl⟩
      · exact ⟨rfl, rfl⟩

/-- The two instantiations of the split `PickPastState<ScoreType>` end the same way and
leave the same shapes and data in `pasts_`: they differ in the element type alone. -/
theorem KV_Cache.PickPastStateT_width_split {α : Type} (m : List Int) (index : Nat)
    (self : KV_Cache α) (a : Allocator α) :
    (KV_Cache.PickPastStateT ScoreType.float m index self a).1 =
      (KV_Cache.PickPastStateT ScoreType.float16 m index self a).1 ∧
    (KV_Cache.PickPastStateT ScoreType.float m index self a).2.1.pasts_.map
        (Option.map (fun t => (t.shape, t.data))) =
      (KV_Cache.PickPastStateT ScoreType.float16 m index self a).2.1.pasts_.map
        (Option.map (fun t => (t.shape, t.data))) := by
  unfold KV_Cache.PickPastStateT CreateTensor
  simp only [KV_Cache.cudaLoop_eq_hostLoop_split, ite_self]
  rcases hp : self.presents_[index]? with _ | (_ | present)
  · exact ⟨rfl, rfl⟩
  · exact ⟨rfl, rfl⟩
  · rcases ha : a.outcome a.count with _ | g
    · exact ⟨rfl, rfl⟩
    · simp only [List.length_map, List.length_range]
      split
      · split
        · split
          · simp [List.map_set]
          · exact ⟨rfl, rfl⟩
        · exact ⟨rfl, rfl⟩
      · exact ⟨rfl, rfl⟩

/-- C16. Precision dispatch.  The element width is 4 bytes for `float` and 2 bytes for
half precision.  The dispatcher `PickPastState` of either cache runs exactly one
instantiation of `PickPastState<ScoreType>`: the `float` one when the configured score
type is `float`, the half-precision one otherwise.  For the same cache and mapping the
two instantiations end the same way and leave the same shapes and data in `pasts_`.  In
the fused cache of shape `[2, B, H, S, D]`, for a mapping with entries in `[0, B)` and
the instantiation of width `w`, the copies issued are, for `j = 0, 1, ..` in order, the
key block from byte offset `m[j]*block*w` of the present buffer to byte offset
`j*block*w` of the past buffer and the value block from `(B + m[j])*block*w` to
`(B + j)*block*w`, each of `block*w` bytes, with `block = H*S*D`: the same element index
ranges for both widths. -/
theorem C16_precision_dispatch {α : Type} (B H S D : Nat) (self : KV_Cache_Combined α)
    (c2 : KV_Cache α) (a : Allocator α) (g : Nat → α) (ms : List Nat) (m : List Int)
    (index : Nat) (present : Tensor α)
    (hshape : self.shape_ = { d0 := 2, d1 := B, d2 := H, d3 := S, d4 := D })
    (hpres : self.presents_[index]? = some (some present))
    (hplen : present.data.length = 2 * B * (H * S * D))
    (halloc : a.outcome a.count = some g)
    (hm : ms.length ≤ B) (hrange : ∀ b ∈ ms, b < B) :
    ScoreType.sizeof ScoreType.float = 4 ∧ ScoreType.sizeof ScoreType.float16 = 2 ∧
    (self.model_.score_type_ = ScoreType.float →
      KV_Cache_Combined.PickPastState m index self a =
        KV_Cache_Combined.PickPastStateT ScoreType.float m index self a) ∧
    (self.model_.score_type_ ≠ ScoreType.float →
      KV_Cache_Combined.PickPastState m index self a =
        KV_Cache_Combined.PickPastStateT ScoreType.float16 m index self a) ∧
    (c2.model_.score_type_ = ScoreType.float →
      KV_Cache.PickPastState m index c2 a =
        KV_Cache.PickPastStateT ScoreType.float m index c2 a) ∧
    (c2.model_.score_type_ ≠ ScoreType.float →
      KV_Cache.PickPastState m index c2 a =
        KV_Cache.PickPastStateT ScoreType.float16 m index c2 a) ∧
    ((KV_Cache_Combined.PickPastStateT ScoreType.float m index self a).1 =
        (KV_Cache_Combined.PickPastStateT ScoreType.float16 m index self a).1 ∧
      (KV_Cache_Combined.PickPastStateT ScoreType.float m index self a).2.1.pasts_.map
          (Option.map (fun t => (t.shape, t.data))) =
        (KV_Cache_Combined.PickPastStateT ScoreType.float16 m index self a).2.1.pasts_.map
          (Option.map (fun t => (t.shape, t.data)))) ∧
    ((KV_Cache.PickPastStateT ScoreType.float m index c2 a).1 =
        (KV_Cache.PickPastStateT ScoreType.float16 m index c2 a).1 ∧
      (KV_Cache.PickPastStateT ScoreType.float m index c2 a).2.1.pasts_.map
          (Option.map (fun t => (t.shape, t.data))) =
        (KV_Cache.PickPastStateT ScoreType.float16 m index c2 a).2.1.pasts_.map
          (Option.map (fun t => (t.shape, t.data)))) ∧
    (∀ T : ScoreType,
      KV_Cache_Combined.PickPastStateCopies T (ms.map (fun (b : Nat) => (b : Int))) index self a =
        (Status.ok,
          (List.enumFrom 0 ms).flatMap (fun p =>
            [({ source := p.2 * (H * S * D) * T.sizeof, dest := p.1 * (H * S * D) * T.sizeof,
                count := H * S * D * T.sizeof } : CopyOp),
             { source := (B + p.2) * (H * S * D) * T.sizeof,
               dest := (B + p.1) * (H * S * D) * T.sizeof,
               count := H * S * D * T.sizeof }]))) := by
  refine ⟨rfl, rfl, ?_, ?_, ?_, ?_, KV_Cache_Combined.PickPastStateT_width_fused m index self a,
    KV_Cache.PickPastStateT_width_split m index c2 a, ?_⟩
  · intro h
    rw [KV_Cache_Combined.PickPastState_eq_fused, h]
  · intro h
    rw [KV_Cache_Combined.PickPastState_eq_fused]
    cases hs : self.model_.score_type_
    · exact absurd hs h
    · rfl
  · intro h
    rw [KV_Cache.PickPastState_eq_split, h]
  · intro h
    rw [KV_Cache.PickPastState_eq_split]
    cases hs : c2.model_.score_type_
    · exact absurd hs h
    · rfl
  · intro T
    exact KV_Cache_Combined.PickPastStateCopies_run_fused T B H S D self a g ms index present
      hshape hpres hplen halloc hm hrange

/-- Witness for C16: the cache of shape `[2, 2, 1, 1, 2]` with the beams swapped, in
half precision: blocks of 2 elements, 4 bytes each. -/
theorem C16_precision_dispatch_witness :
    KV_Cache_Combined.PickPastStateCopies ScoreType.float16 [1, 0] 0 exampleFused
        exampleAllocator =
      (Status.ok,
        [{ source := 4, dest := 0, count := 4 }, { source := 12, dest := 8, count := 4 },
         { source := 0, dest := 4, count := 4 }, { source := 8, dest := 12, count := 4 }]) :=
  (C16_precision_dispatch 2 1 1 2 exampleFused exampleSplit exampleAllocator (fun _ => 0) [1, 0]
    [1, 0] 0
    { type := ScoreType.float, shape := [2, 2, 1, 1, 2], data := [10, 11, 20, 21, 30, 31, 40, 41] }
    rfl rfl rfl rfl (by decide) (by decide)).2.2.2.2.2.2.2.2 ScoreType.float16

/-- The fused `PickPastState<ScoreType>` does not depend on the model it runs under, device
kind and build flag included: same copies, same ending, same `pasts_`, same allocator. -/
theorem KV_Cache_Combined.PickPastStateT_device_fused {α : Type} (T : ScoreType) (m : List Int)
    (index : Nat) (self : KV_Cache_Combined α) (a : Allocator α) (mc mh : Model) :
    KV_Cache_Combined.PickPastStateCopies T m index { self with model_ := mc } a =
      KV_Cache_Combined.PickPastStateCopies T m index { self with model_ := mh } a ∧
    (KV_Cache_Combined.PickPastStateT T m index { self with model_ := mc } a).1 =
      (KV_Cache_Combined.PickPastStateT T m index { self with model_ := mh } a).1 ∧
    (KV_Cache_Combined.PickPastStateT T m index { self with model_ := mc } a).2.1.pasts_ =
      (KV_Cache_Combined.PickPastStateT T m index { self with model_ := mh } a).2.1.pasts_ ∧
    (KV_Cache_Combined.PickPastStateT T m index { self with model_ := mc } a).2.2 =
      (KV_Cache_Combined.PickPastStateT T m index { self with model_ := mh } a).2.2 := by
  refine ⟨?_, ?_⟩
  · unfold KV_Cache_Combined.PickPastStateCopies
    simp only [KV_Cache_Combined.cudaCopies_eq_hostCopies_fused, ite_self]
  · unfold KV_Cache_Combined.PickPastStateT CreateTensor
    simp only [KV_Cache_Combined.cudaLoop_eq_hostLoop_fused, ite_self]
    rcases hp : self.presents_[index]? with _ | (_ | present)
    · exact ⟨rfl, rfl, rfl⟩
    · exact ⟨rfl, rfl, rfl⟩
    · rcases ha : a.outcome a.count with _ | g
      · exact ⟨rfl, rfl, rfl⟩
      · simp only [List.length_map, List.length_range]
        split
        · split
          · split
            · exact ⟨rfl, rfl, rfl⟩
            · exact ⟨rfl, rfl, rfl⟩
          · exact ⟨rfl, rfl, rfl⟩
        · exact ⟨rfl, rfl, rfl⟩

/-- The split `PickPastState<ScoreType>` does not depend on the model it runs under, device
kind and build flag included: same copies, same ending, same `pasts_`, same allocator. -/
theorem KV_Cache.PickPastStateT_device_split {α : Type} (T : ScoreType) (m : List Int)
    (index : Nat) (self : KV_Cache α) (a : Allocator α) (mc mh : Model) :
    KV_Cache.PickPastStateCopies T m index { self with model_ := mc } a =
      KV_Cache.PickPastStateCopies T m index { self with model_ := mh } a ∧
    (KV_Cache.PickPastStateT T m index { self with model_ := mc } a).1 =
      (KV_Cache.PickPastStateT T m index { self with model_ := mh } a).1 ∧
    (KV_Cache.PickPastStateT T m index { self with model_ := mc } a).2.1.pasts_ =
      (KV_Cache.PickPastStateT T m index { self with model_ := mh } a).2.1.pasts_ ∧
    (KV_Cache.PickPastStateT T m index { self with model_ := mc } a).2.2 =
      (KV_Cache.PickPastStateT T m index { self with model_ := mh } a).2.2 := by
  refine ⟨?_, ?_⟩
  · unfold KV_Cache.PickPastStateCopies
    simp only [KV_Cache.cudaCopies_eq_hostCopies_split, ite_self]
  · unfold KV_Cache.PickPastStateT CreateTensor
    simp only [KV_Cache.cudaLoop_eq_hostLoop_split, ite_self]
    rcases hp : self.presents_[index]? with _ | (_ | present)
    · exact ⟨rfl, rfl, rfl⟩
    · exact ⟨rfl, rfl, rfl⟩
    · rcases ha : a.outcome a.count with _ | g
      · exact ⟨rfl, rfl, rfl⟩
      · simp only [List.length_map, List.length_range]
        split
        · split
          · split
            · exact ⟨rfl, rfl, rfl⟩
            · exact ⟨rfl, rfl, rfl⟩
          · exact ⟨rfl, rfl, rfl⟩
        · exact ⟨rfl, rfl, rfl⟩

/-- C17. Device-branch equivalence.  For both cache variants, every element width, shape
(block size, key size, spans) and mapping, the CUDA branch and the host branch of
`PickPastState<ScoreType>` issue the same copies (source offset, destination offset,
count) in the same order and end the same way, and the buffer left by the queued CUDA
copies is the buffer left by the host copies.  Hence `PickPastState<ScoreType>` run on a
CUDA device of a CUDA build and run on a host device issue the same copies, end the same
way and leave the same `pasts_`. -/
theorem C17_device_branch_equivalence {α : Type} (w : Nat) (block pks : Int)
    (present : List α) (ps qs : Span) (j : Nat) (m : List Int) (past : List α) (T : ScoreType)
    (index : Nat) (self : KV_Cache_Combined α) (c2 : KV_Cache α) (a : Allocator α) :
    KV_Cache_Combined.cudaCopies w block pks ps qs j m =
      KV_Cache_Combined.hostCopies w block pks ps qs j m ∧
    KV_Cache_Combined.cudaLoop block pks present ps qs j m past =
      KV_Cache_Combined.hostLoop block pks present ps qs j m past ∧
    KV_Cache.cudaCopies w block ps qs j m = KV_Cache.hostCopies w block ps qs j m ∧
    KV_Cache.cudaLoop block present ps qs j m past =
      KV_Cache.hostLoop block present ps qs j m past ∧
    (KV_Cache_Combined.PickPastStateCopies T m index
        { self with
          model_ := { self.model_ with USE_CUDA := true, device_type_ := DeviceType.CUDA } } a =
      KV_Cache_Combined.PickPastStateCopies T m index
        { self with model_ := { self.model_ with device_type_ := DeviceType.CPU } } a ∧
     (KV_Cache_Combined.PickPastStateT T m index
        { self with
          model_ := { self.model_ with USE_CUDA := true, device_type_ := DeviceType.CUDA } } a).1 =
      (KV_Cache_Combined.PickPastStateT T m index
        { self with model_ := { self.model_ with device_type_ := DeviceType.CPU } } a).1 ∧
     (KV_Cache_Combined.PickPastStateT T m index
        { self with
          model_ := { self.model_ with USE_CUDA := true, device_type_ := DeviceType.CUDA } }
        a).2.1.pasts_ =
      (KV_Cache_Combined.PickPastStateT T m index
        { self with model_ := { self.model_ with device_type_ := DeviceType.CPU } }
        a).2.1.pasts_) ∧
    (KV_Cache.PickPastStateCopies T m index
        { c2 with
          model_ := { c2.model_ with USE_CUDA := true, device_type_ := DeviceType.CUDA } } a =
      KV_Cache.PickPastStateCopies T m index
        { c2 with model_ := { c2.model_ with device_type_ := DeviceType.CPU } } a ∧
     (KV_Cache.PickPastStateT T m index
        { c2 with
          model_ := { c2.model_ with USE_CUDA := true, device_type_ := DeviceType.CUDA } } a).1 =
      (KV_Cache.PickPastStateT T m index
        { c2 with model_ := { c2.model_ with device_type_ := DeviceType.CPU } } a).1 ∧
     (KV_Cache.PickPastStateT T m index
        { c2 with
          model_ := { c2.model_ with USE_CUDA := true, device_type_ := DeviceType.CUDA } }
        a).2.1.pasts_ =
      (KV_Cache.PickPastStateT T m index
        { c2 with model_ := { c2.model_ with device_type_ := DeviceType.CPU } }
        a).2.1.pasts_) := by
  have hf := KV_Cache_Combined.PickPastStateT_device_fused T m index self a
    { self.model_ with USE_CUDA := true, device_type_ := DeviceType.CUDA }
    { self.model_ with device_type_ := DeviceType.CPU }
  have hs := KV_Cache.PickPastStateT_device_split T m index c2 a
    { c2.model_ with USE_CUDA := true, device_type_ := DeviceType.CUDA }
    { c2.model_ with device_type_ := DeviceType.CPU }
  exact ⟨KV_Cache_Combined.cudaCopies_eq_hostCopies_fused w block pks ps qs m j,
    KV_Cache_Combined.cudaLoop_eq_hostLoop_fused block pks present ps qs m j past,
    KV_Cache.cudaCopies_eq_hostCopies_split w block ps qs m j,
    KV_Cache.cudaLoop_eq_hostLoop_split block present ps qs m j past,
    ⟨hf.1, hf.2.1, hf.2.2.1⟩, ⟨hs.1, hs.2.1, hs.2.2.1⟩⟩

theorem getD_range_self (B j : Nat) (hj : j < B) : (List.range B).getD j 0 = j := by
  rw [List.getD_eq_getElem _ _ (by simpa using hj)]
  simp

/-- The fused `Update` with the identity mapping against the fused `Update` with the empty
mapping, from one state. -/
theorem KV_Cache_Combined.Update_identity_fused {α : Type} (n B H S D : Nat)
    (self : KV_Cache_Combined α) (a : Allocator α) (L : Int)
    (hinv : self.ShapedAs n B H S D) (halloc : ∀ i, ∃ g, a.outcome i = some g) :
    ∃ (s1 : KV_Cache_Combined α) (a1 : Allocator α) (s2 : KV_Cache_Combined α)
      (a2 : Allocator α),
      KV_Cache_Combined.Update ((List.range B).map (fun (b : Nat) => (b : Int))) L self a =
        (Status.ok, s1, a1) ∧
      KV_Cache_Combined.Update [] L self a = (Status.ok, s2, a2) ∧
      s1.pasts_.map (Option.map (fun t => (t.shape, t.data))) =
        s2.pasts_.map (Option.map (fun t => (t.shape, t.data))) ∧
      s1.presents_.map (Option.map (fun t => t.shape)) =
        s2.presents_.map (Option.map (fun t => t.shape)) ∧
      s1.shape_ = s2.shape_ := by
  obtain ⟨hlc, hshape, hpl, hprl, hpres⟩ := hinv
  have hn : self.layer_count_.toNat = n := by rw [hlc]; simp
  obtain ⟨prs2, hrun2, hlen2, hprs2⟩ :=
    KV_Cache_Combined.Update_empty_run_fused self a L n hn hpl hprl (fun k _ => halloc _)
  by_cases hB : B = 0
  · subst hB
    exact ⟨_, _, _, _, hrun2, hrun2, rfl, rfl, rfl⟩
  · obtain ⟨ps, prs, hrun, hpsl, hprsl, hps, hprs⟩ :=
      KV_Cache_Combined.Update_reorder_run_fused B H S D self a (List.range B) L n hn hshape hpl
        hprl (fun p hp => by obtain ⟨t, ht, _, hl⟩ := hpres p hp; exact ⟨t, ht, hl⟩)
        (fun k _ => halloc _) (by simpa using hB) (by simp)
        (fun b hb => by simpa using hb)
    refine ⟨_, _, _, _, hrun, hrun2, ?_, ?_, ?_⟩
    · apply List.ext_getElem?
      intro i
      simp only [List.getElem?_map]
      by_cases hi : i < n
      · obtain ⟨present, out, g, hp, _, hpsi, holen, _, hfill⟩ := hps i hi
        obtain ⟨t, ht, hsh, hl⟩ := hpres _ (List.getElem?_mem hp)
        cases ht
        rw [hpsi, hp]
        simp only [Option.map_some', Option.some.injEq, Prod.mk.injEq]
        refine ⟨hsh.symm, ?_⟩
        apply List.ext_getElem?
        intro p
        by_cases hp2 : p < 2 * B * (H * S * D)
        · obtain ⟨j, e, hj, he, hk⟩ := fused_cover B (H * S * D) p hp2
          have hf := hfill j e (by simpa using hj) he
          rw [getD_range_self B j hj] at hf
          rcases hk with rfl | rfl
          · exact hf.1
          · exact hf.2
        · rw [List.getElem?_eq_none (by omega), List.getElem?_eq_none (by omega)]
      · rw [List.getElem?_eq_none (by omega), List.getElem?_eq_none (by omega)]
    · apply List.ext_getElem?
      intro i
      simp only [List.getElem?_map]
      by_cases hi : i < n
      · obtain ⟨g1, _, h1⟩ := hprs i hi
        obtain ⟨g2, _, h2⟩ := hprs2 i hi
        rw [h1, h2, hshape]
        rfl
      · rw [List.getElem?_eq_none (by omega), List.getElem?_eq_none (by omega)]
    · simp only [hshape]

/-- The split `Update` with the identity mapping against the split `Update` with the empty
mapping, from one state. -/
theorem KV_Cache.Update_identity_split {α : Type} (n B H S D : Nat)
    (self : KV_Cache α) (a : Allocator α) (L : Int)
    (hinv : self.ShapedAs n B H S D) (halloc : ∀ i, ∃ g, a.outcome i = some g) :
    ∃ (s1 : KV_Cache α) (a1 : Allocator α) (s2 : KV_Cache α) (a2 : Allocator α),
      KV_Cache.Update ((List.range B).map (fun (b : Nat) => (b : Int))) L self a =
        (Status.ok, s1, a1) ∧
      KV_Cache.Update [] L self a = (Status.ok, s2, a2) ∧
      s1.pasts_.map (Option.map (fun t => (t.shape, t.data))) =
        s2.pasts_.map (Option.map (fun t => (t.shape, t.data))) ∧
      s1.presents_.map (Option.map (fun t => t.shape)) =
        s2.presents_.map (Option.map (fun t => t.shape)) ∧
      s1.shape_ = s2.shape_ := by
  obtain ⟨hlc, hshape, hpl, hprl, hpres⟩ := hinv
  have hn : (self.layer_count_ * 2).toNat = n := by rw [hlc]; simp
  obtain ⟨prs2, hrun2, hlen2, hprs2⟩ :=
    KV_Cache.Update_empty_run_split self a L n hn hpl hprl (fun k _ => halloc _)
  by_cases hB : B = 0
  · subst hB
    exact ⟨_, _, _, _, hrun2, hrun2, rfl, rfl, rfl⟩
  · obtain ⟨ps, prs, hrun, hpsl, hprsl, hps, hprs⟩ :=
      KV_Cache.Update_reorder_run_split B H S D self a (List.range B) L n hn hshape hpl
        hprl (fun p hp => by obtain ⟨t, ht, _, hl⟩ := hpres p hp; exact ⟨t, ht, hl⟩)
        (fun k _ => halloc _) (by simpa using hB) (by simp)
        (fun b hb => by simpa using hb)
    refine ⟨_, _, _, _, hrun, hrun2, ?_, ?_, ?_⟩
    · apply List.ext_getElem?
      intro i
      simp only [List.getElem?_map]
      by_cases hi : i < n
      · obtain ⟨present, out, g, hp, _, hpsi, holen, _, hfill⟩ := hps i hi
        obtain ⟨t, ht, hsh, hl⟩ := hpres _ (List.getElem?_mem hp)
        cases ht
        rw [hpsi, hp]
        simp only [Option.map_some', Option.some.injEq, Prod.mk.injEq]
        refine ⟨hsh.symm, ?_⟩
        apply List.ext_getElem?
        intro p
        by_cases hp2 : p < B * (H * S * D)
        · obtain ⟨j, e, hj, he, hk⟩ := split_cover B (H * S * D) p hp2
          have hf := hfill j e (by simpa using hj) he
          rw [getD_range_self B j hj] at hf
          rw [hk]
          exact hf
        · rw [List.getElem?_eq_none (by omega), List.getElem?_eq_none (by omega)]
      · rw [List.getElem?_eq_none (by omega), List.getElem?_eq_none (by omega)]
    · apply List.ext_getElem?
      intro i
      simp only [List.getElem?_map]
      by_cases hi : i < n
      · obtain ⟨g1, _, h1⟩ := hprs i hi
        obtain ⟨g2, _, h2⟩ := hprs2 i hi
        rw [h1, h2, hshape]
        rfl
      · rw [List.getElem?_eq_none (by omega), List.getElem?_eq_none (by omega)]
    · simp only [hshape]

/-- Counterexample to C18 as stated.  From the one-layer fused cache with an allocator
whose second request fails, `Update([0, 1], 2)` propagates the failure (it allocates the
new past first) while `Update([], 2)` returns normally; and from a state whose present
slot is empty, `Update([0, 1], 2)` is undefined while `Update([], 2)` returns normally. -/
theorem C18_counterexample :
    (KV_Cache_Combined.Update [0, 1] 2 exampleFused (exampleAllocatorFailingAt 1)).1 =
      Status.threw ∧
    (KV_Cache_Combined.Update [] 2 exampleFused (exampleAllocatorFailingAt 1)).1 = Status.ok ∧
    (KV_Cache_Combined.Update [0, 1] 2 { exampleFused with presents_ := [none] }
      exampleAllocator).1 = Status.ub ∧
    (KV_Cache_Combined.Update [] 2 { exampleFused with presents_ := [none] }
      exampleAllocator).1 = Status.ok := by
  decide

/-- C18, as amended. Identity mapping equals the fast path.  For both cache variants, from
every state between calls (every present buffer filled and of the shape held in `shape_`),
every length `L` and allocations succeeding, `Update([0, 1, .., batch×beams-1], L)` and
`Update([], L)` both return normally, with past buffers of the same shape and the same
content, present buffers of the same shape, and the same `shape_`. -/
theorem C18_identity_mapping {α : Type} (n B H S D n2 B2 H2 S2 D2 : Nat)
    (self : KV_Cache_Combined α) (c2 : KV_Cache α) (a : Allocator α) (L : Int)
    (hinv : self.ShapedAs n B H S D) (hinv2 : c2.ShapedAs n2 B2 H2 S2 D2)
    (halloc : ∀ i, ∃ g, a.outcome i = some g) :
    (∃ (s1 : KV_Cache_Combined α) (a1 : Allocator α) (s2 : KV_Cache_Combined α)
      (a2 : Allocator α),
      KV_Cache_Combined.Update ((List.range B).map (fun (b : Nat) => (b : Int))) L self a =
        (Status.ok, s1, a1) ∧
      KV_Cache_Combined.Update [] L self a = (Status.ok, s2, a2) ∧
      s1.pasts_.map (Option.map (fun t => (t.shape, t.data))) =
        s2.pasts_.map (Option.map (fun t => (t.shape, t.data))) ∧
      s1.presents_.map (Option.map (fun t => t.shape)) =
        s2.presents_.map (Option.map (fun t => t.shape)) ∧
      s1.shape_ = s2.shape_) ∧
    (∃ (s1 : KV_Cache α) (a1 : Allocator α) (s2 : KV_Cache α) (a2 : Allocator α),
      KV_Cache.Update ((List.range B2).map (fun (b : Nat) => (b : Int))) L c2 a =
        (Status.ok, s1, a1) ∧
      KV_Cache.Update [] L c2 a = (Status.ok, s2, a2) ∧
      s1.pasts_.map (Option.map (fun t => (t.shape, t.data))) =
        s2.pasts_.map (Option.map (fun t => (t.shape, t.data))) ∧
      s1.presents_.map (Option.map (fun t => t.shape)) =
        s2.presents_.map (Option.map (fun t => t.shape)) ∧
      s1.shape_ = s2.shape_) :=
  ⟨KV_Cache_Combined.Update_identity_fused n B H S D self a L hinv halloc,
    KV_Cache.Update_identity_split n2 B2 H2 S2 D2 c2 a L hinv2 halloc⟩

/-- Witness for C18 as amended: the one-layer caches with two beams, new length 2. -/
theorem C18_identity_mapping_witness :
    (KV_Cache_Combined.Update [0, 1] 2 exampleFused exampleAllocator).2.1.pasts_.map
        (Option.map (fun t => (t.shape, t.data))) =
      (KV_Cache_Combined.Update [] 2 exampleFused exampleAllocator).2.1.pasts_.map
        (Option.map (fun t => (t.shape, t.data))) ∧
    (KV_Cache.Update [0, 1] 2 exampleSplit exampleAllocator).2.1.pasts_.map
        (Option.map (fun t => (t.shape, t.data))) =
      (KV_Cache.Update [] 2 exampleSplit exampleAllocator).2.1.pasts_.map
        (Option.map (fun t => (t.shape, t.data))) := by
  obtain ⟨⟨s1, a1, s2, a2, h1, h2, h3, _⟩, ⟨t1, b1, t2, b2, k1, k2, k3, _⟩⟩ :=
    @C18_identity_mapping Nat 1 2 1 1 2 2 2 1 1 2 exampleFused exampleSplit exampleAllocator 2
      ⟨rfl, rfl, rfl, rfl, fun p hp => by
        simp only [exampleFused, List.mem_singleton] at hp
        subst hp
        exact ⟨_, rfl, rfl, rfl⟩⟩
      ⟨rfl, rfl, rfl, rfl, fun p hp => by
        simp only [exampleSplit, List.mem_cons, List.mem_singleton, List.not_mem_nil,
          or_false] at hp
        rcases hp with hp | hp <;> subst hp <;> exact ⟨_, rfl, rfl, rfl⟩⟩
      (fun _ => ⟨_, rfl⟩)
  have e1 : (List.range 2).map (fun (b : Nat) => (b : Int)) = [0, 1] := rfl
  rw [e1] at h1 k1
  rw [h1, h2, k1, k2]
  exact ⟨h3, k3⟩

theorem strncpy_run (string : List Char) :
    ∃ buffer, strncpy (make_unique (string.length + 1)) (c_str string) (string.length + 1) =
      (Status.ok, buffer, List.range (string.length + 1)) ∧
      buffer.length = string.length + 1 := by
  have hlen : (make_unique (string.length + 1)).length = string.length + 1 := by
    simp [make_unique]
  unfold strncpy
  rw [if_pos (by rw [hlen])]
  refine ⟨_, rfl, ?_⟩
  have h := List.length_take_le (string.length + 1)
    ((c_str string).takeWhile (fun c => c ≠ Char.ofNat 0))
  simp only [List.length_append, List.length_replicate, List.length_drop, hlen]
  omega

/-- C19: the code at its failing inputs.  For every decoded string `s`, the buffer of
`OgaTokenizerDecode` and of `OgaProcessorDecode` has `|s|+1` chars, `strncpy` writes the
indices `0 .. |s|`, and the statement `cstr_buffer[length] = 0` then writes index `|s|+1`,
one past the end of the buffer: undefined behaviour.  For the string `hi` the indices
written are 0, 1, 2 and 3 in a buffer of 3 chars. -/
theorem C19_decode_writes_past_the_end (string : List Char) :
    (OgaTokenizerDecode string).1 = Status.ub ∧
    (OgaTokenizerDecode string).2.1.length = string.length + 1 ∧
    (OgaTokenizerDecode string).2.2 = List.range (string.length + 1) ++ [string.length + 1] ∧
    OgaProcessorDecode string = OgaTokenizerDecode string ∧
    OgaTokenizerDecode ['h', 'i'] =
      (Status.ub, ['h', 'i', Char.ofNat 0], [0, 1, 2, 3]) := by
  obtain ⟨buffer, hrun, hlen⟩ := strncpy_run string
  have hw : writeAt buffer (string.length + 1) (Char.ofNat 0) = (Status.ub, buffer) := by
    unfold writeAt
    rw [if_neg (by omega)]
  refine ⟨?_, ?_, ?_, rfl, by decide⟩
  · simp only [OgaTokenizerDecode, hrun, hw]
  · simp only [OgaTokenizerDecode, hrun, hw, hlen]
  · simp only [OgaTokenizerDecode, hrun, hw]

end Generators
